import Mathlib

/-!
# tictactoe server: board engine, registry, request handlers and connection loop

A shallow embedding of `src/server.c` (with the constants of `src/constants.h`).

* C `char` and `unsigned char` values are their byte value, a `Nat`.
* `size_t` and `unsigned long` are `Nat` with explicit reduction modulo `2 ^ 64`.
* A pointer to a `User` is `Option Nat`: `none` is `NULL`, `some a` the address `a`.
* Every access to `board->matrix` and to the message buffer is checked: a function
  returns `none` when the C code would touch memory outside the object (or when a
  loop runs out of fuel), and `some r` when it returns normally with result `r`.
* Boards live in a `board_memory`, a map from addresses to boards that also records
  what was passed to `free`; what `malloc`, `random`, the mutex calls and `send` return
  is a parameter of the function that calls them.
* Requests of several sessions are run one after the other (`run_board_calls`,
  `run_requests`): each handler call ends before the next one starts.
-/

namespace TicTacToe

/-! ## constants.h -/

def NUMBER_OF_OPCODES : Nat := 256
def BUFFER_LENGTH : Nat := 256
def USERNAMELEN : Nat := 4
def PASSWORDLEN : Nat := 4
def BOARD_SIZE : Nat := 3
def REALLOC_SIZE : Nat := 5

def LOGIN_REQUEST : Nat := 0
def LOGOUT_REQUEST : Nat := 1
def CREATE_USER_REQUEST : Nat := 2
def JOIN_RANDOM_GAME_REQUEST : Nat := 3
def CREATE_NEW_GAME_REQUEST : Nat := 4
def LEAVE_GAME_REQUEST : Nat := 5
def ACTION_REQUEST : Nat := 6
def INTERNAL_CLIENT_ERROR : Nat := 7

def PEER_LEFT_NOTIFY : Nat := 233
def CANNOT_WRITE_HERE : Nat := 234
def ACTION_NOTIFY : Nat := 235
def OTHER_PLAYER_PRESENT_NOTIFY : Nat := 236
def NO_FURTHER_ACTIONS_PERMITTED : Nat := 237
def NOT_YOUR_TURN : Nat := 238
def GAME_IS_FINISHED : Nat := 239
def LEAVE_GAME_REPLY : Nat := 240
def JOIN_RANDOM_GAME_REPLY : Nat := 241
def ACTION_REPLY : Nat := 242
def CREATE_NEW_GAME_SUCCESS : Nat := 243
def CREATE_USER_SUCCESS : Nat := 244
def LOGIN_SUCCESS : Nat := 245
def LOGOUT_REPLY : Nat := 246
def NO_PLAYER_PRESENT : Nat := 247
def INVALID_OPERANDS : Nat := 248
def NO_GAMES_AVAILABLE : Nat := 249
def NOT_IMPLEMENTED : Nat := 250
def USER_ALREADY_EXISTS : Nat := 251
def INTERNAL_SERVER_ERROR : Nat := 252
def INVALID_REQUEST : Nat := 253
def IO_ERROR : Nat := 254
def LOGIN_FAILED : Nat := 255

def ANY_ERROR : Nat := NO_PLAYER_PRESENT
def NO_ERROR : Nat := LOGOUT_REPLY
def FATAL_ERRORS : Nat := INTERNAL_SERVER_ERROR

/-! ## Character literals used by the server -/

/-- The byte `'x'`. -/
def ch_x : Nat := 120
/-- The byte `'o'`. -/
def ch_o : Nat := 111
/-- The byte `'X'`. -/
def ch_X : Nat := 88
/-- The byte `'O'`. -/
def ch_O : Nat := 79
/-- The byte `'D'`. -/
def ch_D : Nat := 68
/-- The byte `' '`, an empty cell. -/
def ch_space : Nat := 32
/-- The byte `'0'`. -/
def ch_0 : Nat := 48

/-! ## Machine arithmetic -/

/-- One more than `SIZE_MAX` (and than `ULONG_MAX`): `size_t` is 64 bits wide. -/
def SIZE_MOD : Nat := 2 ^ 64

/-- Subtraction of two `size_t` values, wrapping modulo `2 ^ 64`. -/
def size_sub (a b : Nat) : Nat := (a % SIZE_MOD + SIZE_MOD - b % SIZE_MOD) % SIZE_MOD

/-- Addition of two `size_t` values, wrapping modulo `2 ^ 64`. -/
def size_add (a b : Nat) : Nat := (a + b) % SIZE_MOD

/-- Multiplication of two `size_t` values, wrapping modulo `2 ^ 64`. -/
def size_mul (a b : Nat) : Nat := (a * b) % SIZE_MOD

/-- The index expression `(board->board_size * r) + c` of cell `(r, c)`. -/
def cell_index (n r c : Nat) : Nat := size_add (size_mul n r) c

/-- The expression `character - 0x20` stored back into a `char`. -/
def to_won_state (character : Nat) : Nat := (character + 256 - 0x20) % 256

/-! ## Data model (`struct game_board`, `struct session_details`) -/

/-- The `struct game_board` of the server, without its mutex. -/
structure game_board where
  matrix : List Nat
  player_1 : Option Nat
  player_2 : Option Nat
  host : Option Nat
  whose_turn : Nat
  board_size : Nat
  index : Nat
  player1_last_x : Nat
  player1_last_y : Nat
  player2_last_x : Nat
  player2_last_y : Nat
  player1_fd : Int
  player2_fd : Int
deriving DecidableEq

/-! ## write_x_or_o -/

/-- The three scanning loops of `write_x_or_o` (row, column, main diagonal):
`for(i = 0; i < board_size; i++) { if(matrix[idx i] != character) break; }`,
started at `i` with `fuel` iterations left; the result is the final `i`. -/
def scan_line (m : List Nat) (n : Nat) (idx : Nat → Nat) (character : Nat) :
    Nat → Nat → Option Nat
  | 0, _ => none
  | fuel + 1, i =>
    if i < n then
      match m[idx i]? with
      | none => none
      | some v => if v ≠ character then some i else scan_line m n idx character fuel (i + 1)
    else some i

/-- The anti-diagonal loop
`for(i = 0; i < board_size && j; i++) { if(matrix[board_size*i + j] != character) break; --j; }`;
the result is the final `(i, j)`. -/
def anti_loop (m : List Nat) (n character : Nat) : Nat → Nat → Nat → Option (Nat × Nat)
  | 0, _, _ => none
  | fuel + 1, i, j =>
    if i < n ∧ j ≠ 0 then
      match m[cell_index n i j]? with
      | none => none
      | some v =>
        if v ≠ character then some (i, j)
        else anti_loop m n character fuel (i + 1) (size_sub j 1)
    else some (i, j)

/-- The inner loop of the tie test for row `i`:
`for(j = 0; j < board_size; ++j) { if(matrix[board_size*i + j] == ' ') break; }`;
the result is the final `j`. -/
def tie_inner (m : List Nat) (n i : Nat) : Nat → Nat → Option Nat
  | 0, _ => none
  | fuel + 1, j =>
    if j < n then
      match m[cell_index n i j]? with
      | none => none
      | some v => if v = ch_space then some j else tie_inner m n i fuel (j + 1)
    else some j

/-- The outer loop of the tie test, `for(i = 0; i < board_size; ++i) <inner loop>`.
The `break` of the inner loop leaves only the inner loop, so the outer loop always
goes on with the next row; the result is the final `(i, j)`. -/
def tie_outer (m : List Nat) (n : Nat) : Nat → Nat → Nat → Option (Nat × Nat)
  | 0, _, _ => none
  | fuel + 1, i, j =>
    if i < n then
      match tie_inner m n i (n + 1) 0 with
      | none => none
      | some j1 => tie_outer m n fuel (i + 1) j1
    else some (i, j)

/-- Lines 282-294 of `write_x_or_o`: the tie test and the turn flip. `j0` is the value
`j` has on entry (it is overwritten by the inner loop as soon as `board_size > 0`). -/
def tie_or_flip (b : game_board) (character j0 : Nat) : Option (Int × game_board) :=
  match tie_outer b.matrix b.board_size (b.board_size + 1) 0 j0 with
  | none => none
  | some (i, j) =>
    if i = b.board_size ∧ j = b.board_size then
      some (0, { b with whose_turn := ch_D })
    else
      some (0, { b with whose_turn := if character = ch_x then ch_o else ch_x })

/-- Lines 260-281 of `write_x_or_o`: the diagonal tests, entered when
`x == y || y == (board->board_size - x)`, followed by the tie test. -/
def diagonals_then_tie (b : game_board) (x y character : Nat) : Option (Int × game_board) :=
  let n := b.board_size
  if x = y ∨ y = size_sub n x then
    match scan_line b.matrix n (fun i => cell_index n i i) character (n + 1) 0 with
    | none => none
    | some i =>
      if i = n then some (0, { b with whose_turn := to_won_state character })
      else
        match anti_loop b.matrix n character (n + 1) 0 (size_sub n 1) with
        | none => none
        | some (i, j) =>
          if j = 0 then
            match b.matrix[cell_index n (size_sub i 1) j]? with
            | none => none
            | some v =>
              if v = character then some (0, { b with whose_turn := to_won_state character })
              else tie_or_flip b character j
          else tie_or_flip b character j
  else tie_or_flip b character 0

/-- Lines 242-295 of `write_x_or_o`: everything after the mark has been written. -/
def after_write (b : game_board) (x y character : Nat) : Option (Int × game_board) :=
  let n := b.board_size
  match scan_line b.matrix n (fun i => cell_index n x i) character (n + 1) 0 with
  | none => none
  | some i =>
    if i = n then some (0, { b with whose_turn := to_won_state character })
    else
      match scan_line b.matrix n (fun i => cell_index n i y) character (n + 1) 0 with
      | none => none
      | some i =>
        if i = n then some (0, { b with whose_turn := to_won_state character })
        else diagonals_then_tie b x y character

/-- The function `write_x_or_o` of `server.c`. The board pointer is `none` for `NULL`;
the result is the return value together with the board as the call leaves it. -/
def write_x_or_o (board : Option game_board) (x y character : Nat) :
    Option (Int × Option game_board) :=
  match board with
  | none => some (-1, none)
  | some b =>
    if character = 0 then some (-1, some b)
    else if b.whose_turn ≠ character then some (-4, some b)
    else if x > size_sub b.board_size 1 ∨ y > size_sub b.board_size 1 then some (-2, some b)
    else
      match b.matrix[cell_index b.board_size x y]? with
      | none => none
      | some v =>
        if v ≠ ch_x ∧ v ≠ ch_o ∧ (character = ch_x ∨ character = ch_o) then
          match after_write
              { b with matrix := b.matrix.set (cell_index b.board_size x y) character }
              x y character with
          | none => none
          | some (r, b1) => some (r, some b1)
        else some (-5, some b)

/-- A board as `create_new_game_request` makes it: `BOARD_SIZE` squared empty cells. -/
def new_board (turn : Nat) (p1 p2 : Option Nat) : game_board :=
  { matrix := List.replicate (BOARD_SIZE * BOARD_SIZE) ch_space
    player_1 := p1, player_2 := p2, host := p1, whose_turn := turn
    board_size := BOARD_SIZE, index := 0
    player1_last_x := 0, player1_last_y := 0, player2_last_x := 0, player2_last_y := 0
    player1_fd := 4, player2_fd := 5 }

/-- Plays a list of moves `(x, y, character)` with `write_x_or_o`, stopping at the first
call that does not return 0. -/
def play_moves : Option game_board → List (Nat × Nat × Nat) → Option (Int × Option game_board)
  | b, [] => some (0, b)
  | b, (x, y, c) :: rest =>
    match write_x_or_o b x y c with
    | none => none
    | some (r, b1) => if r = 0 then play_moves b1 rest else some (r, b1)

/-! ## Coordinate decoding (`get_coordinates_from_buffer`) -/

/-- The value `ULONG_MAX`: `unsigned long` is 64 bits wide. -/
def ULONG_MAX : Nat := SIZE_MOD - 1

/-- The value of `ERANGE` in `errno.h`. -/
def ERANGE : Nat := 34

/-- The C library's `isspace` in the "C" locale. -/
def isspace (c : Nat) : Bool := c = 32 || (9 ≤ c && c ≤ 13)

/-- The C library's `isdigit`. -/
def isdigit (c : Nat) : Bool := 48 ≤ c && c ≤ 57

/-- Number of leading white-space bytes of `s`; `none` when the memory ends first. -/
def skip_space : List Nat → Option Nat
  | [] => none
  | c :: rest =>
    if isspace c then
      match skip_space rest with
      | none => none
      | some k => some (k + 1)
    else some 0

/-- Reads the decimal digits at the start of `s`: the (unbounded) value read so far and
the number of digits; `none` when the memory ends before a non-digit. -/
def read_digits : List Nat → Nat → Nat → Option (Nat × Nat)
  | [], _, _ => none
  | c :: rest, acc, k =>
    if isdigit c then read_digits rest (acc * 10 + (c - 48)) (k + 1) else some (acc, k)

/-- The C library's `strtoul(s, &end, 10)` on the bytes `s` starting at the pointer:
white space is skipped, one sign is accepted, then decimal digits are read. The result
is the value, the offset of `end` from the pointer, and `errno` afterwards: with no digit
the value is 0 and `end` is the pointer itself; a value above `ULONG_MAX` gives
`ULONG_MAX` and sets `errno` to `ERANGE`; otherwise `errno` is left as it was. -/
def strtoul (s : List Nat) (errno : Nat) : Option (Nat × Nat × Nat) :=
  match skip_space s with
  | none => none
  | some k =>
    match s[k]? with
    | none => none
    | some c =>
      let k1 := if c = 45 ∨ c = 43 then k + 1 else k
      match read_digits (s.drop k1) 0 0 with
      | none => none
      | some (v, cnt) =>
        if cnt = 0 then some (0, 0, errno)
        else if v > ULONG_MAX then some (ULONG_MAX, k1 + cnt, ERANGE)
        else some (if c = 45 then size_sub 0 v else v, k1 + cnt, errno)

/-- What `get_coordinates_from_buffer` leaves behind: its return value, the contents
of `*x` and `*y`, and `errno`. -/
structure coordinates where
  ret : Int
  x : Nat
  y : Nat
  errno : Nat
deriving DecidableEq

/-- The test `p[0] == '0' && p[1] == '\0'` at offset `p`, the second byte being read
only when the first is `'0'`. -/
def is_zero_text (buffer : List Nat) (p : Nat) : Option Bool :=
  match buffer[p]? with
  | none => none
  | some c =>
    if c = ch_0 then
      match buffer[p + 1]? with
      | none => none
      | some d => some (decide (d = 0))
    else some false

/-- Lines 421-430 of `get_coordinates_from_buffer`: the second operand, `next` being
the offset of the pointer `next` into the buffer. -/
def second_coordinate (buffer : List Nat) (next x errno : Nat) : Option coordinates :=
  match is_zero_text buffer (next + 1) with
  | none => none
  | some true => some { ret := 0, x := x, y := 0, errno := errno }
  | some false =>
    match strtoul (buffer.drop (next + 1)) errno with
    | none => none
    | some (v, _, e) =>
      if v = 0 ∨ e = ERANGE then some { ret := 3, x := x, y := v, errno := e }
      else some { ret := 0, x := x, y := v, errno := e }

/-- The function `get_coordinates_from_buffer` of `server.c`, called with non-null
`x` and `y`. `buffer` is the memory from the pointer on, `y0` the previous content of
`*y` and `errno` the value of `errno` on entry. -/
def get_coordinates_from_buffer (buffer : List Nat) (y0 errno : Nat) : Option coordinates :=
  match is_zero_text buffer 0 with
  | none => none
  | some true => second_coordinate buffer 1 0 errno
  | some false =>
    match strtoul buffer errno with
    | none => none
    | some (v, next, e) =>
      if v = 0 ∨ e = ERANGE then some { ret := 2, x := v, y := y0, errno := e }
      else second_coordinate buffer next v e

/-! ## action_request -/

/-- The `struct session_details` of the server. `current_game` holds the board the
pointer refers to; the registry pointer `games` is not used by `action_request`. -/
structure session_details where
  logged_in_user : Option Nat
  bytes_written : Nat
  fd : Int
  session_present : Nat
  current_game : Option game_board
deriving DecidableEq

/-- What a request handler leaves behind: the returned reply code, the reply buffer,
the session (with its board), `errno`, and whether the board's mutex is still locked. -/
structure action_result where
  ret : Nat
  buffer : List Nat
  session : Option session_details
  errno : Nat
  lock_held : Bool
deriving DecidableEq

/-- The common ending `buffer[0] = code; (*session_details)->bytes_written = 1; return code;`. -/
def reply (code : Nat) (buffer : List Nat) (s : session_details) (errno : Nat)
    (held : Bool) : action_result :=
  { ret := code, buffer := buffer.set 0 code,
    session := some { s with bytes_written := 1 }, errno := errno, lock_held := held }

/-- Lines 699-705 of `action_request`: the mover's last coordinates are recorded. -/
def record_last_move (user : Option Nat) (g : game_board) (x y : Nat) : game_board :=
  if user = g.player_1 then { g with player1_last_x := x, player1_last_y := y }
  else { g with player2_last_x := x, player2_last_y := y }

/-- Lines 699-725 of `action_request`, reached when `write_x_or_o` returned 0, -1 or -4. -/
def finish_action (buffer : List Nat) (s : session_details) (g1 : game_board) (x y errno : Nat)
    (unlock_rc : Int) : action_result :=
  let g2 := record_last_move s.logged_in_user g1 x y
  let s2 : session_details := { s with current_game := some g2 }
  if g2.whose_turn = ch_X ∨ g2.whose_turn = ch_O ∨ g2.whose_turn = ch_D then
    if unlock_rc ≠ 0 then
      { ret := INTERNAL_SERVER_ERROR,
        buffer := ((buffer.set 0 GAME_IS_FINISHED).set 1 g2.whose_turn).set 0 INTERNAL_SERVER_ERROR,
        session := some { s2 with bytes_written := 1 }, errno := errno, lock_held := true }
    else
      { ret := GAME_IS_FINISHED,
        buffer := (buffer.set 0 GAME_IS_FINISHED).set 1 g2.whose_turn,
        session := some { s2 with bytes_written := 2 }, errno := errno, lock_held := false }
  else if unlock_rc ≠ 0 then reply INTERNAL_SERVER_ERROR buffer s2 errno true
  else reply ACTION_REPLY buffer s2 errno false

/-- The function `action_request` of `server.c`. `session` is `*session_details`
(`none` for `NULL`), `errno` the value of `errno` on entry, `lock_rc` and `unlock_rc`
what `pthread_mutex_lock` and `pthread_mutex_unlock` return on the board's mutex.
The uninitialised locals `x` and `y` start as 0; they are read only after
`get_coordinates_from_buffer` has written both. -/
def action_request (buffer : List Nat) (session : Option session_details) (errno : Nat)
    (lock_rc unlock_rc : Int) : Option action_result :=
  match session with
  | none =>
    some { ret := INVALID_REQUEST, buffer := buffer.set 0 INVALID_REQUEST, session := none,
           errno := errno, lock_held := false }
  | some s =>
    match s.current_game with
    | none => some (reply INVALID_REQUEST buffer s errno false)
    | some g =>
      if s.session_present = 0 then some (reply INVALID_REQUEST buffer s errno false)
      else if lock_rc ≠ 0 then some (reply INTERNAL_SERVER_ERROR buffer s errno false)
      else if g.whose_turn = 0 ∨ g.whose_turn = ch_D then
        if unlock_rc ≠ 0 then some (reply INTERNAL_SERVER_ERROR buffer s errno true)
        else some (reply NO_FURTHER_ACTIONS_PERMITTED buffer s errno false)
      else if g.player_1 = none ∨ g.player_2 = none then
        if unlock_rc ≠ 0 then some (reply INTERNAL_SERVER_ERROR buffer s errno true)
        else some (reply NO_PLAYER_PRESENT buffer s errno false)
      else if (g.player_1 = s.logged_in_user ∧ g.whose_turn = ch_o)
          ∨ (g.player_2 = s.logged_in_user ∧ g.whose_turn = ch_x) then
        if unlock_rc ≠ 0 then some (reply INTERNAL_SERVER_ERROR buffer s errno true)
        else some (reply NOT_YOUR_TURN buffer s errno false)
      else
        let character := if g.player_1 = s.logged_in_user then ch_x else ch_o
        match get_coordinates_from_buffer (buffer.drop 1) 0 errno with
        | none => none
        | some c =>
          if c.ret ≠ 0 then some (reply INVALID_OPERANDS buffer s c.errno true)
          else
            match write_x_or_o (some g) c.x c.y character with
            | none => none
            | some (_, none) => none
            | some (ret_value, some g1) =>
              let s1 : session_details := { s with current_game := some g1 }
              if ret_value = -2 then
                some (reply INVALID_OPERANDS buffer s1 c.errno (decide (unlock_rc ≠ 0)))
              else if ret_value = -5 then
                some (reply CANNOT_WRITE_HERE buffer s1 c.errno (decide (unlock_rc ≠ 0)))
              else if ret_value = 0 ∨ ret_value = -1 ∨ ret_value = -4 then
                some (finish_action buffer s g1 c.x c.y c.errno unlock_rc)
              else
                some (reply INTERNAL_SERVER_ERROR buffer s1 c.errno (decide (unlock_rc ≠ 0)))

/-- A 256-byte receive buffer holding `bytes` followed by zero bytes, as the
connection loop prepares it (`memset` to 0, then `recv`). -/
def request_buffer (bytes : List Nat) : List Nat :=
  bytes ++ List.replicate (BUFFER_LENGTH - bytes.length) 0

/-! ## Vocabulary of the specification -/

/-- The turn state says that a side is to move. -/
@[reducible] def in_progress (b : game_board) : Prop :=
  b.whose_turn = ch_x ∨ b.whose_turn = ch_o

/-- The board has a positive size, its matrix holds `board_size * board_size` cells,
and that many bytes fit in the address space. -/
@[reducible] def well_formed (b : game_board) : Prop :=
  0 < b.board_size ∧ b.matrix.length = b.board_size * b.board_size ∧
    b.board_size * b.board_size < SIZE_MOD

/-- A legal move: it is the turn of mark `c`, `c` is `'x'` or `'o'`, the cell is on
the board and empty. -/
@[reducible] def legal_move (b : game_board) (x y c : Nat) : Prop :=
  b.whose_turn = c ∧ (c = ch_x ∨ c = ch_o) ∧ x < b.board_size ∧ y < b.board_size ∧
    b.matrix[b.board_size * x + y]? = some ch_space

/-- The matrix after mark `c` has been put on cell `(x, y)` of an `n` by `n` board. -/
@[reducible] def place (m : List Nat) (n x y c : Nat) : List Nat := m.set (n * x + y) c

/-- The terminal turn state for a win of mark `c`: `'X'` for `'x'`, `'O'` for `'o'`. -/
def won_state (c : Nat) : Nat := if c = ch_x then ch_X else ch_O

/-- Every cell of row `r` holds `c`. -/
@[reducible] def row_full (m : List Nat) (n r c : Nat) : Prop :=
  ∀ i < n, m[n * r + i]? = some c

/-- Every cell of column `k` holds `c`. -/
@[reducible] def col_full (m : List Nat) (n k c : Nat) : Prop :=
  ∀ i < n, m[n * i + k]? = some c

/-- Every cell `(i, i)` holds `c`. -/
@[reducible] def diag_full (m : List Nat) (n c : Nat) : Prop :=
  ∀ i < n, m[n * i + i]? = some c

/-- Every cell `(i, n - 1 - i)` holds `c`. -/
@[reducible] def anti_full (m : List Nat) (n c : Nat) : Prop :=
  ∀ i < n, m[n * i + (n - 1 - i)]? = some c

/-- Some full row, full column, the main diagonal or the anti-diagonal holds only `c`. -/
@[reducible] def has_line (m : List Nat) (n c : Nat) : Prop :=
  (∃ r < n, row_full m n r c) ∨ (∃ k < n, col_full m n k c) ∨ diag_full m n c ∨ anti_full m n c

/-- The two players of a game started with `'x'` to move: player 1 at address 1,
player 2 at address 2. -/
def start_board : game_board := new_board ch_x (some 1) (some 2)

/-- The position after x(1,1) o(0,0) x(2,0) o(0,1), `'x'` to move. -/
def anti_diagonal_board : game_board :=
  { start_board with
    matrix := [ch_o, ch_o, ch_space, ch_space, ch_x, ch_space, ch_x, ch_space, ch_space] }

/-- The position after x(0,2) o(0,0) x(1,0) o(2,2), `'x'` to move. -/
def false_win_board : game_board :=
  { start_board with
    matrix := [ch_o, ch_space, ch_x, ch_x, ch_space, ch_space, ch_space, ch_space, ch_o] }

/-- The position after x(2,0) o(2,1), `'x'` to move. -/
def early_tie_board : game_board :=
  { start_board with
    matrix := [ch_space, ch_space, ch_space, ch_space, ch_space, ch_space,
               ch_x, ch_o, ch_space] }

/-- The position after x(1,1) o(0,1) x(0,0) o(2,2) x(0,2) o(1,2) x(1,0) o(2,0),
`'x'` to move and cell (2,1) the only empty one. -/
def last_cell_board : game_board :=
  { start_board with
    matrix := [ch_x, ch_o, ch_x, ch_x, ch_x, ch_o, ch_o, ch_space, ch_o] }

/-- A position with `'x'` on (0,0), (0,1) and `'o'` on (1,0), (1,1), `'x'` to move. -/
def row_win_board : game_board :=
  { start_board with
    matrix := [ch_x, ch_x, ch_space, ch_o, ch_o, ch_space, ch_space, ch_space, ch_space]
    player1_last_x := 0, player1_last_y := 1, player2_last_x := 1, player2_last_y := 1 }

/-- The position `row_win_board` after `'x'` has won with (0,2). -/
def won_board : game_board :=
  { row_win_board with
    matrix := [ch_x, ch_x, ch_x, ch_o, ch_o, ch_space, ch_space, ch_space, ch_space]
    whose_turn := ch_X, player1_last_x := 0, player1_last_y := 2 }

/-- A full board that ended in a tie. -/
def tie_board : game_board :=
  { start_board with
    matrix := [ch_x, ch_o, ch_x, ch_x, ch_o, ch_o, ch_o, ch_x, ch_x]
    whose_turn := ch_D }

/-- The board `row_win_board` after player 2 has left the slot. -/
def waiting_board : game_board := { row_win_board with player_2 := none }

/-- An authenticated session of the user at address `user` on board `b`. -/
def session_on (user : Nat) (fd : Int) (b : game_board) : session_details :=
  { logged_in_user := some user, bytes_written := 0, fd := fd, session_present := 1,
    current_game := some b }

/-- The move request for the one-digit coordinates `x` and `y`: the opcode, the digit
of `x`, a zero byte, the digit of `y`, a zero byte. -/
def move_request (x y : Nat) : List Nat :=
  request_buffer [ACTION_REQUEST, ch_0 + x, 0, ch_0 + y, 0]

/-! ## Decimal text (`snprintf` with `"%lu"`) -/

/-- The decimal digits of `n`, most significant first, as `snprintf(.., "%lu", n)`
writes them; `fuel` bounds the number of digits. -/
def decimal_text : Nat → Nat → List Nat
  | 0, _ => []
  | fuel + 1, n =>
    if n < 10 then [ch_0 + n] else decimal_text fuel (n / 10) ++ [ch_0 + n % 10]

/-- The decimal text of `n`. -/
def decimal (n : Nat) : List Nat := decimal_text (n + 1) n

/-- The coordinate payload of a move request or move notification: the decimal text of
`x`, a zero byte, the decimal text of `y`, a zero byte. -/
def coordinate_payload (x y : Nat) : List Nat := decimal x ++ 0 :: (decimal y ++ [0])

/-- The number a string of decimal digits denotes. -/
def digits_value (ds : List Nat) : Nat := ds.foldl (fun a d => a * 10 + (d - 48)) 0

/-- The bytes of `s` after its leading white space. -/
def drop_space : List Nat → List Nat
  | [] => []
  | c :: rest => if isspace c then drop_space rest else c :: rest

/-- The memory holding the `struct game_board` objects. `board a` is the content at
address `a`; `freed_boards` lists the addresses handed to `free`, `freed_matrices` the
boards whose `matrix` was handed to `free` (most recent first). Releasing an object does
not change the recorded content. -/
structure board_memory where
  board : Nat → game_board
  freed_boards : List Nat
  freed_matrices : List Nat

/-- The `struct game_boards_array` of the server, without its mutex. `array` holds the
allocated pointer slots (`none` is `NULL`, `some a` the address of a board), `visited`
is `none` for `NULL` and otherwise the allocated marker bytes. -/
structure game_boards_array where
  array : List (Option Nat)
  visited : Option (List Nat)
  number_of_elements : Nat
  array_size : Nat
deriving DecidableEq

/-- The function `array_of_games_init` of `server.c`; `none` is the `NULL` it returns
on failure. `malloc_ok` and `calloc_ok` say whether the two allocations succeed,
`mutex_init_rc` is what `pthread_mutex_init` returns. -/
def array_of_games_init (size : Nat) (malloc_ok calloc_ok : Bool) (mutex_init_rc : Int) :
    Option game_boards_array :=
  if malloc_ok = false ∨ size = 0 then none
  else if calloc_ok = false ∨ mutex_init_rc ≠ 0 then none
  else some { array := List.replicate size none, visited := none,
              number_of_elements := 0, array_size := size }

/-- The C library's `realloc` of an array to `m` elements: the elements below both the
old and the new size are kept, the others are indeterminate and given by `junk`. -/
def realloc_list {α : Type} (l : List α) (m : Nat) (junk : Nat → α) : List α :=
  (List.range m).map (fun i => match l[i]? with
    | some v => v
    | none => junk i)

/-- What the environment does during one call of `game_boards_array_add`: the results
of `pthread_mutex_lock` and `pthread_mutex_unlock`, whether `calloc(1, 1)` succeeds, and
for each `realloc` either `none` (failure) or the indeterminate content of the memory
it adds. -/
structure add_env where
  lock_rc : Int
  calloc_ok : Bool
  realloc_array : Option (Nat → Option Nat)
  realloc_visited : Option (Nat → Nat)
  unlock_rc : Int

/-- The function `game_boards_array_add` of `server.c`. The result is the return value,
the registry and the board memory as the call leaves them. In the growing branch the
`memset(new + number_of_elements, 0, REALLOC_SIZE)` clears `REALLOC_SIZE` bytes, which
is part of one pointer slot, so the slot at `number_of_elements` and the slots added by
`realloc` are left indeterminate. When only one of the two `realloc` calls fails the
registry keeps the old blocks. -/
def game_boards_array_add (array : Option game_boards_array) (game : Option Nat)
    (mem : board_memory) (env : add_env) :
    Option (Int × Option game_boards_array × board_memory) :=
  match array, game with
  | none, _ => some (-3, none, mem)
  | some a, none => some (-3, some a, mem)
  | some a, some g =>
    if env.lock_rc ≠ 0 then some (env.lock_rc, some a, mem)
    else if a.array_size = 0 then some (-2, some a, mem)
    else if a.number_of_elements = a.array_size then some (-1, some a, mem)
    else
      let n := a.number_of_elements
      let mem1 : board_memory :=
        { mem with board := Function.update mem.board g { mem.board g with index := n } }
      if a.visited = none ∧ env.calloc_ok = false then some (-4, some a, mem1)
      else
        let visited1 : List Nat := match a.visited with
          | none => [0]
          | some v => v
        if n < a.array.length then
          let array1 := a.array.set n (some g)
          let n1 := n + 1
          if n1 = a.array_size then
            match env.realloc_array, env.realloc_visited with
            | some junk_a, some junk_v =>
              let new := (realloc_list array1 (a.array_size + REALLOC_SIZE) junk_a).set n1
                (junk_a n1)
              let visited_new := (realloc_list visited1 n1 junk_v).set (n1 - 1) 0
              some (env.unlock_rc,
                    some { array := new, visited := some visited_new,
                           number_of_elements := n1,
                           array_size := a.array_size + REALLOC_SIZE }, mem1)
            | _, _ =>
              some (-4, some { a with array := array1, visited := some visited1,
                                      number_of_elements := n1 - 1 }, mem1)
          else
            some (env.unlock_rc,
                  some { a with array := array1, visited := some visited1,
                                number_of_elements := n1 }, mem1)
        else none

/-- What the environment does during one call of `game_boards_array_remove`: the
results of `pthread_mutex_lock`, `pthread_mutex_destroy` and `pthread_mutex_unlock`,
and whether each `realloc` succeeds. -/
structure remove_env where
  lock_rc : Int
  destroy_rc : Int
  realloc_array_ok : Bool
  realloc_visited_ok : Bool
  unlock_rc : Int
deriving DecidableEq

/-- Lines 180-183 of `game_boards_array_remove`: when `index` is not the last position
the last pointer is copied to `index` and the `index` field of the board it points to
is updated. -/
def move_last (slots : List (Option Nat)) (mem : board_memory) (index n : Nat) :
    Option (List (Option Nat) × board_memory) :=
  if index < n - 1 then
    match slots[n - 1]? with
    | none => none
    | some none => none
    | some (some q) =>
      some (slots.set index (some q),
            { mem with board := Function.update mem.board q { mem.board q with index := index } })
  else some (slots, mem)

/-- Lines 196-209 of `game_boards_array_remove`: the marker array is resized to the
count and cleared, or released when the count is 0; then the registry is unlocked. -/
def resize_visited (a : game_boards_array) (mem : board_memory) (env : remove_env) :
    Int × Option game_boards_array × board_memory :=
  if a.number_of_elements ≠ 0 then
    if env.realloc_visited_ok = false then (-1, some a, mem)
    else (env.unlock_rc,
          some { a with visited := some (List.replicate a.number_of_elements 0) }, mem)
  else (env.unlock_rc, some { a with visited := none }, mem)

/-- Lines 186-209 of `game_boards_array_remove`: the `realloc` of the pointer table (to
its present size), which lowers `array_size` by two increments, then the marker array
and the unlock. -/
def shrink_after_remove (a : game_boards_array) (mem : board_memory) (env : remove_env) :
    Int × Option game_boards_array × board_memory :=
  if size_sub a.array_size a.number_of_elements = REALLOC_SIZE * 2
      ∧ a.array_size > REALLOC_SIZE * 2 then
    if env.realloc_array_ok = false then (-1, some a, mem)
    else resize_visited { a with array_size := a.array_size - REALLOC_SIZE * 2 } mem env
  else resize_visited a mem env

/-- The function `game_boards_array_remove` of `server.c`. The result is the return
value, the registry and the board memory as the call leaves them. -/
def game_boards_array_remove (array : Option game_boards_array) (game : Option Nat)
    (mem : board_memory) (env : remove_env) :
    Option (Int × Option game_boards_array × board_memory) :=
  match array, game with
  | none, _ => some (3, none, mem)
  | some a, none => some (3, some a, mem)
  | some a, some g =>
    if env.lock_rc ≠ 0 then some (env.lock_rc, some a, mem)
    else
      let index := (mem.board g).index
      let n := a.number_of_elements
      if n = 0 ∨ n - 1 < index then some (2, some a, mem)
      else
        match a.array[index]? with
        | none => none
        | some none => none
        | some (some p) =>
          let mem1 : board_memory := { mem with freed_matrices := p :: mem.freed_matrices }
          if env.destroy_rc ≠ 0 then some (env.destroy_rc, some a, mem1)
          else
            match move_last a.array mem1 index n with
            | none => none
            | some (slots1, mem2) =>
              if n - 1 < slots1.length then
                let slots2 := slots1.set (n - 1) none
                let mem3 : board_memory := match slots2[index]? with
                  | some (some q) => { mem2 with freed_boards := q :: mem2.freed_boards }
                  | _ => mem2
                some (shrink_after_remove
                  { a with array := slots2, number_of_elements := n - 1 } mem3 env)
              else none

/-- The address `p` is stored in the registry, at a position below the count. -/
def is_stored (a : game_boards_array) (p : Nat) : Bool :=
  (a.array.take a.number_of_elements).contains (some p)

/-- The index invariant of the registry: every position below the count holds the
address of a board, and the `index` field of that board is the position. -/
def registry_indexed (a : game_boards_array) (mem : board_memory) : Prop :=
  ∀ i < a.number_of_elements, ∃ p, a.array[i]? = some (some p) ∧ (mem.board p).index = i

/-- One call on the registry: an insert or a removal of the board at an address. -/
inductive registry_call where
  | add (game : Nat) (env : add_env)
  | remove (game : Nat) (env : remove_env)

/-- Runs a sequence of calls of `game_boards_array_add` and `game_boards_array_remove`
on the registry, each on the registry and the memory the call before it left. The
result is `some` exactly when every call returns 0. -/
def run_registry_calls : game_boards_array → board_memory → List registry_call →
    Option (game_boards_array × board_memory)
  | a, mem, [] => some (a, mem)
  | a, mem, registry_call.add g env :: rest =>
    match game_boards_array_add (some a) (some g) mem env with
    | some (r, some a1, mem1) => if r = 0 then run_registry_calls a1 mem1 rest else none
    | _ => none
  | a, mem, registry_call.remove g env :: rest =>
    match game_boards_array_remove (some a) (some g) mem env with
    | some (r, some a1, mem1) => if r = 0 then run_registry_calls a1 mem1 rest else none
    | _ => none

/-- An environment in which every call succeeds and `realloc` brings zero bytes. -/
def add_ok : add_env :=
  { lock_rc := 0, calloc_ok := true, realloc_array := some (fun _ => none),
    realloc_visited := some (fun _ => 0), unlock_rc := 0 }

/-- An environment in which every call succeeds. -/
def remove_ok : remove_env :=
  { lock_rc := 0, destroy_rc := 0, realloc_array_ok := true, realloc_visited_ok := true,
    unlock_rc := 0 }

/-- A memory in which every address holds a board as `calloc` and
`create_new_game_request` leave it before the registry sets `index`. -/
def fresh_memory : board_memory :=
  { board := fun _ => new_board ch_x none none, freed_boards := [], freed_matrices := [] }

/-- The registry as `main` creates it. -/
def empty_registry : game_boards_array :=
  { array := List.replicate REALLOC_SIZE none, visited := none, number_of_elements := 0,
    array_size := REALLOC_SIZE }
/-- The registry after `main` has created it and one board, at address 10, has been
inserted. -/
def one_game_registry : game_boards_array :=
  { array := [some 10, none, none, none, none], visited := some [0],
    number_of_elements := 1, array_size := REALLOC_SIZE }

/-- A registry of three boards at the addresses 10, 11 and 12. -/
def three_game_registry : game_boards_array :=
  { array := [some 10, some 11, some 12, none, none], visited := some [0, 0, 0],
    number_of_elements := 3, array_size := REALLOC_SIZE }

/-- A memory in which the board at address `10 + i` has index `i`. -/
def indexed_memory : board_memory :=
  { board := fun p => { new_board ch_x (some 1) none with index := p - 10 },
    freed_boards := [], freed_matrices := [] }

/-! ## Sessions and request handlers on the registry -/

/-- The `struct session_details` as the handlers that work on the registry see it:
`current_game` is the address of the board (`none` for `NULL`). The record
`session_details` above is the same structure with the board loaded from memory, the
view `action_request` works on. The registry `games` the session points to is passed to
the handlers as a separate argument. -/
structure session_record where
  logged_in_user : Option Nat
  bytes_written : Nat
  fd : Int
  session_present : Nat
  current_game : Option Nat
deriving DecidableEq

/-- What a request handler on the registry leaves behind: the returned reply code, the
reply buffer, the session, the registry and the board memory. -/
structure handler_result where
  ret : Nat
  buffer : List Nat
  session : Option session_record
  games : game_boards_array
  memory : board_memory

/-- The common ending `buffer[0] = code; (*session_details)->bytes_written = 1;
return code;` of the handlers on the registry. -/
def answer (code : Nat) (buffer : List Nat) (s : session_record) (games : game_boards_array)
    (mem : board_memory) : handler_result :=
  { ret := code, buffer := buffer.set 0 code, session := some { s with bytes_written := 1 },
    games := games, memory := mem }

/-- The value `UINT_MAX`. -/
def UINT_MAX : Nat := 4294967295

/-- Writes `bytes` into `buffer` from offset `off` on. -/
def write_bytes (buffer : List Nat) (off : Nat) : List Nat → List Nat
  | [] => buffer
  | b :: bs => write_bytes (buffer.set off b) (off + 1) bs

/-- The call `memset(games->visited, 0, n)`: `none` when it writes through `NULL` or
past the allocated markers; with `n = 0` nothing is touched. -/
def clear_markers (visited : Option (List Nat)) (n : Nat) : Option (Option (List Nat)) :=
  if n = 0 then some visited
  else
    match visited with
    | none => none
    | some v => if n ≤ v.length then some (some (List.replicate n 0 ++ v.drop n)) else none

/-- How the scanning loop of `join_random_game_request` ends: with `i == size`, or at
a `break` on the board `p = games->array[roll]`, slot 1 (`which = 0`) or slot 2
(`which = 1`) of which is empty. Both carry the markers as the loop leaves them. -/
inductive scan_outcome where
  | exhausted (visited : Option (List Nat))
  | found (roll which p : Nat) (visited : Option (List Nat))

/-- The loop `for(;;)` of `join_random_game_request` (lines 516-550), up to the `break`;
`draws` are the values `random()` returns, one per iteration that reaches line 528, and
the loop does not return when they run out. The arguments are `draws`, `i`, `roll_prev`
and the markers. -/
def join_scan (a : game_boards_array) (mem : board_memory) (size : Nat) :
    List Nat → Nat → Nat → Option (List Nat) → Option scan_outcome
  | [], i, _, visited => if i = size then some (scan_outcome.exhausted visited) else none
  | d :: rest, i, roll_prev, visited =>
    if i = size then some (scan_outcome.exhausted visited)
    else if size = 0 then none
    else
      let roll := d % size
      if roll = roll_prev then join_scan a mem size rest i roll_prev visited
      else
        match visited with
        | none => none
        | some v =>
          match v[roll]? with
          | none => none
          | some flag =>
            if flag ≠ 0 then join_scan a mem size rest i roll_prev visited
            else
              match a.array[roll]? with
              | none => none
              | some none => none
              | some (some p) =>
                if (mem.board p).player_1 = none then
                  some (scan_outcome.found roll 0 p (some (v.set roll 1)))
                else if (mem.board p).player_2 = none then
                  some (scan_outcome.found roll 1 p (some (v.set roll 1)))
                else join_scan a mem size rest (i + 1) roll (some (v.set roll 1))

/-- Lines 534-548 of `join_random_game_request`: the joiner is written into the empty
slot found by the scan. -/
def occupy_slot (b : game_board) (which : Nat) (user : Option Nat) (fd : Int) : game_board :=
  if which = 0 then { b with player_1 := user, player1_fd := fd }
  else { b with player_2 := user, player2_fd := fd }

/-- The memory after the joiner has been written into slot `which` of the board at
address `p`. -/
def write_joiner (mem : board_memory) (p which : Nat) (user : Option Nat) (fd : Int) :
    board_memory :=
  { mem with board := Function.update mem.board p (occupy_slot (mem.board p) which user fd) }

/-- The byte `buffer[1]` of the join reply: `'x'` for slot 1 and `'o'` for slot 2, made
upper case when `whose_turn` (read at the `break`) is `'x'` for slot 1 or `'o'` for
slot 2. -/
def join_mark (which whose_turn : Nat) : Nat :=
  let to_uppercase := if which = 0 then (if whose_turn = ch_x then 0x20 else 0)
    else (if whose_turn = ch_o then 0x20 else 0)
  ((if which = 0 then ch_x else ch_o) + 256 - to_uppercase) % 256

/-- The function `join_random_game_request` of `server.c`. `games` is the registry
`(*session_details)->games`, `draws` the values `random()` returns, `lock_rc` and
`unlock_rc` what `pthread_mutex_lock` and `pthread_mutex_unlock` return on the
registry's mutex. `snprintf` writes the decimal text of `board_size` and a zero byte
and returns the number of digits. -/
def join_random_game_request (buffer : List Nat) (session : Option session_record)
    (games : game_boards_array) (mem : board_memory) (draws : List Nat)
    (lock_rc unlock_rc : Int) : Option handler_result :=
  match session with
  | none =>
    some { ret := INVALID_REQUEST, buffer := buffer.set 0 INVALID_REQUEST, session := none,
           games := games, memory := mem }
  | some s =>
    if s.session_present = 0 ∨ s.current_game ≠ none then
      some (answer INVALID_REQUEST buffer s games mem)
    else if lock_rc ≠ 0 then some (answer INTERNAL_SERVER_ERROR buffer s games mem)
    else
      match join_scan games mem games.number_of_elements draws 0 UINT_MAX games.visited with
      | none => none
      | some (scan_outcome.exhausted visited) =>
        match clear_markers visited games.number_of_elements with
        | none => none
        | some cleared =>
          if unlock_rc ≠ 0 then
            some (answer INTERNAL_SERVER_ERROR buffer s { games with visited := cleared } mem)
          else some (answer NO_GAMES_AVAILABLE buffer s { games with visited := cleared } mem)
      | some (scan_outcome.found _ which p visited) =>
        let mem1 := write_joiner mem p which s.logged_in_user s.fd
        match clear_markers visited games.number_of_elements with
        | none => none
        | some cleared =>
          let games1 : game_boards_array := { games with visited := cleared }
          let s1 : session_record := { s with current_game := some p }
          let digits := decimal (mem1.board p).board_size
          let buffer1 := write_bytes
            ((buffer.set 0 JOIN_RANDOM_GAME_REPLY).set 1
              (join_mark which (mem.board p).whose_turn)) 2 (digits ++ [0])
          if unlock_rc ≠ 0 then some (answer INTERNAL_SERVER_ERROR buffer1 s1 games1 mem1)
          else if digits.length > 0 then
            some { ret := JOIN_RANDOM_GAME_REPLY, buffer := buffer1,
                   session := some { s1 with bytes_written := 3 + digits.length },
                   games := games1, memory := mem1 }
          else
            some (answer INTERNAL_SERVER_ERROR buffer1 { s1 with current_game := none }
              games1 mem1)

/-- An authenticated session without a board, of the user at address `user`. -/
def lobby_session (user : Nat) (fd : Int) : session_record :=
  { logged_in_user := some user, bytes_written := 0, fd := fd, session_present := 1,
    current_game := none }

/-- A memory in which the boards at 10 and 12 wait for a second player in slot 2 and
the board at 11 waits for one in slot 1; every other address holds a full board. -/
def waiting_memory : board_memory :=
  { board := fun p =>
      if p = 10 ∨ p = 12 then { new_board ch_x (some (p + 90)) none with index := p - 10 }
      else if p = 11 then { new_board ch_o none (some 101) with index := 1 }
      else { new_board ch_x (some 1) (some 2) with index := p - 10 },
    freed_boards := [], freed_matrices := [] }
/-- Both slots of the board are occupied. -/
@[reducible] def both_occupied (b : game_board) : Prop := b.player_1 ≠ none ∧ b.player_2 ≠ none

/-- A session that may ask to join: authenticated and without a board. -/
@[reducible] def may_join (s : session_record) : Prop :=
  s.session_present ≠ 0 ∧ s.current_game = none
/-- The board a reply leaves in the session: `(*session_details)->current_game`. -/
def matched_board (r : handler_result) : Option Nat :=
  match r.session with
  | none => none
  | some s => s.current_game

/-- A memory in which every board has both slots occupied. -/
def full_memory : board_memory :=
  { board := fun p => { new_board ch_x (some 1) (some 2) with index := p - 10 },
    freed_boards := [], freed_matrices := [] }
/-- A `User` record as `find_user_by_name` allocates it: its address and the bytes of
its `password` field. -/
structure user_record where
  address : Nat
  password : List Nat
deriving DecidableEq

/-- The library call `strncpy(dst, src, n)`: the `n` bytes it writes, which are the bytes
of `src` before its first zero byte, padded with zero bytes; `none` when `src` ends
before a zero byte or the `n`-th byte is read. -/
def strncpy : List Nat → Nat → Option (List Nat)
  | _, 0 => some []
  | [], _ + 1 => none
  | c :: rest, n + 1 =>
    if c = 0 then some (List.replicate (n + 1) 0)
    else match strncpy rest n with
      | none => none
      | some cs => some (c :: cs)

/-- The library call `strlen`: the number of bytes before the first zero byte; `none`
when the memory ends first. -/
def strlen : List Nat → Option Nat
  | [] => none
  | c :: rest =>
    if c = 0 then some 0
    else match strlen rest with
      | none => none
      | some k => some (k + 1)

/-- Whether the library call `strncmp(p, q, n)` returns a value other than 0; `none`
when one of the two texts ends before the comparison is decided. -/
def strncmp_differs : List Nat → List Nat → Nat → Option Bool
  | _, _, 0 => some false
  | [], _, _ + 1 => none
  | _ :: _, [], _ + 1 => none
  | c :: p, d :: q, n + 1 =>
    if c ≠ d then some true
    else if c = 0 then some false
    else strncmp_differs p q n

/-- What `login_request` gets from outside: the return values of `pthread_mutex_lock`
and `pthread_mutex_unlock` on the global mutex, and the result of
`find_user_by_name(fopen("users.txt", "r"), username)` for each user name (`none` is
`NULL`). -/
structure login_env where
  lock_rc : Int
  find_user_by_name : List Nat → Option user_record
  unlock_rc : Int

/-- The failing endings of `login_request`: `bytes_written = 1; session_present = 0;
buffer[0] = code; return code;`. -/
def login_failure (code : Nat) (buffer : List Nat) (s : session_record)
    (games : game_boards_array) (mem : board_memory) : handler_result :=
  { ret := code, buffer := buffer.set 0 code,
    session := some { s with bytes_written := 1, session_present := 0 },
    games := games, memory := mem }

/-- The address of the record `find_user_by_name` returned. -/
def user_address : Option user_record → Option Nat
  | none => none
  | some u => some u.address

/-- The function `login_request` of `server.c`. `session` is `*session_details`; the
registry and the boards are passed through. -/
def login_request (buffer : List Nat) (session : Option session_record)
    (games : game_boards_array) (mem : board_memory) (env : login_env) :
    Option handler_result :=
  match session with
  | none => some { ret := INVALID_REQUEST, buffer := buffer.set 0 INVALID_REQUEST,
                   session := none, games := games, memory := mem }
  | some s =>
    if s.session_present ≠ 0 then some (answer INVALID_REQUEST buffer s games mem)
    else
      match strncpy (buffer.drop 1) USERNAMELEN with
      | none => none
      | some name =>
        let username := name ++ [0]
        if env.lock_rc ≠ 0 then some (login_failure INTERNAL_SERVER_ERROR buffer s games mem)
        else
          let found := env.find_user_by_name username
          let s1 : session_record := { s with logged_in_user := user_address found }
          if env.unlock_rc ≠ 0 then
            some (login_failure INTERNAL_SERVER_ERROR buffer s1 games mem)
          else
            match found with
            | none => some (login_failure LOGIN_FAILED buffer s1 games mem)
            | some u =>
              match strlen username with
              | none => none
              | some len =>
                match strncpy (buffer.drop (len + 2)) PASSWORDLEN with
                | none => none
                | some pw =>
                  match strncmp_differs (pw ++ [0]) u.password PASSWORDLEN with
                  | none => none
                  | some true => some (login_failure LOGIN_FAILED buffer s1 games mem)
                  | some false =>
                    some { ret := LOGIN_SUCCESS, buffer := buffer.set 0 LOGIN_SUCCESS,
                           session := some { s1 with session_present := 1, bytes_written := 1 },
                           games := games, memory := mem }

/-- The function `logout_request` of `server.c`. -/
def logout_request (buffer : List Nat) (session : Option session_record)
    (games : game_boards_array) (mem : board_memory) : handler_result :=
  match session with
  | none => { ret := INVALID_REQUEST, buffer := buffer.set 0 INVALID_REQUEST,
              session := none, games := games, memory := mem }
  | some s =>
    if s.session_present = 0 then answer INVALID_REQUEST buffer s games mem
    else { ret := LOGOUT_REPLY, buffer := buffer.set 0 LOGOUT_REPLY,
           session := some { s with session_present := 0, bytes_written := 1 },
           games := games, memory := mem }

/-- What `create_new_game_request` gets from outside: the address `calloc` returns for
the board (`none` is `NULL`), the two values of `random()`, the bytes of the block
`malloc` returns for the matrix (`none` is `NULL`), the return value of
`pthread_mutex_init`, and the environment of `game_boards_array_add`. -/
structure create_env where
  calloc_game : Option Nat
  random_case : Nat
  malloc_matrix : Option (Nat → Nat)
  mutex_init_rc : Int
  random_slot : Nat
  add : add_env

/-- The board `calloc(1, sizeof(struct game_board))` returns: every field zero. -/
def zero_board : game_board :=
  { matrix := [], player_1 := none, player_2 := none, host := none, whose_turn := 0,
    board_size := 0, index := 0, player1_last_x := 0, player1_last_y := 0,
    player2_last_x := 0, player2_last_y := 0, player1_fd := 0, player2_fd := 0 }

/-- Lines 465-471 of `create_new_game_request`: the creator goes into one slot, chosen
by `random() % 2`, and becomes host. -/
def seat_creator (b : game_board) (slot : Nat) (user : Option Nat) (fd : Int) : game_board :=
  if slot % 2 ≠ 0 then { b with player_1 := user, player1_fd := fd, host := user }
  else { b with player_2 := user, player2_fd := fd, host := user }

/-- Line 474 of `create_new_game_request`:
`buffer[1] = game->player_1 ? 'x' : 'o' - to_uppercase`. -/
def creator_mark (b : game_board) (to_uppercase : Nat) : Nat :=
  if b.player_1 ≠ none then ch_x else (ch_o + 256 - to_uppercase) % 256

/-- The `switch(buffer[1])` of `create_new_game_request`. -/
def first_turn (mark : Nat) (b : game_board) : game_board :=
  if mark = ch_O ∨ mark = ch_x then { b with whose_turn := ch_o }
  else if mark = ch_X ∨ mark = ch_o then { b with whose_turn := ch_x }
  else b

/-- The ending `free(game); current_game = NULL; buffer[0] = INTERNAL_SERVER_ERROR;
bytes_written = 1` of `create_new_game_request`. -/
def create_failure (buffer : List Nat) (s : session_record) (games : game_boards_array)
    (mem : board_memory) (g : Nat) : handler_result :=
  answer INTERNAL_SERVER_ERROR buffer { s with current_game := none } games
    { mem with freed_boards := g :: mem.freed_boards }

/-- The function `create_new_game_request` of `server.c`. `games` is the registry the
session points to. `none` stands for a write outside the `BUFFER_LENGTH` bytes of the
buffer. -/
def create_new_game_request (buffer : List Nat) (session : Option session_record)
    (games : game_boards_array) (mem : board_memory) (env : create_env) :
    Option handler_result :=
  match session with
  | none => some { ret := INVALID_REQUEST, buffer := buffer.set 0 INVALID_REQUEST,
                   session := none, games := games, memory := mem }
  | some s =>
    if s.session_present = 0 ∨ s.current_game ≠ none then
      some (answer INVALID_REQUEST buffer s games mem)
    else
      match env.calloc_game with
      | none => some (answer INTERNAL_SERVER_ERROR buffer s games mem)
      | some g =>
        let to_uppercase := if env.random_case % 2 ≠ 0 then 0x20 else 0
        let b0 : game_board := { zero_board with board_size := BOARD_SIZE }
        match env.malloc_matrix with
        | none =>
          some (create_failure buffer s games
            { mem with board := Function.update mem.board g b0 } g)
        | some junk =>
          let b1 : game_board :=
            { b0 with matrix := (List.range (BOARD_SIZE * BOARD_SIZE)).map junk }
          if env.mutex_init_rc ≠ 0 then
            some (create_failure buffer s games
              { mem with board := Function.update mem.board g b1 } g)
          else
            let b2 : game_board :=
              { b1 with matrix := List.replicate (BOARD_SIZE * BOARD_SIZE) ch_space,
                        player1_fd := -1, player2_fd := -1 }
            let b3 := seat_creator b2 env.random_slot s.logged_in_user s.fd
            if buffer.length < BUFFER_LENGTH then none
            else
              let mark := creator_mark b3 to_uppercase
              let b4 := first_turn mark b3
              let digits := decimal b4.board_size
              let buffer1 := write_bytes
                (((buffer.take 2 ++ List.replicate (BUFFER_LENGTH - 2) 0).set 0
                  CREATE_NEW_GAME_SUCCESS).set 1 mark) 2 (digits ++ [0])
              let mem1 : board_memory := { mem with board := Function.update mem.board g b4 }
              if digits.length > 0 then
                match game_boards_array_add (some games) (some g) mem1 env.add with
                | none => none
                | some (_, none, _) => none
                | some (rc, some games1, mem2) =>
                  if rc = 0 then
                    some { ret := CREATE_NEW_GAME_SUCCESS, buffer := buffer1,
                           session := some { s with current_game := some g,
                                                    bytes_written := 3 + digits.length },
                           games := games1, memory := mem2 }
                  else some (create_failure buffer1 s games1 mem2 g)
              else some (create_failure buffer1 s games mem1 g)

/-- What `leave_game_request` gets from outside: the return values of
`pthread_mutex_lock` and `pthread_mutex_unlock` on the board's mutex and the
environment of `game_boards_array_remove`. -/
structure leave_env where
  lock_rc : Int
  unlock_rc : Int
  remove : remove_env

/-- Lines 597-605 of `leave_game_request`: the turn is reset and the leaver is taken out
of the host field and of the slot that holds them. -/
def vacate (b : game_board) (user : Option Nat) : game_board :=
  let b1 : game_board := { b with whose_turn := 0 }
  let b2 : game_board := if b1.host = user then { b1 with host := none } else b1
  if user = b2.player_1 then { b2 with player_1 := none }
  else if user = b2.player_2 then { b2 with player_2 := none }
  else b2

/-- The ending `current_game = NULL; buffer[0] = LEAVE_GAME_REPLY; bytes_written = 1` of
`leave_game_request`. -/
def leave_done (buffer : List Nat) (s : session_record) (games : game_boards_array)
    (mem : board_memory) : handler_result :=
  { ret := LEAVE_GAME_REPLY, buffer := buffer.set 0 LEAVE_GAME_REPLY,
    session := some { s with current_game := none, bytes_written := 1 },
    games := games, memory := mem }

/-- The function `leave_game_request` of `server.c`. -/
def leave_game_request (buffer : List Nat) (session : Option session_record)
    (games : game_boards_array) (mem : board_memory) (env : leave_env) :
    Option handler_result :=
  match session with
  | none => some { ret := INVALID_REQUEST, buffer := buffer.set 0 INVALID_REQUEST,
                   session := none, games := games, memory := mem }
  | some s =>
    if s.session_present = 0 then some (answer INVALID_REQUEST buffer s games mem)
    else
      match s.current_game with
      | none => some (answer INVALID_REQUEST buffer s games mem)
      | some p =>
        if env.lock_rc ≠ 0 then some (answer INTERNAL_SERVER_ERROR buffer s games mem)
        else
          let b := vacate (mem.board p) s.logged_in_user
          let mem1 : board_memory := { mem with board := Function.update mem.board p b }
          if env.unlock_rc ≠ 0 then some (answer INTERNAL_SERVER_ERROR buffer s games mem1)
          else if b.player_1 = none ∧ b.player_2 = none then
            match game_boards_array_remove (some games) (some p) mem1 env.remove with
            | none => none
            | some (_, none, _) => none
            | some (rc, some games1, mem2) =>
              if rc ≠ 0 then some (answer INTERNAL_SERVER_ERROR buffer s games1 mem2)
              else some (leave_done buffer s games1 mem2)
          else some (leave_done buffer s games mem1)

/-- An anonymous session: the record exists, nobody is logged in. -/
def anonymous_session (fd : Int) : session_record :=
  { logged_in_user := none, bytes_written := 0, fd := fd, session_present := 0,
    current_game := none }

/-- A session in a game: user `user` is logged in and occupies the board at `p`. -/
def playing_session (user : Nat) (fd : Int) (p : Nat) : session_record :=
  { logged_in_user := some user, bytes_written := 0, fd := fd, session_present := 1,
    current_game := some p }

/-- A user file without users, and a working global mutex. -/
def no_users : login_env :=
  { lock_rc := 0, find_user_by_name := fun _ => none, unlock_rc := 0 }

/-- Successful allocations for a board at address `g`, both `random()` values even. -/
def create_at (g : Nat) : create_env :=
  { calloc_game := some g, random_case := 0, malloc_matrix := some (fun _ => 0),
    mutex_init_rc := 0, random_slot := 0, add := add_ok }

/-- A working board mutex and a successful removal. -/
def leave_ok : leave_env := { lock_rc := 0, unlock_rc := 0, remove := remove_ok }

/-! ## The opcode tables of `constants.h` -/

/-- The request opcodes, in the order of the first `enum` of `constants.h`. -/
def request_opcodes : List Nat :=
  [LOGIN_REQUEST, LOGOUT_REQUEST, CREATE_USER_REQUEST, JOIN_RANDOM_GAME_REQUEST,
   CREATE_NEW_GAME_REQUEST, LEAVE_GAME_REQUEST, ACTION_REQUEST, INTERNAL_CLIENT_ERROR]

/-- The reply opcodes, in the order of the second `enum` of `constants.h`. -/
def reply_opcodes : List Nat :=
  [PEER_LEFT_NOTIFY, CANNOT_WRITE_HERE, ACTION_NOTIFY, OTHER_PLAYER_PRESENT_NOTIFY,
   NO_FURTHER_ACTIONS_PERMITTED, NOT_YOUR_TURN, GAME_IS_FINISHED, LEAVE_GAME_REPLY,
   JOIN_RANDOM_GAME_REPLY, ACTION_REPLY, CREATE_NEW_GAME_SUCCESS, CREATE_USER_SUCCESS,
   LOGIN_SUCCESS, LOGOUT_REPLY, NO_PLAYER_PRESENT, INVALID_OPERANDS, NO_GAMES_AVAILABLE,
   NOT_IMPLEMENTED, USER_ALREADY_EXISTS, INTERNAL_SERVER_ERROR, INVALID_REQUEST, IO_ERROR,
   LOGIN_FAILED]

/-! ## create_user_request -/

/-- The function `create_user_request` of `server.c`. Both branches of its first
`if`/`else` (lines 793-800) return, so the statements that follow them (lines 801-831:
the copies of the user name and password, `create_new_user` and the `switch` on its
result) are never executed and no environment enters the result. -/
def create_user_request (buffer : List Nat) (session : Option session_record)
    (games : game_boards_array) (mem : board_memory) : handler_result :=
  match session with
  | none => { ret := INVALID_REQUEST, buffer := buffer.set 0 INVALID_REQUEST,
              session := none, games := games, memory := mem }
  | some s =>
    if s.session_present ≠ 0 then answer INVALID_REQUEST buffer s games mem
    else { ret := INVALID_REQUEST, buffer := buffer.set 0 INVALID_REQUEST,
           session := some s, games := games, memory := mem }

/-- The account request for the user name `"ab"` and the password `"cd"`. -/
def account_request : List Nat :=
  request_buffer [CREATE_USER_REQUEST, 97, 98, 0, 99, 100, 0]

/-! ## Vocabulary for the create-board and join-random replies -/

/-- The value of `to_uppercase` in `create_new_game_request` for the first `random()`. -/
def creator_case (env : create_env) : Nat := if env.random_case % 2 ≠ 0 then 0x20 else 0

/-- The board `create_new_game_request` has built when it calls `game_boards_array_add`. -/
def created_board (s : session_record) (env : create_env) : game_board :=
  let seated := seat_creator
    { zero_board with board_size := BOARD_SIZE,
                      matrix := List.replicate (BOARD_SIZE * BOARD_SIZE) ch_space,
                      player1_fd := -1, player2_fd := -1 }
    env.random_slot s.logged_in_user s.fd
  first_turn (creator_mark seated (creator_case env)) seated

/-- The mark byte `create_new_game_request` puts into `buffer[1]`. -/
def created_mark (s : session_record) (env : create_env) : Nat :=
  creator_mark (seat_creator
    { zero_board with board_size := BOARD_SIZE,
                      matrix := List.replicate (BOARD_SIZE * BOARD_SIZE) ch_space,
                      player1_fd := -1, player2_fd := -1 }
    env.random_slot s.logged_in_user s.fd) (creator_case env)

/-- The reply buffer of a successful `create_new_game_request`. -/
def created_reply (buffer : List Nat) (s : session_record) (env : create_env) : List Nat :=
  write_bytes (((buffer.take 2 ++ List.replicate (BUFFER_LENGTH - 2) 0).set 0
    CREATE_NEW_GAME_SUCCESS).set 1 (created_mark s env)) 2 (decimal BOARD_SIZE ++ [0])

/-- Conditions under which `game_boards_array_add` stores a board: the registry mutex
works, the table has room, the marker byte can be allocated when it is missing, and both
`realloc` calls succeed when the insert fills the table. -/
def add_possible (a : game_boards_array) (env : add_env) : Prop :=
  env.lock_rc = 0 ∧ env.unlock_rc = 0 ∧ a.array_size ≠ 0
  ∧ a.number_of_elements ≠ a.array_size ∧ a.number_of_elements < a.array.length
  ∧ (a.visited = none → env.calloc_ok = true)
  ∧ (a.number_of_elements + 1 = a.array_size →
      env.realloc_array ≠ none ∧ env.realloc_visited ≠ none)

/-- The library function `tolower` on the bytes `'A'`..`'Z'`. -/
def to_lower (c : Nat) : Nat := if 65 ≤ c ∧ c ≤ 90 then c + 32 else c

/-- The byte `'3'`, the decimal text of `BOARD_SIZE`. -/
def ch_3 : Nat := 51

/-- The registry after user 7 has created the board at address 20 in `empty_registry`. -/
def created_registry : game_boards_array :=
  { array := [some 20, none, none, none, none], visited := some [0],
    number_of_elements := 1, array_size := REALLOC_SIZE }

/-- The memory after user 7 (on descriptor 4) has created the board at address 20 with
both `random()` values even: the creator is in slot 2 and `'x'` moves first. -/
def created_memory : board_memory :=
  { board := fun p =>
      if p = 20 then { created_board (lobby_session 7 4) (create_at 20) with index := 0 }
      else new_board ch_x none none,
    freed_boards := [], freed_matrices := [] }

/-! ## The connection loop of `connection_handler` -/

/-- The function `action_request` called through the session pointer: the board the
session points to is read from the board memory, and the board `action_request` leaves
is written back to it. -/
def action_request_at (buffer : List Nat) (session : Option session_record)
    (games : game_boards_array) (mem : board_memory) (errno : Nat) (lock_rc unlock_rc : Int) :
    Option handler_result :=
  match session with
  | none => some { ret := INVALID_REQUEST, buffer := buffer.set 0 INVALID_REQUEST,
                   session := none, games := games, memory := mem }
  | some s =>
    let by_value : session_details :=
      { logged_in_user := s.logged_in_user, bytes_written := s.bytes_written, fd := s.fd,
        session_present := s.session_present, current_game := s.current_game.map mem.board }
    match action_request buffer (some by_value) errno lock_rc unlock_rc with
    | none => none
    | some a =>
      match a.session with
      | none => none
      | some t =>
        let mem1 : board_memory := match s.current_game, t.current_game with
          | some p, some b => { mem with board := Function.update mem.board p b }
          | _, _ => mem
        some { ret := a.ret, buffer := a.buffer,
               session := some { s with bytes_written := t.bytes_written },
               games := games, memory := mem1 }

/-- What the handlers get from outside during one request: the environments of
`login_request`, `create_new_game_request` and `leave_game_request`, the random draws
and the registry mutex results of `join_random_game_request`, and `errno` and the board
mutex results of `action_request`. -/
structure handler_env where
  login : login_env
  create : create_env
  leave : leave_env
  draws : List Nat
  join_lock_rc : Int
  join_unlock_rc : Int
  errno : Nat
  action_lock_rc : Int
  action_unlock_rc : Int

/-- Whether the table `handler` of `server.c` has an entry for the opcode: the seven
requests `LOGIN_REQUEST` .. `ACTION_REQUEST`; every other entry is a null pointer. -/
def handler_present (opcode : Nat) : Bool :=
  opcode = LOGIN_REQUEST ∨ opcode = LOGOUT_REQUEST ∨ opcode = CREATE_USER_REQUEST
  ∨ opcode = JOIN_RANDOM_GAME_REQUEST ∨ opcode = CREATE_NEW_GAME_REQUEST
  ∨ opcode = LEAVE_GAME_REQUEST ∨ opcode = ACTION_REQUEST

/-- The call `handler[opcode](buffer, &session_details)` for an opcode that has an entry
in the table. -/
def handler (opcode : Nat) (buffer : List Nat) (session : Option session_record)
    (games : game_boards_array) (mem : board_memory) (env : handler_env) :
    Option handler_result :=
  if opcode = LOGIN_REQUEST then login_request buffer session games mem env.login
  else if opcode = LOGOUT_REQUEST then some (logout_request buffer session games mem)
  else if opcode = CREATE_USER_REQUEST then some (create_user_request buffer session games mem)
  else if opcode = JOIN_RANDOM_GAME_REQUEST then
    join_random_game_request buffer session games mem env.draws env.join_lock_rc
      env.join_unlock_rc
  else if opcode = CREATE_NEW_GAME_REQUEST then
    create_new_game_request buffer session games mem env.create
  else if opcode = LEAVE_GAME_REQUEST then leave_game_request buffer session games mem env.leave
  else if opcode = ACTION_REQUEST then
    action_request_at buffer session games mem env.errno env.action_lock_rc
      env.action_unlock_rc
  else none

/-- What `recv` delivers in one round of the loop: a closed or failed connection
(`n <= 0`), or a message, given as the buffer after `memset` and `recv`. -/
inductive received where
  | closed
  | message (buffer : List Nat)

/-- The state of one connection thread inside the `while` loop of `connection_handler`:
the descriptor, the local pointer `session_details` (`none` once it is `NULL`), the
registry and the boards, the local `peer_fd` (`none` while uninitialised), the user
pointers passed to `free`, whether the session record has been passed to `free`, the
messages sent as pairs of descriptor and bytes, and whether no `break` has happened. -/
structure connection where
  fd : Int
  session : Option session_record
  games : game_boards_array
  memory : board_memory
  peer_fd : Option Int
  released_users : List (Option Nat)
  session_released : Bool
  sent : List (Int × List Nat)
  running : Bool

/-- What one round of the loop gets from outside: the handler environment, the
environment of the `game_boards_array_remove` call after a disconnect, and whether the
`send` of the reply succeeds. -/
structure round_env where
  request : handler_env
  remove : remove_env
  send_ok : Bool

/-- One `send(to, bytes, ..)` recorded in the connection state. -/
def send_bytes (c : connection) (dest : Int) (bytes : List Nat) : connection :=
  { c with sent := c.sent ++ [(dest, bytes)] }

/-- The `switch((unsigned char)*buffer)` of the loop (lines 925-974), which notifies the
opponent after a join, a move or the end of the game. `none` stands for reading through
a null `session_details` or `current_game`, or reading `peer_fd`, `last_x`, `last_y`
before they were assigned. -/
def notify_opponent (c : connection) (code : Nat) : Option connection :=
  if code = JOIN_RANDOM_GAME_REPLY ∨ code = ACTION_REPLY ∨ code = GAME_IS_FINISHED then
    match c.session with
    | none => none
    | some s =>
      match s.current_game with
      | none => none
      | some p =>
        let b := c.memory.board p
        if code = JOIN_RANDOM_GAME_REPLY then
          let peer := if b.host = b.player_1 then b.player1_fd else b.player2_fd
          some (send_bytes { c with peer_fd := some peer } peer [OTHER_PLAYER_PRESENT_NOTIFY])
        else if code = ACTION_REPLY then
          if b.whose_turn = ch_o then
            some (send_bytes { c with peer_fd := some b.player2_fd } b.player2_fd
              ([ACTION_NOTIFY, b.whose_turn]
                ++ coordinate_payload b.player1_last_x b.player1_last_y))
          else if b.whose_turn = ch_x then
            some (send_bytes { c with peer_fd := some b.player1_fd } b.player1_fd
              ([ACTION_NOTIFY, b.whose_turn]
                ++ coordinate_payload b.player2_last_x b.player2_last_y))
          else none
        else
          match c.peer_fd with
          | none => none
          | some peer => some (send_bytes c peer [GAME_IS_FINISHED, b.whose_turn])
  else some c

/-- Lines 893-910 of `connection_handler`: `recv` returned `n <= 0`. When the session
has a board, the board is passed to `game_boards_array_remove` (whose return value is
only printed) and `PEER_LEFT_NOTIFY` is sent to the other descriptor of the board; then
the loop is left. -/
def on_disconnect (c : connection) (s : session_record) (env : remove_env) :
    Option connection :=
  match s.current_game with
  | none => some { c with running := false }
  | some p =>
    match game_boards_array_remove (some c.games) (some p) c.memory env with
    | none => none
    | some (_, none, _) => none
    | some (_, some games1, mem1) =>
      let b := mem1.board p
      let peer := if c.fd = b.player1_fd then b.player2_fd else b.player1_fd
      let c1 : connection :=
        { c with games := games1, memory := mem1, peer_fd := some peer, running := false }
      some (send_bytes c1 peer [PEER_LEFT_NOTIFY])

/-- One round of the `while` loop of `connection_handler` (lines 890-984), entered with
a session record. After the handler call a return code `>= FATAL_ERRORS` makes the loop
free the user and the session record and set `session_details = NULL`; the reply is then
sent and the opponent notified. -/
def connection_round (c : connection) (ev : received) (env : round_env) :
    Option connection :=
  match c.session with
  | none => none
  | some s =>
    match ev with
    | received.closed => on_disconnect c s env.remove
    | received.message buffer =>
      match buffer[0]? with
      | none => none
      | some opcode =>
        if handler_present opcode = true then
          match handler opcode buffer (some s) c.games c.memory env.request with
          | none => none
          | some r =>
            match r.session with
            | none => none
            | some s1 =>
              let c1 : connection :=
                if FATAL_ERRORS ≤ r.ret then
                  { c with session := none, games := r.games, memory := r.memory,
                           released_users := s1.logged_in_user :: c.released_users,
                           session_released := true }
                else { c with session := some s1, games := r.games, memory := r.memory }
              if env.send_ok = false then some { c1 with running := false }
              else
                match r.buffer[0]? with
                | none => none
                | some code =>
                  notify_opponent (send_bytes c1 c.fd (r.buffer.take s1.bytes_written)) code
        else if env.send_ok = false then some { c with running := false }
        else some (send_bytes c c.fd [NOT_IMPLEMENTED])

/-- The condition `session_details && session_details->session_present` of the loop,
together with no `break` having happened. -/
def loop_condition (c : connection) : Bool :=
  c.running && (match c.session with
    | none => false
    | some s => s.session_present != 0)

/-- Lines 985-989 of `connection_handler`, after the loop: `free(session_details)` and
`shutdown(fd, SHUT_RDWR)`. -/
def connection_end (c : connection) : connection :=
  { c with session := none, session_released := c.session_released || c.session.isSome,
           running := false }

/-- The `while` loop of `connection_handler` and the statements after it, run against a
list of rounds. The result is the state after the loop has ended, or the state in which
the thread waits in `recv` when the list is used up. -/
def connection_loop : connection → List (received × round_env) → Option connection
  | c, [] => if loop_condition c = true then some c else some (connection_end c)
  | c, (ev, env) :: rest =>
    if loop_condition c = true then
      match connection_round c ev env with
      | none => none
      | some c1 => connection_loop c1 rest
    else some (connection_end c)

/-- A request of the session `s` does not fit the state of the session: a login, or an
account creation (which the code rejects in every state), on a session that is
authenticated; a create-board or join-random request on a session that has a board; a
leave-board or move request on a session that has none. -/
@[reducible] def out_of_state (opcode : Nat) (s : session_record) : Prop :=
  s.session_present ≠ 0
  ∧ (opcode = LOGIN_REQUEST ∨ opcode = CREATE_USER_REQUEST
    ∨ ((opcode = CREATE_NEW_GAME_REQUEST ∨ opcode = JOIN_RANDOM_GAME_REQUEST)
        ∧ s.current_game ≠ none)
    ∨ ((opcode = LEAVE_GAME_REQUEST ∨ opcode = ACTION_REQUEST) ∧ s.current_game = none))

/-- A connection inside the loop: descriptor `fd`, session `s`, nothing sent yet. -/
def connected (fd : Int) (s : session_record) (games : game_boards_array)
    (mem : board_memory) : connection :=
  { fd := fd, session := some s, games := games, memory := mem, peer_fd := none,
    released_users := [], session_released := false, sent := [], running := true }

/-- An environment in which every allocation, mutex call and `send` succeeds; the draws
of the matchmaking scan are all 0 and `calloc` returns the address 20 for a board. -/
def calm : round_env :=
  { request := { login := no_users, create := create_at 20, leave := leave_ok,
                 draws := [0], join_lock_rc := 0, join_unlock_rc := 0, errno := 0,
                 action_lock_rc := 0, action_unlock_rc := 0 },
    remove := remove_ok, send_ok := true }

/-- As `calm`, except that `pthread_mutex_lock` on the board's mutex fails. -/
def board_lock_fails : round_env :=
  { calm with request := { calm.request with action_lock_rc := 1 } }

/-! ## Sequences of create-board, join-random and leave-board requests -/

/-- One request in a sequence of requests of several sessions: the number of the session
that sends it and what the handler gets from outside. The registry mutex of
`join_random_game_request` works. -/
inductive board_call where
  | create (who : Nat) (env : create_env)
  | join (who : Nat) (draws : List Nat)
  | leave (who : Nat) (env : leave_env)

/-- The sessions of the server with the registry and the boards they share, and the
reply codes returned so far, oldest first. -/
structure lobby where
  sessions : List session_record
  games : game_boards_array
  memory : board_memory
  replies : List Nat

/-- The session that sends the request. -/
def board_call.who : board_call → Nat
  | board_call.create who _ => who
  | board_call.join who _ => who
  | board_call.leave who _ => who

/-- The handler call a request leads to, on a receive buffer that holds the opcode. -/
def board_call.run (call : board_call) (s : session_record) (games : game_boards_array)
    (mem : board_memory) : Option handler_result :=
  match call with
  | board_call.create _ env =>
    create_new_game_request (request_buffer [CREATE_NEW_GAME_REQUEST]) (some s) games mem env
  | board_call.join _ draws =>
    join_random_game_request (request_buffer [JOIN_RANDOM_GAME_REQUEST]) (some s) games mem
      draws 0 0
  | board_call.leave _ env =>
    leave_game_request (request_buffer [LEAVE_GAME_REQUEST]) (some s) games mem env

/-- Runs a sequence of requests, each handled to its end before the next one starts. -/
def run_board_calls : lobby → List board_call → Option lobby
  | l, [] => some l
  | l, call :: rest =>
    match l.sessions[call.who]? with
    | none => none
    | some s =>
      match call.run s l.games l.memory with
      | none => none
      | some r =>
        match r.session with
        | none => none
        | some s1 =>
          run_board_calls
            { sessions := l.sessions.set call.who s1, games := r.games, memory := r.memory,
              replies := l.replies ++ [r.ret] } rest

/-- Three authenticated sessions without a board (users 1, 2, 3 on the descriptors 4, 5,
6) and the registry as `main` creates it. -/
def three_sessions : lobby :=
  { sessions := [lobby_session 1 4, lobby_session 2 5, lobby_session 3 6],
    games := empty_registry, memory := fresh_memory, replies := [] }

/-- Whether a board has no occupant. -/
def unoccupied (b : game_board) : Bool := b.player_1.isNone && b.player_2.isNone

/-- Every call `game_boards_array_remove` makes to the outside succeeds. -/
def remove_works (env : remove_env) : Prop :=
  env.lock_rc = 0 ∧ env.destroy_rc = 0 ∧ env.realloc_array_ok = true
  ∧ env.realloc_visited_ok = true ∧ env.unlock_rc = 0

/-! ## Registry states reached by inserts and removals -/

/-- The registry after the boards at 10 and 11 have been inserted into
`empty_registry`: the count is 2, the marker array still has the one byte of the first
insert. -/
def two_game_registry : game_boards_array :=
  { array := [some 10, some 11, none, none, none], visited := some [0],
    number_of_elements := 2, array_size := REALLOC_SIZE }

/-- Ten inserts, of the boards at the addresses 10 .. 19. -/
def ten_inserts : List registry_call :=
  [10, 11, 12, 13, 14, 15, 16, 17, 18, 19].map (fun g => registry_call.add g add_ok)

/-- Five removals, of the boards at the addresses 19 .. 15. -/
def five_removals : List registry_call :=
  [19, 18, 17, 16, 15].map (fun g => registry_call.remove g remove_ok)

/-- The registry after `ten_inserts` and `five_removals`: five boards, and an
`array_size` of 5, while the pointer table still has its 15 slots. -/
def shrunk_registry : game_boards_array :=
  { array := [some 10, some 11, some 12, some 13, some 14, none, none, none, none, none,
              none, none, none, none, none],
    visited := some [0, 0, 0, 0, 0], number_of_elements := 5, array_size := REALLOC_SIZE }

/-- A coordinate payload whose first field, 23 times the digit `'9'`, is above
`ULONG_MAX`; the second field is `"1"`. -/
def overflow_payload : List Nat := List.replicate 23 57 ++ [0, 49, 0]

/-- The byte is one of `'A'` .. `'Z'`. -/
@[reducible] def is_upper (c : Nat) : Prop := 65 ≤ c ∧ c ≤ 90

/-- The turn test of `action_request` (lines 655-656) for the user `user` on the board
`b`: the request is answered `NOT_YOUR_TURN` when the user is in slot 1 and `'o'` is to
move, or in slot 2 and `'x'` is to move. -/
@[reducible] def turn_refused (b : game_board) (user : Option Nat) : Prop :=
  (b.player_1 = user ∧ b.whose_turn = ch_o) ∨ (b.player_2 = user ∧ b.whose_turn = ch_x)

/-! ## The positions a matchmaking scan examines -/

/-- The positions the loop of `join_random_game_request` examines, in order: a position
is examined when the loop gets past the test `roll == roll_prev || games->visited[roll]`,
marks `visited[roll]` and looks at the two slots of `array[roll]`. The function follows
`join_scan` step by step and records `roll` where `join_scan` sets the marker. -/
def scan_examined (a : game_boards_array) (mem : board_memory) (size : Nat) :
    List Nat → Nat → Nat → Option (List Nat) → List Nat
  | [], _, _, _ => []
  | d :: rest, i, roll_prev, visited =>
    if i = size then []
    else if size = 0 then []
    else
      let roll := d % size
      if roll = roll_prev then scan_examined a mem size rest i roll_prev visited
      else match visited with
        | none => []
        | some v =>
          match v[roll]? with
          | none => []
          | some flag =>
            if flag ≠ 0 then scan_examined a mem size rest i roll_prev visited
            else match a.array[roll]? with
              | none => []
              | some none => []
              | some (some p) =>
                if (mem.board p).player_1 = none then [roll]
                else if (mem.board p).player_2 = none then [roll]
                else roll :: scan_examined a mem size rest (i + 1) roll (some (v.set roll 1))

/-- The positions one call of `join_random_game_request` examines: none when the request
is refused or the registry cannot be locked, else those of the scan. -/
def join_examined (s : session_record) (games : game_boards_array) (mem : board_memory)
    (draws : List Nat) (lock_rc : Int) : List Nat :=
  if s.session_present = 0 ∨ s.current_game ≠ none then []
  else if lock_rc ≠ 0 then []
  else scan_examined games mem games.number_of_elements draws 0 UINT_MAX games.visited

/-- The marker array `v` with the markers at the positions `ks` set. -/
def set_markers (v : List Nat) (ks : List Nat) : List Nat :=
  ks.foldl (fun w k => w.set k 1) v

/-- Every marker of the array is clear (or there is no marker array). -/
def markers_clear (visited : Option (List Nat)) : Prop :=
  ∀ v, visited = some v → ∀ f ∈ v, f = 0

/-- The marker array a scan outcome carries. -/
def scan_outcome.markers : scan_outcome → Option (List Nat)
  | scan_outcome.exhausted v => v
  | scan_outcome.found _ _ _ v => v

/-! ## Boards over sequences of requests -/

/-- One request in a sequence of requests of several sessions: the number of the session
that sends it, the receive buffer (its first byte is the opcode) and what the handler
gets from outside. -/
structure request where
  who : Nat
  buffer : List Nat
  env : handler_env

/-- Runs a sequence of requests through the table `handler`, each handled to its end
before the next one starts. An opcode without an entry in the table is answered
`NOT_IMPLEMENTED` by the connection loop and changes nothing else. -/
def run_requests : lobby → List request → Option lobby
  | l, [] => some l
  | l, q :: rest =>
    match l.sessions[q.who]?, q.buffer[0]? with
    | some s, some opcode =>
      if handler_present opcode = true then
        match handler opcode q.buffer (some s) l.games l.memory q.env with
        | none => none
        | some r =>
          match r.session with
          | none => none
          | some s1 =>
            run_requests
              { sessions := l.sessions.set q.who s1, games := r.games, memory := r.memory,
                replies := l.replies ++ [r.ret] } rest
      else run_requests { l with replies := l.replies ++ [NOT_IMPLEMENTED] } rest
    | _, _ => none

/-- The request is a create-board request in which `calloc` returns the address `p` for
the new board. -/
@[reducible] def allocates (q : request) (p : Nat) : Prop :=
  q.buffer[0]? = some CREATE_NEW_GAME_REQUEST ∧ q.env.create.calloc_game = some p

/-- A change the request handlers make to a board that exists: `game_boards_array_add`
and `game_boards_array_remove` write its `index`, `join_random_game_request` writes the
joiner into an empty slot, `leave_game_request` takes the leaver out, and
`action_request` calls `write_x_or_o` when both slots are occupied and the turn state is
neither 0 nor `'D'`, and records the mover's last coordinates. -/
inductive board_step : game_board → game_board → Prop
  | reindex (b : game_board) (k : Nat) : board_step b { b with index := k }
  | join (b : game_board) (which : Nat) (user : Option Nat) (fd : Int)
      (h : (which = 0 ∧ b.player_1 = none)
        ∨ (which = 1 ∧ b.player_1 ≠ none ∧ b.player_2 = none)) :
      board_step b (occupy_slot b which user fd)
  | leave (b : game_board) (user : Option Nat) : board_step b (vacate b user)
  | move (b b1 : game_board) (x y character : Nat) (ret_value : Int)
      (hboth : b.player_1 ≠ none ∧ b.player_2 ≠ none)
      (hturn : b.whose_turn ≠ 0 ∧ b.whose_turn ≠ ch_D)
      (hw : write_x_or_o (some b) x y character = some (ret_value, some b1)) :
      board_step b b1
  | last_move (b : game_board) (user : Option Nat) (x y : Nat) :
      board_step b (record_last_move user b x y)

/-- Every cell of the board is `' '`, `'x'` or `'o'`. -/
@[reducible] def cells_valid (b : game_board) : Prop :=
  ∀ c ∈ b.matrix, c = ch_space ∨ c = ch_x ∨ c = ch_o

/-- The number of cells of the board that hold the byte `c`. -/
def marks (b : game_board) (c : Nat) : Nat := b.matrix.count c

/-- The two sides have marked in turns: the numbers of `'x'` and of `'o'` cells differ by
at most one, and the side the turn state names has not marked more cells than the
other. -/
@[reducible] def alternating (b : game_board) : Prop :=
  marks b ch_x ≤ marks b ch_o + 1 ∧ marks b ch_o ≤ marks b ch_x + 1
  ∧ (b.whose_turn = ch_x → marks b ch_x ≤ marks b ch_o)
  ∧ (b.whose_turn = ch_o → marks b ch_o ≤ marks b ch_x)

/-- Every cell that holds `'x'` or `'o'` on `b` holds the same mark on `b1`. -/
@[reducible] def marks_kept (b b1 : game_board) : Prop :=
  ∀ i : Nat, (b.matrix[i]? = some ch_x → b1.matrix[i]? = some ch_x)
    ∧ (b.matrix[i]? = some ch_o → b1.matrix[i]? = some ch_o)

/-- A side is to move or the turn state is unset. -/
@[reducible] def turn_open (b : game_board) : Prop :=
  b.whose_turn = 0 ∨ b.whose_turn = ch_x ∨ b.whose_turn = ch_o

/-- A board with an empty slot has no terminal turn state. -/
@[reducible] def open_while_waiting (b : game_board) : Prop :=
  (b.player_1 = none ∨ b.player_2 = none) → turn_open b

/-- The create-board request of session `who`; `calloc` returns the address `g` and every
other call to the outside succeeds. -/
def create_call (who g : Nat) : request :=
  { who := who, buffer := request_buffer [CREATE_NEW_GAME_REQUEST],
    env := { calm.request with create := create_at g } }

/-- The join-random request of session `who`, with the values `random()` returns. -/
def join_call (who : Nat) (draws : List Nat) : request :=
  { who := who, buffer := request_buffer [JOIN_RANDOM_GAME_REQUEST],
    env := { calm.request with draws := draws } }

/-- The leave-board request of session `who`. -/
def leave_call (who : Nat) : request :=
  { who := who, buffer := request_buffer [LEAVE_GAME_REQUEST], env := calm.request }

/-- The move request of session `who` for the one-digit coordinates `x` and `y`. -/
def move_call (who x y : Nat) : request :=
  { who := who, buffer := move_request x y, env := calm.request }

/-- The state a sequence of requests leads to, or the state it started from when the
sequence does not run to its end. -/
def lobby_after (l : lobby) (calls : List request) : lobby := (run_requests l calls).getD l

/-- The turn state is one of the two won states or the tie state. -/
@[reducible] def turn_terminal (b : game_board) : Prop :=
  b.whose_turn = ch_X ∨ b.whose_turn = ch_O ∨ b.whose_turn = ch_D

/-! ## Concrete runs of `write_x_or_o` on boards of size 3 -/

/-- C1 (anti-diagonal win), evaluated on the code: the board `anti_diagonal_board` is
reached from the empty board by four legal moves; `'x'` then plays the legal move
(0,2), after which (0,2), (1,1) and (2,0) all hold `'x'`; `write_x_or_o` returns 0 but
hands the turn to `'o'` instead of setting the won state `'X'`. -/
theorem C1_anti_diagonal_win_missed :
    play_moves (some start_board)
        [(1, 1, ch_x), (0, 0, ch_o), (2, 0, ch_x), (0, 1, ch_o)]
      = some (0, some anti_diagonal_board)
    ∧ in_progress anti_diagonal_board ∧ well_formed anti_diagonal_board
    ∧ legal_move anti_diagonal_board 0 2 ch_x
    ∧ anti_full (place anti_diagonal_board.matrix 3 0 2 ch_x) 3 ch_x
    ∧ write_x_or_o (some anti_diagonal_board) 0 2 ch_x
      = some (0, some { anti_diagonal_board with
                        matrix := place anti_diagonal_board.matrix 3 0 2 ch_x,
                        whose_turn := ch_o }) := by
  decide

/-- C2 (win soundness), evaluated on the code: the board `false_win_board` is reached
from the empty board by four legal moves; `'x'` then plays the legal move (1,1) and
`write_x_or_o` sets the won state `'X'`, although no row, column or diagonal of the
resulting grid consists of `'x'`: the anti-diagonal test reads cell (1,0) in place of
cell (2,0). -/
theorem C2_win_declared_without_line :
    play_moves (some start_board)
        [(0, 2, ch_x), (0, 0, ch_o), (1, 0, ch_x), (2, 2, ch_o)]
      = some (0, some false_win_board)
    ∧ in_progress false_win_board ∧ well_formed false_win_board
    ∧ legal_move false_win_board 1 1 ch_x
    ∧ write_x_or_o (some false_win_board) 1 1 ch_x
      = some (0, some { false_win_board with
                        matrix := place false_win_board.matrix 3 1 1 ch_x,
                        whose_turn := won_state ch_x })
    ∧ ¬ has_line (place false_win_board.matrix 3 1 1 ch_x) 3 ch_x := by
  decide

/-- C3 (tie soundness), evaluated on the code: the board `early_tie_board` is reached
from the empty board by two legal moves; `'x'` then plays the legal move (2,2) and
`write_x_or_o` sets the tie state `'D'` although six cells of the grid are still
empty: only the last row decides the tie test. -/
theorem C3_tie_declared_with_empty_cells :
    play_moves (some start_board) [(2, 0, ch_x), (2, 1, ch_o)]
      = some (0, some early_tie_board)
    ∧ in_progress early_tie_board ∧ well_formed early_tie_board
    ∧ legal_move early_tie_board 2 2 ch_x
    ∧ write_x_or_o (some early_tie_board) 2 2 ch_x
      = some (0, some { early_tie_board with
                        matrix := place early_tie_board.matrix 3 2 2 ch_x,
                        whose_turn := ch_D })
    ∧ (place early_tie_board.matrix 3 2 2 ch_x).count ch_space = 6 := by
  decide

/-- C4 (tie completeness), evaluated on the code: the board `last_cell_board` is
reached from the empty board by eight legal moves; `'x'` then fills the last empty
cell (2,1), leaving no row, column or diagonal entirely of `'x'` or entirely of `'o'`;
`write_x_or_o` sets the won state `'X'` instead of the tie state `'D'`. -/
theorem C4_full_board_without_line_not_tie :
    play_moves (some start_board)
        [(1, 1, ch_x), (0, 1, ch_o), (0, 0, ch_x), (2, 2, ch_o), (0, 2, ch_x), (1, 2, ch_o),
         (1, 0, ch_x), (2, 0, ch_o)]
      = some (0, some last_cell_board)
    ∧ in_progress last_cell_board ∧ well_formed last_cell_board
    ∧ legal_move last_cell_board 2 1 ch_x
    ∧ (place last_cell_board.matrix 3 2 1 ch_x).count ch_space = 0
    ∧ ¬ has_line (place last_cell_board.matrix 3 2 1 ch_x) 3 ch_x
    ∧ ¬ has_line (place last_cell_board.matrix 3 2 1 ch_x) 3 ch_o
    ∧ write_x_or_o (some last_cell_board) 2 1 ch_x
      = some (0, some { last_cell_board with
                        matrix := place last_cell_board.matrix 3 2 1 ch_x,
                        whose_turn := ch_X })
    ∧ ch_X ≠ ch_D := by
  decide

/-! ## Index arithmetic and the scanning loop -/

theorem cell_lt {n r c : Nat} (hr : r < n) (hc : c < n) : n * r + c < n * n := by
  have h1 : n * r + n ≤ n * n := by
    have h2 : n * (r + 1) ≤ n * n := Nat.mul_le_mul_left n hr
    rw [Nat.mul_succ] at h2
    exact h2
  omega

theorem cell_index_eq {n r c : Nat} (hnn : n * n < SIZE_MOD) (hr : r < n) (hc : c < n) :
    cell_index n r c = n * r + c := by
  have h1 : n * r + c < n * n := cell_lt hr hc
  have h2 : n * r < SIZE_MOD := by omega
  have h3 : n * r + c < SIZE_MOD := by omega
  unfold cell_index size_add size_mul
  rw [Nat.mod_eq_of_lt h2, Nat.mod_eq_of_lt h3]

theorem size_sub_one {n : Nat} (h0 : 0 < n) (hn : n < SIZE_MOD) : size_sub n 1 = n - 1 := by
  unfold size_sub
  have h1 : (1 : Nat) % SIZE_MOD = 1 := by decide
  rw [Nat.mod_eq_of_lt hn, h1]
  have h2 : n + SIZE_MOD - 1 = (n - 1) + SIZE_MOD := by omega
  rw [h2, Nat.add_mod_right]
  exact Nat.mod_eq_of_lt (by omega)

theorem getElem?_of_lt (m : List Nat) (k : Nat) (h : k < m.length) :
    ∃ v, m[k]? = some v := by
  cases hv : m[k]? with
  | none =>
    rw [List.getElem?_eq_none_iff] at hv
    omega
  | some v => exact ⟨v, rfl⟩

theorem scan_line_some (m : List Nat) (n : Nat) (idx : Nat → Nat) (c : Nat)
    (hidx : ∀ k < n, idx k < m.length) :
    ∀ fuel i, i ≤ n → n < fuel + i → ∃ k, scan_line m n idx c fuel i = some k := by
  intro fuel
  induction fuel with
  | zero =>
    intro i hle hi
    omega
  | succ f ih =>
    intro i hle hi
    by_cases hlt : i < n
    · obtain ⟨v, hget⟩ := getElem?_of_lt m (idx i) (hidx i hlt)
      by_cases hv : v = c
      · obtain ⟨k, hk⟩ := ih (i + 1) (by omega) (by omega)
        exact ⟨k, by simp [scan_line, hlt, hget, hv, hk]⟩
      · exact ⟨i, by simp [scan_line, hlt, hget, hv]⟩
    · exact ⟨i, by simp [scan_line, hlt]⟩

theorem scan_line_full (m : List Nat) (n : Nat) (idx : Nat → Nat) (c : Nat)
    (hfull : ∀ k < n, m[idx k]? = some c) :
    ∀ fuel i, i ≤ n → n < fuel + i → scan_line m n idx c fuel i = some n := by
  intro fuel
  induction fuel with
  | zero =>
    intro i hle hi
    omega
  | succ f ih =>
    intro i hle hi
    by_cases hlt : i < n
    · have hrec := ih (i + 1) (by omega) (by omega)
      simp [scan_line, hlt, hfull i hlt, hrec]
    · have : i = n := by omega
      simp [scan_line, this]

theorem after_write_win (b : game_board) (x y c : Nat)
    (hlen : b.matrix.length = b.board_size * b.board_size)
    (hnn : b.board_size * b.board_size < SIZE_MOD)
    (hx : x < b.board_size) (hy : y < b.board_size)
    (hline : row_full b.matrix b.board_size x c ∨ col_full b.matrix b.board_size y c ∨
      (x = y ∧ diag_full b.matrix b.board_size c)) :
    after_write b x y c = some (0, { b with whose_turn := to_won_state c }) := by
  have hrow : ∀ k < b.board_size, cell_index b.board_size x k < b.matrix.length := by
    intro k hk
    rw [cell_index_eq hnn hx hk, hlen]
    exact cell_lt hx hk
  have hcol : ∀ k < b.board_size, cell_index b.board_size k y < b.matrix.length := by
    intro k hk
    rw [cell_index_eq hnn hk hy, hlen]
    exact cell_lt hk hy
  obtain ⟨k1, hk1⟩ := scan_line_some b.matrix b.board_size
    (fun i => cell_index b.board_size x i) c hrow (b.board_size + 1) 0 (by omega) (by omega)
  obtain ⟨k2, hk2⟩ := scan_line_some b.matrix b.board_size
    (fun i => cell_index b.board_size i y) c hcol (b.board_size + 1) 0 (by omega) (by omega)
  unfold after_write
  simp only [hk1]
  by_cases h1 : k1 = b.board_size
  · simp [h1]
  · simp only [h1, if_false, hk2]
    by_cases h2 : k2 = b.board_size
    · simp [h2]
    · rcases hline with hr | hc | ⟨hxy, hd⟩
      · have hfull := scan_line_full b.matrix b.board_size
          (fun i => cell_index b.board_size x i) c
          (fun k hk => by
            show b.matrix[cell_index b.board_size x k]? = some c
            rw [cell_index_eq hnn hx hk]; exact hr k hk)
          (b.board_size + 1) 0 (by omega) (by omega)
        rw [hfull] at hk1
        cases hk1
        exact absurd rfl h1
      · have hfull := scan_line_full b.matrix b.board_size
          (fun i => cell_index b.board_size i y) c
          (fun k hk => by
            show b.matrix[cell_index b.board_size k y]? = some c
            rw [cell_index_eq hnn hk hy]; exact hc k hk)
          (b.board_size + 1) 0 (by omega) (by omega)
        rw [hfull] at hk2
        cases hk2
        exact absurd rfl h2
      · have hfull := scan_line_full b.matrix b.board_size
          (fun i => cell_index b.board_size i i) c
          (fun k hk => by
            show b.matrix[cell_index b.board_size k k]? = some c
            rw [cell_index_eq hnn hk hk]; exact hd k hk)
          (b.board_size + 1) 0 (by omega) (by omega)
        simp [h2, diagonals_then_tie, hxy, hfull]

/-! ## Wins on a row, a column or the main diagonal -/

/-- C5: on every well-formed in-progress board and for every legal move by mark `c` at
`(x, y)`, if after the move every cell of row `x` holds `c`, or every cell of column `y`
holds `c`, or `x = y` and every cell `(i, i)` holds `c`, then `write_x_or_o` returns 0,
the mark is on the board and `whose_turn` is the won state of `c`. -/
theorem C5_row_column_diagonal_win (b : game_board) (x y c : Nat)
    (hwf : well_formed b) (hmove : legal_move b x y c)
    (hline : row_full (place b.matrix b.board_size x y c) b.board_size x c
      ∨ col_full (place b.matrix b.board_size x y c) b.board_size y c
      ∨ (x = y ∧ diag_full (place b.matrix b.board_size x y c) b.board_size c)) :
    write_x_or_o (some b) x y c
      = some (0, some { b with matrix := place b.matrix b.board_size x y c,
                                whose_turn := won_state c }) := by
  obtain ⟨hn0, hlen, hnn⟩ := hwf
  obtain ⟨hturn, hc, hx, hy, hcell⟩ := hmove
  have hnlt : b.board_size < SIZE_MOD := by
    have : b.board_size * 1 ≤ b.board_size * b.board_size := Nat.mul_le_mul_left _ hn0
    omega
  have hsub := size_sub_one hn0 hnlt
  have hidx := cell_index_eq hnn hx hy
  have hc0 : c ≠ 0 := by
    rcases hc with h | h <;> rw [h] <;> decide
  have hwon : to_won_state c = won_state c := by
    rcases hc with h | h <;> rw [h] <;> decide
  have hbx : ¬ x > b.board_size - 1 := by omega
  have hby : ¬ y > b.board_size - 1 := by omega
  have hsx : ch_space ≠ ch_x := by decide
  have hso : ch_space ≠ ch_o := by decide
  have haw := after_write_win
    { b with matrix := b.matrix.set (b.board_size * x + y) c } x y c
    (by simp [hlen]) hnn hx hy hline
  simp only [hturn] at haw
  simp only [write_x_or_o, hc0, if_false, hturn, ne_eq, not_true_eq_false, hsub, hbx, hby,
    or_self, hidx, hcell, hsx, hso, not_false_eq_true, hc, and_self, if_true, haw, hwon]

/-- C5 applied: on a board where `'x'` holds (0,0) and (0,1) and `'o'` holds (1,0) and
(1,1), the move of `'x'` at (0,2) completes row 0 and wins. -/
theorem C5_row_column_diagonal_win_witness :
    well_formed row_win_board ∧ legal_move row_win_board 0 2 ch_x
    ∧ row_full (place row_win_board.matrix 3 0 2 ch_x) 3 0 ch_x
    ∧ write_x_or_o (some row_win_board) 0 2 ch_x
      = some (0, some { row_win_board with
                        matrix := [ch_x, ch_x, ch_x, ch_o, ch_o, ch_space,
                                   ch_space, ch_space, ch_space],
                        whose_turn := ch_X }) :=
  ⟨by decide, by decide, by decide,
   C5_row_column_diagonal_win row_win_board 0 2 ch_x (by decide) (by decide) (by decide)⟩

/-! ## Rejected move requests -/

/-- C6: on every board with both slots occupied, a move request from the session in the
slot whose mark is not `whose_turn` (slot 1 when `'o'` is to move, slot 2 when `'x'` is
to move) returns `NOT_YOUR_TURN` for every request buffer, so whatever the coordinates
are; the reply is the one byte `NOT_YOUR_TURN`, the session keeps its board, and the
board (cells, turn, slots, last moves) is unchanged. The board engine rejects such a
mark too: `write_x_or_o` returns -4 and leaves the board as it is. -/
theorem C6_turn_enforcement (buffer : List Nat) (s : session_details) (b : game_board)
    (errno : Nat) (hpresent : s.session_present ≠ 0) (hgame : s.current_game = some b)
    (hboth : b.player_1 ≠ none ∧ b.player_2 ≠ none)
    (hwrong : (b.player_1 = s.logged_in_user ∧ b.whose_turn = ch_o)
      ∨ (b.player_2 = s.logged_in_user ∧ b.whose_turn = ch_x)) :
    action_request buffer (some s) errno 0 0
      = some { ret := NOT_YOUR_TURN, buffer := buffer.set 0 NOT_YOUR_TURN,
               session := some { s with bytes_written := 1 }, errno := errno,
               lock_held := false }
    ∧ ({ s with bytes_written := 1 } : session_details).current_game = some b
    ∧ (∀ x y, write_x_or_o (some b) x y (if b.whose_turn = ch_o then ch_x else ch_o)
        = some (-4, some b)) := by
  obtain ⟨h1, h2⟩ := hboth
  have hD : ¬ (b.whose_turn = 0 ∨ b.whose_turn = ch_D) := by
    rcases hwrong with ⟨_, h⟩ | ⟨_, h⟩ <;> rw [h] <;> decide
  refine ⟨?_, hgame, ?_⟩
  · simp only [action_request, hgame, hpresent, if_false, ne_eq, not_true_eq_false, hD, h1, h2,
      or_self, hwrong, if_true, reply]
  · intro x y
    rcases hwrong with ⟨_, h⟩ | ⟨_, h⟩ <;> rw [h] <;> simp [write_x_or_o, h, ch_x, ch_o]

/-- C6 applied: on `row_win_board` (`'x'` to move) the session in slot 2 asks for the
cell (2,2) and is answered `NOT_YOUR_TURN`. -/
theorem C6_turn_enforcement_witness :
    action_request (move_request 2 2) (some (session_on 2 5 row_win_board)) 0 0 0
      = some { ret := NOT_YOUR_TURN, buffer := (move_request 2 2).set 0 NOT_YOUR_TURN,
               session := some { session_on 2 5 row_win_board with bytes_written := 1 },
               errno := 0, lock_held := false } :=
  (C6_turn_enforcement (move_request 2 2) (session_on 2 5 row_win_board) row_win_board 0
    (by decide) rfl (by decide) (by decide)).1

/-- The mover's mark is accepted by the turn tests of `action_request`: for the session
in the slot whose mark is `whose_turn`, on a board with two different occupants, the
test for `NOT_YOUR_TURN` fails and the mark passed to `write_x_or_o` is `whose_turn`. -/
theorem side_to_move_mark (s : session_details) (b : game_board)
    (hdistinct : b.player_1 ≠ b.player_2)
    (hside : (b.player_1 = s.logged_in_user ∧ b.whose_turn = ch_x)
      ∨ (b.player_2 = s.logged_in_user ∧ b.whose_turn = ch_o)) :
    ¬ ((b.player_1 = s.logged_in_user ∧ b.whose_turn = ch_o)
        ∨ (b.player_2 = s.logged_in_user ∧ b.whose_turn = ch_x))
    ∧ (if b.player_1 = s.logged_in_user then ch_x else ch_o) = b.whose_turn := by
  have hxo : ch_x ≠ ch_o := by decide
  rcases hside with ⟨hp, ht⟩ | ⟨hp, ht⟩
  · refine ⟨?_, by simp [hp, ht]⟩
    rintro (⟨_, h⟩ | ⟨h, _⟩)
    · rw [ht] at h
      exact hxo h
    · exact hdistinct (hp.trans h.symm)
  · have hne : ¬ b.player_1 = s.logged_in_user := fun h => hdistinct (h.trans hp.symm)
    refine ⟨?_, by simp [hne, ht]⟩
    rintro (⟨h, _⟩ | ⟨_, h⟩)
    · exact hne h
    · rw [ht] at h
      exact hxo h.symm

/-- C8: on every well-formed in-progress board with two different players present, a
move request of the side to move whose coordinates decode to an in-bounds cell `(x, y)`
that already holds `'x'` or `'o'` returns `CANNOT_WRITE_HERE`; the reply is that one
byte and the session keeps its board, which is unchanged in every field (so the cell
keeps its mark). -/
theorem C8_occupied_cell (buffer : List Nat) (s : session_details) (b : game_board)
    (errno x y e : Nat) (hpresent : s.session_present ≠ 0) (hgame : s.current_game = some b)
    (hwf : well_formed b) (hprog : in_progress b)
    (hboth : b.player_1 ≠ none ∧ b.player_2 ≠ none) (hdistinct : b.player_1 ≠ b.player_2)
    (hside : (b.player_1 = s.logged_in_user ∧ b.whose_turn = ch_x)
      ∨ (b.player_2 = s.logged_in_user ∧ b.whose_turn = ch_o))
    (hdecode : get_coordinates_from_buffer (buffer.drop 1) 0 errno
      = some { ret := 0, x := x, y := y, errno := e })
    (hx : x < b.board_size) (hy : y < b.board_size)
    (hcell : b.matrix[b.board_size * x + y]? = some ch_x
      ∨ b.matrix[b.board_size * x + y]? = some ch_o) :
    action_request buffer (some s) errno 0 0
      = some { ret := CANNOT_WRITE_HERE, buffer := buffer.set 0 CANNOT_WRITE_HERE,
               session := some { s with bytes_written := 1 }, errno := e,
               lock_held := false }
    ∧ ({ s with bytes_written := 1 } : session_details).current_game = some b := by
  obtain ⟨hn0, hlen, hnn⟩ := hwf
  obtain ⟨h1, h2⟩ := hboth
  obtain ⟨hnot, hmark⟩ := side_to_move_mark s b hdistinct hside
  have hD : ¬ (b.whose_turn = 0 ∨ b.whose_turn = ch_D) := by
    rcases hprog with h | h <;> rw [h] <;> decide
  have hc0 : ¬ b.whose_turn = 0 := fun h => hD (Or.inl h)
  have hnlt : b.board_size < SIZE_MOD := by
    have : b.board_size * 1 ≤ b.board_size * b.board_size := Nat.mul_le_mul_left _ hn0
    omega
  have hsub := size_sub_one hn0 hnlt
  have hidx := cell_index_eq hnn hx hy
  have hbx : ¬ x > b.board_size - 1 := by omega
  have hby : ¬ y > b.board_size - 1 := by omega
  have hw : write_x_or_o (some b) x y b.whose_turn = some (-5, some b) := by
    rcases hcell with hv | hv <;>
      simp [write_x_or_o, hc0, hsub, hbx, hby, hidx, hv]
  have hs : ({ s with current_game := some b } : session_details) = s := by
    cases s
    simp_all
  refine ⟨?_, hgame⟩
  simp only [action_request, hgame, hpresent, if_false, ne_eq, not_true_eq_false, hD, h1, h2,
    or_self, hnot, hmark, hdecode, hw, reply, hs]
  simp

set_option maxRecDepth 100000 in
/-- C8 applied: on `row_win_board` the session in slot 1 (`'x'` to move) asks for the
cell (1,1), which holds `'o'`. -/
theorem C8_occupied_cell_witness :
    action_request (move_request 1 1) (some (session_on 1 4 row_win_board)) 0 0 0
      = some { ret := CANNOT_WRITE_HERE,
               buffer := (move_request 1 1).set 0 CANNOT_WRITE_HERE,
               session := some { session_on 1 4 row_win_board with bytes_written := 1 },
               errno := 0, lock_held := false } :=
  (C8_occupied_cell (move_request 1 1) (session_on 1 4 row_win_board) row_win_board 0 1 1 0
    (by decide) rfl (by decide) (by decide) (by decide) (by decide) (by decide) (by decide)
    (by decide) (by decide) (by decide)).1

/-- C9: on every well-formed in-progress board with two different players present, a
move request of the side to move whose coordinates decode to `(x, y)` with
`x >= board_size` or `y >= board_size` returns `INVALID_OPERANDS`; the reply is that one
byte and the session keeps its board, which is unchanged in every field. No cell is
touched: `write_x_or_o` returns -2 from the bounds test, before its first access to the
matrix, and the run as a whole returns normally (every matrix access of the embedding
is bounds-checked). -/
theorem C9_out_of_bounds (buffer : List Nat) (s : session_details) (b : game_board)
    (errno x y e : Nat) (hpresent : s.session_present ≠ 0) (hgame : s.current_game = some b)
    (hwf : well_formed b) (hprog : in_progress b)
    (hboth : b.player_1 ≠ none ∧ b.player_2 ≠ none) (hdistinct : b.player_1 ≠ b.player_2)
    (hside : (b.player_1 = s.logged_in_user ∧ b.whose_turn = ch_x)
      ∨ (b.player_2 = s.logged_in_user ∧ b.whose_turn = ch_o))
    (hdecode : get_coordinates_from_buffer (buffer.drop 1) 0 errno
      = some { ret := 0, x := x, y := y, errno := e })
    (hout : x ≥ b.board_size ∨ y ≥ b.board_size) :
    action_request buffer (some s) errno 0 0
      = some { ret := INVALID_OPERANDS, buffer := buffer.set 0 INVALID_OPERANDS,
               session := some { s with bytes_written := 1 }, errno := e,
               lock_held := false }
    ∧ ({ s with bytes_written := 1 } : session_details).current_game = some b
    ∧ write_x_or_o (some b) x y b.whose_turn = some (-2, some b) := by
  obtain ⟨hn0, hlen, hnn⟩ := hwf
  obtain ⟨h1, h2⟩ := hboth
  obtain ⟨hnot, hmark⟩ := side_to_move_mark s b hdistinct hside
  have hD : ¬ (b.whose_turn = 0 ∨ b.whose_turn = ch_D) := by
    rcases hprog with h | h <;> rw [h] <;> decide
  have hc0 : ¬ b.whose_turn = 0 := fun h => hD (Or.inl h)
  have hnlt : b.board_size < SIZE_MOD := by
    have : b.board_size * 1 ≤ b.board_size * b.board_size := Nat.mul_le_mul_left _ hn0
    omega
  have hsub := size_sub_one hn0 hnlt
  have hb : x > b.board_size - 1 ∨ y > b.board_size - 1 := by omega
  have hw : write_x_or_o (some b) x y b.whose_turn = some (-2, some b) := by
    simp [write_x_or_o, hc0, hsub, hb]
  have hs : ({ s with current_game := some b } : session_details) = s := by
    cases s
    simp_all
  refine ⟨?_, hgame, hw⟩
  simp only [action_request, hgame, hpresent, if_false, ne_eq, not_true_eq_false, hD, h1, h2,
    or_self, hnot, hmark, hdecode, hw, reply, hs]
  simp

set_option maxRecDepth 100000 in
/-- C9 applied: on `row_win_board` the session in slot 1 (`'x'` to move) asks for the
cell (3,0), which is off the board of size 3. -/
theorem C9_out_of_bounds_witness :
    action_request (move_request 3 0) (some (session_on 1 4 row_win_board)) 0 0 0
      = some { ret := INVALID_OPERANDS,
               buffer := (move_request 3 0).set 0 INVALID_OPERANDS,
               session := some { session_on 1 4 row_win_board with bytes_written := 1 },
               errno := 0, lock_held := false } :=
  (C9_out_of_bounds (move_request 3 0) (session_on 1 4 row_win_board) row_win_board 0 3 0 0
    (by decide) rfl (by decide) (by decide) (by decide) (by decide) (by decide) (by decide)
    (by decide)).1

/-- C10: on every in-progress board on which exactly one slot is occupied, a move
request from the occupant returns `NO_PLAYER_PRESENT` for every request buffer; the
reply is that one byte and the session keeps its board, which is unchanged in every
field. -/
theorem C10_no_opponent (buffer : List Nat) (s : session_details) (b : game_board)
    (errno : Nat) (hpresent : s.session_present ≠ 0) (hgame : s.current_game = some b)
    (hprog : in_progress b)
    (hone : (b.player_1 ≠ none ∧ b.player_1 = s.logged_in_user ∧ b.player_2 = none)
      ∨ (b.player_2 ≠ none ∧ b.player_2 = s.logged_in_user ∧ b.player_1 = none)) :
    action_request buffer (some s) errno 0 0
      = some { ret := NO_PLAYER_PRESENT, buffer := buffer.set 0 NO_PLAYER_PRESENT,
               session := some { s with bytes_written := 1 }, errno := errno,
               lock_held := false }
    ∧ ({ s with bytes_written := 1 } : session_details).current_game = some b := by
  have hD : ¬ (b.whose_turn = 0 ∨ b.whose_turn = ch_D) := by
    rcases hprog with h | h <;> rw [h] <;> decide
  have hnone : b.player_1 = none ∨ b.player_2 = none := by
    rcases hone with ⟨_, _, h⟩ | ⟨_, _, h⟩
    · exact Or.inr h
    · exact Or.inl h
  refine ⟨?_, hgame⟩
  simp only [action_request, hgame, hpresent, if_false, ne_eq, not_true_eq_false, hD, hnone,
    if_true, reply]

/-- C10 applied: on `waiting_board` only slot 1 is occupied; its session asks for the
cell (2,2). -/
theorem C10_no_opponent_witness :
    action_request (move_request 2 2) (some (session_on 1 4 waiting_board)) 0 0 0
      = some { ret := NO_PLAYER_PRESENT,
               buffer := (move_request 2 2).set 0 NO_PLAYER_PRESENT,
               session := some { session_on 1 4 waiting_board with bytes_written := 1 },
               errno := 0, lock_held := false } :=
  (C10_no_opponent (move_request 2 2) (session_on 1 4 waiting_board) waiting_board 0
    (by decide) rfl (by decide) (by decide)).1

/-! ## Move requests on a finished game -/

set_option maxRecDepth 100000 in
/-- C7 as stated fails on the code: on `won_board` (won by `'x'`, both players present)
the move request of the session in slot 1 for the cell (2,2) is answered
`GAME_IS_FINISHED` with the winner's byte, which is not `NO_FURTHER_ACTIONS_PERMITTED`,
and the last move recorded for player 1 changes from (0,2) to (2,2). -/
theorem C7_counterexample_move_on_won_board :
    won_board.whose_turn = ch_X
    ∧ action_request (move_request 2 2) (some (session_on 1 4 won_board)) 0 0 0
      = some { ret := GAME_IS_FINISHED,
               buffer := ((move_request 2 2).set 0 GAME_IS_FINISHED).set 1 ch_X,
               session := some { session_on 1 4 won_board with
                                 bytes_written := 2,
                                 current_game := some { won_board with
                                                        player1_last_x := 2,
                                                        player1_last_y := 2 } },
               errno := 0, lock_held := false }
    ∧ GAME_IS_FINISHED ≠ NO_FURTHER_ACTIONS_PERMITTED
    ∧ (won_board.player1_last_x, won_board.player1_last_y) ≠ (2, 2) := by
  decide

theorem record_last_move_fields (user : Option Nat) (g : game_board) (x y : Nat) :
    (record_last_move user g x y).matrix = g.matrix
    ∧ (record_last_move user g x y).whose_turn = g.whose_turn
    ∧ (record_last_move user g x y).player_1 = g.player_1
    ∧ (record_last_move user g x y).player_2 = g.player_2
    ∧ (record_last_move user g x y).host = g.host
    ∧ (record_last_move user g x y).board_size = g.board_size
    ∧ (record_last_move user g x y).index = g.index := by
  unfold record_last_move
  split <;> simp

/-- C7 amended: for a session on board `b`, (1) if the turn state is the tie state
`'D'`, a move request is answered `NO_FURTHER_ACTIONS_PERMITTED` (one byte) for every
request buffer and the board is unchanged in every field; (2) if the turn state is a
won state `'X'` or `'O'`, both slots are occupied and the coordinates decode, the
request is answered `GAME_IS_FINISHED` with the two bytes `GAME_IS_FINISHED` and the
won state, and the board keeps its cells, turn state, slots, host, size and index. -/
theorem C7_finished_game_move (buffer : List Nat) (s : session_details) (b : game_board)
    (errno : Nat) (hpresent : s.session_present ≠ 0) (hgame : s.current_game = some b) :
    (b.whose_turn = ch_D →
      action_request buffer (some s) errno 0 0
        = some { ret := NO_FURTHER_ACTIONS_PERMITTED,
                 buffer := buffer.set 0 NO_FURTHER_ACTIONS_PERMITTED,
                 session := some { s with bytes_written := 1 }, errno := errno,
                 lock_held := false }
      ∧ ({ s with bytes_written := 1 } : session_details).current_game = some b)
    ∧ ((b.whose_turn = ch_X ∨ b.whose_turn = ch_O) →
        b.player_1 ≠ none → b.player_2 ≠ none →
        ∀ x y e, get_coordinates_from_buffer (buffer.drop 1) 0 errno
            = some { ret := 0, x := x, y := y, errno := e } →
          ∃ g, action_request buffer (some s) errno 0 0
              = some { ret := GAME_IS_FINISHED,
                       buffer := (buffer.set 0 GAME_IS_FINISHED).set 1 b.whose_turn,
                       session := some { s with bytes_written := 2, current_game := some g },
                       errno := e, lock_held := false }
            ∧ g.matrix = b.matrix ∧ g.whose_turn = b.whose_turn
            ∧ g.player_1 = b.player_1 ∧ g.player_2 = b.player_2 ∧ g.host = b.host
            ∧ g.board_size = b.board_size ∧ g.index = b.index) := by
  constructor
  · intro hD
    refine ⟨?_, hgame⟩
    simp only [action_request, hgame, hpresent, if_false, hD, or_true, if_true, reply, ne_eq,
      not_true_eq_false]
  · intro hwon h1 h2 x y e hdecode
    have hD : ¬ (b.whose_turn = 0 ∨ b.whose_turn = ch_D) := by
      rcases hwon with h | h <;> rw [h] <;> decide
    have hc0 : ¬ b.whose_turn = 0 := fun h => hD (Or.inl h)
    have hno : ¬ b.whose_turn = ch_o := by
      rcases hwon with h | h <;> rw [h] <;> decide
    have hnx : ¬ b.whose_turn = ch_x := by
      rcases hwon with h | h <;> rw [h] <;> decide
    have hfields := record_last_move_fields s.logged_in_user b x y
    have hw : write_x_or_o (some b) x y (if b.player_1 = s.logged_in_user then ch_x else ch_o)
        = some (-4, some b) := by
      have hx0 : ¬ ch_x = 0 := by decide
      have ho0 : ¬ ch_o = 0 := by decide
      by_cases hp : b.player_1 = s.logged_in_user
      · rw [if_pos hp]
        simp only [write_x_or_o, hx0, if_false, ne_eq, hnx, not_false_eq_true, if_true]
      · rw [if_neg hp]
        simp only [write_x_or_o, ho0, if_false, ne_eq, hno, not_false_eq_true, if_true]
    have hfin : (record_last_move s.logged_in_user b x y).whose_turn = ch_X
        ∨ (record_last_move s.logged_in_user b x y).whose_turn = ch_O
        ∨ (record_last_move s.logged_in_user b x y).whose_turn = ch_D := by
      rw [hfields.2.1]
      rcases hwon with h | h
      · exact Or.inl h
      · exact Or.inr (Or.inl h)
    refine ⟨record_last_move s.logged_in_user b x y, ?_, hfields⟩
    simp only [action_request, hgame, hpresent, if_false, ne_eq, not_true_eq_false, hD, h1, h2,
      or_self, hno, hnx, and_false, hdecode, hw, finish_action, hfin, if_true]
    simp [hfields.2.1]

set_option maxRecDepth 100000 in
/-- C7 amended, applied: on `tie_board` the session in slot 2 is answered
`NO_FURTHER_ACTIONS_PERMITTED`; on `won_board` the session in slot 2 asking for the
cell (2,2) is answered `GAME_IS_FINISHED` with the byte `'X'`, the cells staying as they
are. -/
theorem C7_finished_game_move_witness :
    action_request (move_request 2 2) (some (session_on 2 5 tie_board)) 0 0 0
      = some { ret := NO_FURTHER_ACTIONS_PERMITTED,
               buffer := (move_request 2 2).set 0 NO_FURTHER_ACTIONS_PERMITTED,
               session := some { session_on 2 5 tie_board with bytes_written := 1 },
               errno := 0, lock_held := false }
    ∧ ∃ g, action_request (move_request 2 2) (some (session_on 2 5 won_board)) 0 0 0
        = some { ret := GAME_IS_FINISHED,
                 buffer := ((move_request 2 2).set 0 GAME_IS_FINISHED).set 1 ch_X,
                 session := some { session_on 2 5 won_board with
                                   bytes_written := 2, current_game := some g },
                 errno := 0, lock_held := false }
      ∧ g.matrix = won_board.matrix :=
  ⟨((C7_finished_game_move (move_request 2 2) (session_on 2 5 tie_board) tie_board 0
      (by decide) rfl).1 (by decide)).1,
   match (C7_finished_game_move (move_request 2 2) (session_on 2 5 won_board) won_board 0
      (by decide) rfl).2 (by decide) (by decide) (by decide) 2 2 0 (by decide) with
   | ⟨g, h, hm, _⟩ => ⟨g, h, hm⟩⟩

/-! ## Decoding of coordinate payloads -/

theorem isdigit_iff (c : Nat) : isdigit c = true ↔ 48 ≤ c ∧ c ≤ 57 := by
  simp [isdigit]

theorem isdigit_not_space {c : Nat} (h : isdigit c = true) :
    isspace c = false ∧ c ≠ 45 ∧ c ≠ 43 ∧ c ≠ 0 := by
  rw [isdigit_iff] at h
  have a : ¬ c = 32 := by omega
  have b : ¬ c ≤ 13 := by omega
  refine ⟨?_, by omega, by omega, by omega⟩
  simp [isspace, a, b]

theorem read_digits_append (ds : List Nat) (hd : ∀ d ∈ ds, isdigit d = true)
    (rest : List Nat) :
    ∀ acc k, read_digits (ds ++ rest) acc k
      = read_digits rest (ds.foldl (fun a d => a * 10 + (d - 48)) acc) (k + ds.length) := by
  induction ds with
  | nil => intro acc k; simp
  | cons d tl ih =>
    intro acc k
    have h1 : isdigit d = true := hd d (by simp)
    have h2 := ih (fun e he => hd e (by simp [he])) (acc * 10 + (d - 48)) (k + 1)
    have h3 : k + 1 + tl.length = k + (tl.length + 1) := by omega
    simp only [List.cons_append, read_digits, h1, if_true, List.foldl_cons, List.length_cons]
    rw [← h3]
    exact h2

theorem decimal_text_digits : ∀ fuel n, ∀ d ∈ decimal_text fuel n, isdigit d = true := by
  intro fuel
  induction fuel with
  | zero => intro n d hd; simp [decimal_text] at hd
  | succ f ih =>
    intro n d hd
    unfold decimal_text at hd
    split at hd
    · simp only [List.mem_singleton] at hd
      rw [isdigit_iff, hd, ch_0]
      omega
    · rw [List.mem_append] at hd
      rcases hd with h | h
      · exact ih _ d h
      · simp only [List.mem_singleton] at h
        rw [isdigit_iff, h, ch_0]
        omega

theorem decimal_text_value : ∀ fuel n, n < fuel →
    (decimal_text fuel n).foldl (fun a d => a * 10 + (d - 48)) 0 = n := by
  intro fuel
  induction fuel with
  | zero => intro n h; omega
  | succ f ih =>
    intro n h
    unfold decimal_text
    split
    · simp [ch_0]
    · have h1 : n / 10 < f := by omega
      rw [List.foldl_append, ih _ h1]
      simp only [List.foldl_cons, List.foldl_nil, ch_0]
      omega

theorem decimal_text_head : ∀ fuel n, 0 < n → n < fuel →
    ∃ d tl, decimal_text fuel n = d :: tl ∧ 49 ≤ d ∧ d ≤ 57 := by
  intro fuel
  induction fuel with
  | zero => intro n _ h; omega
  | succ f ih =>
    intro n h0 h
    unfold decimal_text
    split
    · exact ⟨ch_0 + n, [], rfl, by rw [ch_0]; omega, by rw [ch_0]; omega⟩
    · obtain ⟨d, tl, he, h1, h2⟩ := ih (n / 10) (by omega) (by omega)
      exact ⟨d, tl ++ [ch_0 + n % 10], by rw [he]; rfl, h1, h2⟩

theorem decimal_zero : decimal 0 = [ch_0] := by decide

theorem decimal_digits (n : Nat) : ∀ d ∈ decimal n, isdigit d = true :=
  decimal_text_digits (n + 1) n

theorem decimal_value (n : Nat) : digits_value (decimal n) = n :=
  decimal_text_value (n + 1) n (by omega)

theorem decimal_head (n : Nat) (h : 0 < n) : ∃ d tl, decimal n = d :: tl ∧ 49 ≤ d ∧ d ≤ 57 :=
  decimal_text_head (n + 1) n h (by omega)

theorem decimal_ne_nil (n : Nat) : decimal n ≠ [] := by
  rcases Nat.eq_zero_or_pos n with h | h
  · rw [h, decimal_zero]; simp
  · obtain ⟨d, tl, he, _⟩ := decimal_head n h
    rw [he]; simp

/-- What `strtoul` does on a non-empty string of decimal digits followed by a byte
that is not a digit. -/
theorem strtoul_digits (ds rest : List Nat) (t errno : Nat) (hne : ds ≠ [])
    (hd : ∀ d ∈ ds, isdigit d = true) (ht : isdigit t = false) :
    strtoul (ds ++ t :: rest) errno
      = some (if digits_value ds > ULONG_MAX then (ULONG_MAX, ds.length, ERANGE)
              else (digits_value ds, ds.length, errno)) := by
  cases ds with
  | nil => exact absurd rfl hne
  | cons d tl =>
    obtain ⟨hs, h45, h43, _⟩ := isdigit_not_space (hd d (by simp))
    have hstop : ∀ v n, read_digits (t :: rest) v n = some (v, n) := by
      intro v n
      simp [read_digits, ht]
    have hread := read_digits_append (d :: tl) hd (t :: rest) 0 0
    rw [hstop, Nat.zero_add] at hread
    have hsign : ¬ (d = 45 ∨ d = 43) := by
      rintro (h | h)
      · exact h45 h
      · exact h43 h
    have hlen : ¬ (d :: tl).length = 0 := by simp
    simp only [strtoul, List.cons_append, skip_space, hs, Bool.false_eq_true, if_false,
      List.getElem?_cons_zero, hsign, List.drop_zero]
    rw [← List.cons_append, hread]
    simp only [hlen, if_false, digits_value, Nat.zero_add]
    split <;> rfl
theorem is_zero_text_append (pre q : List Nat) :
    is_zero_text (pre ++ q) pre.length = is_zero_text q 0 := by
  have h0 : (pre ++ q)[pre.length]? = q[0]? := by
    rw [List.getElem?_append_right (Nat.le_refl _)]
    simp
  have h1 : (pre ++ q)[pre.length + 1]? = q[0 + 1]? := by
    rw [List.getElem?_append_right (by omega)]
    congr 1
    omega
  simp only [is_zero_text, h0, h1]

/-- The second half of `get_coordinates_from_buffer` looks only at the bytes after the
offset `next + 1`. -/
theorem second_coordinate_append (pre q : List Nat) (next x errno : Nat)
    (hnext : next + 1 = pre.length) :
    second_coordinate (pre ++ q) next x errno
      = match is_zero_text q 0 with
        | none => none
        | some true => some { ret := 0, x := x, y := 0, errno := errno }
        | some false =>
          match strtoul q errno with
          | none => none
          | some (v, _, e) =>
            if v = 0 ∨ e = ERANGE then some { ret := 3, x := x, y := v, errno := e }
            else some { ret := 0, x := x, y := v, errno := e } := by
  have hdrop : (pre ++ q).drop pre.length = q := by simp
  unfold second_coordinate
  rw [hnext, is_zero_text_append, hdrop]

/-- The first half of `get_coordinates_from_buffer` on the decimal text of `x` followed
by a zero byte: a stale `ERANGE` in `errno` makes a non-zero `x` fail with 2, otherwise
the decoding goes on with the second operand. -/
theorem first_coordinate_decimal (x y0 errno : Nat) (q : List Nat) (hx : x ≤ ULONG_MAX) :
    get_coordinates_from_buffer (decimal x ++ 0 :: q) y0 errno
      = if x ≠ 0 ∧ errno = ERANGE then some { ret := 2, x := x, y := y0, errno := errno }
        else second_coordinate (decimal x ++ 0 :: q) (decimal x).length x errno := by
  rcases Nat.eq_zero_or_pos x with h0 | hpos
  · subst h0
    simp [get_coordinates_from_buffer, decimal_zero, is_zero_text]
  · obtain ⟨d, tl, he, h1, h2⟩ := decimal_head x hpos
    have hne : x ≠ 0 := by omega
    have hz : is_zero_text (decimal x ++ 0 :: q) 0 = some false := by
      have hd : ¬ d = ch_0 := by rw [ch_0]; omega
      simp [is_zero_text, he, hd]
    have ht : isdigit 0 = false := by decide
    have hs := strtoul_digits (decimal x) q 0 errno (decimal_ne_nil x) (decimal_digits x) ht
    rw [decimal_value] at hs
    have hle : ¬ x > ULONG_MAX := by omega
    rw [if_neg hle] at hs
    simp only [get_coordinates_from_buffer, hz, hs, hne, false_or, ne_eq, not_false_eq_true,
      true_and]

/-- The decoding of the second operand when it is the decimal text of `y` followed by a
zero byte. -/
theorem second_coordinate_decimal (pre rest : List Nat) (next x y errno : Nat)
    (hnext : next + 1 = pre.length) (hy : y ≤ ULONG_MAX) (herrno : errno ≠ ERANGE) :
    second_coordinate (pre ++ (decimal y ++ 0 :: rest)) next x errno
      = some { ret := 0, x := x, y := y, errno := errno } := by
  rw [second_coordinate_append pre _ next x errno hnext]
  rcases Nat.eq_zero_or_pos y with h0 | hpos
  · subst h0
    simp [decimal_zero, is_zero_text]
  · obtain ⟨d, tl, he, h1, h2⟩ := decimal_head y hpos
    have hne : y ≠ 0 := by omega
    have hz : is_zero_text (decimal y ++ 0 :: rest) 0 = some false := by
      have hd : ¬ d = ch_0 := by rw [ch_0]; omega
      simp [is_zero_text, he, hd]
    have ht : isdigit 0 = false := by decide
    have hs := strtoul_digits (decimal y) rest 0 errno (decimal_ne_nil y) (decimal_digits y) ht
    rw [decimal_value] at hs
    have hle : ¬ y > ULONG_MAX := by omega
    rw [if_neg hle] at hs
    simp only [hz, hs, hne, herrno, or_self, if_false]

/-- While `errno` is not `ERANGE` on entry: for all `x` and `y` in the range of
`unsigned long` (0 included), the payload made of the decimal text of `x`, a zero byte,
the decimal text of `y` and a zero byte, whatever bytes follow it in the buffer, is
decoded by `get_coordinates_from_buffer` with return value 0 and outputs `(x, y)`. -/
theorem round_trip_with_clear_errno (x y y0 errno : Nat) (rest : List Nat)
    (hx : x ≤ ULONG_MAX) (hy : y ≤ ULONG_MAX) (herrno : errno ≠ ERANGE) :
    get_coordinates_from_buffer (coordinate_payload x y ++ rest) y0 errno
      = some { ret := 0, x := x, y := y, errno := errno } := by
  have hshape : coordinate_payload x y ++ rest
      = decimal x ++ 0 :: (decimal y ++ 0 :: rest) := by
    simp [coordinate_payload]
  have hsplit : decimal x ++ 0 :: (decimal y ++ 0 :: rest)
      = (decimal x ++ [0]) ++ (decimal y ++ 0 :: rest) := by
    simp
  rw [hshape, first_coordinate_decimal x y0 errno _ hx, if_neg (fun h => herrno h.2), hsplit]
  exact second_coordinate_decimal (decimal x ++ [0]) rest (decimal x).length x y errno
    (by simp) hy herrno

/-- With `errno` 0 on entry the payload for `x = 0` and `y = ULONG_MAX`, followed by two
bytes of an earlier message, decodes to `(0, ULONG_MAX)`. -/
theorem round_trip_with_clear_errno_example :
    get_coordinates_from_buffer (coordinate_payload 0 18446744073709551615 ++ [55, 0]) 0 0
      = some { ret := 0, x := 0, y := 18446744073709551615, errno := 0 } :=
  round_trip_with_clear_errno 0 18446744073709551615 0 0 [55, 0] (by decide) (by decide)
    (by decide)

/-- C15: the code diverges from the claim when `errno` holds `ERANGE` on entry (same
defect as C39: `errno` is tested after `strtoul` without having been cleared before).
The decode of a payload whose first number overflows leaves `errno` at `ERANGE`; after
it the well-formed payloads for (3, 7) and (0, 5) are decoded with the return values 2
and 3, while with `errno` 0 on entry they decode to (3, 7) and (0, 5) with return value
0. -/
theorem C15_round_trip_fails_after_overflow :
    (get_coordinates_from_buffer overflow_payload 0 0).map (fun r => r.errno) = some ERANGE
    ∧ (get_coordinates_from_buffer (coordinate_payload 3 7) 0 ERANGE).map (fun r => r.ret)
      = some 2
    ∧ (get_coordinates_from_buffer (coordinate_payload 0 5) 0 ERANGE).map (fun r => r.ret)
      = some 3
    ∧ get_coordinates_from_buffer (coordinate_payload 3 7) 0 0
      = some { ret := 0, x := 3, y := 7, errno := 0 }
    ∧ get_coordinates_from_buffer (coordinate_payload 0 5) 0 0
      = some { ret := 0, x := 0, y := 5, errno := 0 } := by
  refine ⟨by decide, by decide, by decide, by decide, by decide⟩

theorem drop_space_head : ∀ s : List Nat, ∀ c r, drop_space s = c :: r → isspace c = false := by
  intro s
  induction s with
  | nil => intro c r h; simp [drop_space] at h
  | cons a rest ih =>
    intro c r h
    by_cases ha : isspace a = true
    · have h1 : drop_space (a :: rest) = drop_space rest := by simp [drop_space, ha]
      rw [h1] at h
      exact ih c r h
    · have h1 : drop_space (a :: rest) = a :: rest := by simp [drop_space, ha]
      rw [h1] at h
      cases h
      simpa using ha

theorem realloc_list_getElem? {α : Type} (l : List α) (m : Nat) (junk : Nat → α) (i : Nat)
    (hm : i < m) (hl : i < l.length) : (realloc_list l m junk)[i]? = l[i]? := by
  have h1 : l[i]? = some l[i] := List.getElem?_eq_getElem hl
  simp [realloc_list, List.getElem?_range hm, h1]

/-- What a call of `game_boards_array_add` that returns 0 has done. -/
theorem add_returns_zero (a : game_boards_array) (g : Nat) (mem : board_memory) (env : add_env)
    (r : Option game_boards_array) (mem1 : board_memory)
    (h : game_boards_array_add (some a) (some g) mem env = some (0, r, mem1)) :
    ∃ a1, r = some a1
      ∧ a1.number_of_elements = a.number_of_elements + 1
      ∧ a1.array[a.number_of_elements]? = some (some g)
      ∧ (∀ i < a.number_of_elements, a1.array[i]? = a.array[i]?)
      ∧ mem1.board g = { mem.board g with index := a.number_of_elements }
      ∧ (∀ p, p ≠ g → mem1.board p = mem.board p)
      ∧ mem1.freed_boards = mem.freed_boards ∧ mem1.freed_matrices = mem.freed_matrices := by
  simp only [game_boards_array_add] at h
  split_ifs at h with h1 h2 h3 h4 h5 h6
  · simp only [Option.some.injEq, Prod.mk.injEq] at h
    exact absurd h.1 h1
  · simp at h
  · simp at h
  · simp at h
  · -- the growing branch
    split at h
    · rename_i junk_a junk_v _ _
      simp only [Option.some.injEq, Prod.mk.injEq] at h
      obtain ⟨_, hr, hm⟩ := h
      refine ⟨_, hr.symm, ?_⟩
      subst hm
      refine ⟨rfl, ?_, ?_, by simp, ?_, rfl, rfl⟩
      · have hlen : a.number_of_elements < (a.array.set a.number_of_elements (some g)).length := by
          simpa using h5
        have hk : a.number_of_elements < a.array_size + REALLOC_SIZE := by omega
        show ((realloc_list (a.array.set a.number_of_elements (some g))
          (a.array_size + REALLOC_SIZE) junk_a).set (a.number_of_elements + 1) _)[
            a.number_of_elements]? = _
        rw [List.getElem?_set_ne (by omega), realloc_list_getElem? _ _ _ _ hk hlen]
        simp [h5]
      · intro i hi
        have hlen : i < (a.array.set a.number_of_elements (some g)).length := by
          simp only [List.length_set]; omega
        have hk : i < a.array_size + REALLOC_SIZE := by omega
        show ((realloc_list (a.array.set a.number_of_elements (some g))
          (a.array_size + REALLOC_SIZE) junk_a).set (a.number_of_elements + 1) _)[i]? = _
        rw [List.getElem?_set_ne (by omega), realloc_list_getElem? _ _ _ _ hk hlen,
          List.getElem?_set_ne (by omega)]
      · intro p hp
        simp [Function.update, hp]
    · simp at h
  · simp only [Option.some.injEq, Prod.mk.injEq] at h
    obtain ⟨_, hr, hm⟩ := h
    refine ⟨_, hr.symm, ?_⟩
    subst hm
    refine ⟨rfl, by simp [h5], ?_, by simp, ?_, rfl, rfl⟩
    · intro i hi
      show (a.array.set a.number_of_elements (some g))[i]? = _
      rw [List.getElem?_set_ne (by omega)]
    · intro p hp
      simp [Function.update, hp]

theorem resize_visited_zero (b : game_boards_array) (m : board_memory) (env : remove_env)
    (x : Option game_boards_array) (m' : board_memory)
    (hs : resize_visited b m env = (0, x, m')) :
    ∃ b1, x = some b1 ∧ b1.array = b.array
      ∧ b1.number_of_elements = b.number_of_elements ∧ m' = m := by
  unfold resize_visited at hs
  split_ifs at hs <;> simp only [Prod.mk.injEq] at hs <;>
    first
      | exact absurd hs.1 (by decide)
      | exact ⟨_, hs.2.1.symm, rfl, rfl, hs.2.2.symm⟩

/-- The tail of `game_boards_array_remove` changes neither the pointer table nor the
count nor the boards when it returns 0. -/
theorem shrink_after_remove_zero (b : game_boards_array) (m : board_memory) (env : remove_env)
    (x : Option game_boards_array) (m' : board_memory)
    (hs : shrink_after_remove b m env = (0, x, m')) :
    ∃ b1, x = some b1 ∧ b1.array = b.array
      ∧ b1.number_of_elements = b.number_of_elements ∧ m' = m := by
  unfold shrink_after_remove at hs
  split_ifs at hs
  · simp only [Prod.mk.injEq] at hs
    exact absurd hs.1 (by decide)
  · have h := resize_visited_zero _ _ _ _ _ hs
    exact h
  · exact resize_visited_zero _ _ _ _ _ hs

/-- What a call of `game_boards_array_remove` that returns 0 has done: the board looked
at is the one at position `index` of the board passed, the count goes down by one, the
last pointer takes the vacated position and its board the index, the last position is
cleared, and nothing else is changed in the pointer table or in the boards. -/
theorem remove_returns_zero (a : game_boards_array) (g : Nat) (mem : board_memory)
    (env : remove_env) (r : Option game_boards_array) (mem1 : board_memory)
    (h : game_boards_array_remove (some a) (some g) mem env = some (0, r, mem1)) :
    (mem.board g).index < a.number_of_elements
    ∧ ∃ a1, r = some a1
      ∧ a1.number_of_elements = a.number_of_elements - 1
      ∧ ((mem.board g).index < a.number_of_elements - 1 →
          ∃ q, a.array[a.number_of_elements - 1]? = some (some q)
            ∧ a1.array[(mem.board g).index]? = some (some q)
            ∧ mem1.board q = { mem.board q with index := (mem.board g).index }
            ∧ ∀ p, p ≠ q → mem1.board p = mem.board p)
      ∧ (¬ (mem.board g).index < a.number_of_elements - 1 → mem1.board = mem.board)
      ∧ (∀ j < a.number_of_elements - 1, j ≠ (mem.board g).index →
          a1.array[j]? = a.array[j]?)
      ∧ a1.array[a.number_of_elements - 1]? = some none := by
  simp only [game_boards_array_remove] at h
  split_ifs at h with h1 h2 h3
  · simp only [Option.some.injEq, Prod.mk.injEq] at h
    exact absurd h.1 h1
  · simp at h
  · split at h
    · simp at h
    · simp at h
    · simp only [Option.some.injEq, Prod.mk.injEq] at h
      exact absurd h.1 h3
  · have hidx : (mem.board g).index < a.number_of_elements := by omega
    refine ⟨hidx, ?_⟩
    split at h
    · simp at h
    · simp at h
    · rename_i p hp
      · split at h
        · simp at h
        · rename_i slots1 mem2 hmove
          split_ifs at h with h4
          · simp only [Option.some.injEq] at h
            obtain ⟨b1, hx, harr, hcount, hmem⟩ := shrink_after_remove_zero _ _ _ _ _ h
            refine ⟨b1, hx, hcount, ?_, ?_, ?_, ?_⟩
            · intro hlt
              simp only [move_last, hlt, if_true] at hmove
              split at hmove
              · simp at hmove
              · simp at hmove
              · rename_i q hq
                simp only [Option.some.injEq, Prod.mk.injEq] at hmove
                obtain ⟨hs1, hm2⟩ := hmove
                have hgetq : (slots1.set (a.number_of_elements - 1) none)[(mem.board g).index]?
                    = some (some q) := by
                  rw [List.getElem?_set_ne (by omega), ← hs1]
                  have : (mem.board g).index < a.array.length := by
                    have := List.getElem?_eq_some_iff.1 hp
                    exact this.1
                  simp [this]
                refine ⟨q, hq, ?_, ?_, ?_⟩
                · rw [harr]
                  exact hgetq
                · rw [hmem]
                  simp only [hgetq]
                  rw [← hm2]
                  simp
                · intro p' hp'
                  rw [hmem]
                  simp only [hgetq]
                  rw [← hm2]
                  simp [Function.update, hp']
            · intro hlt
              simp only [move_last, hlt, if_false, Option.some.injEq, Prod.mk.injEq] at hmove
              obtain ⟨hs1, hm2⟩ := hmove
              rw [hmem]
              split <;> rw [← hm2]
            · intro j hj hji
              rw [harr]
              show (slots1.set (a.number_of_elements - 1) none)[j]? = _
              rw [List.getElem?_set_ne (by omega)]
              by_cases hlt : (mem.board g).index < a.number_of_elements - 1
              · simp only [move_last, hlt, if_true] at hmove
                split at hmove
                · simp at hmove
                · simp at hmove
                · simp only [Option.some.injEq, Prod.mk.injEq] at hmove
                  rw [← hmove.1, List.getElem?_set_ne (fun e => hji e.symm)]
              · simp only [move_last, hlt, if_false, Option.some.injEq, Prod.mk.injEq] at hmove
                rw [← hmove.1]
            · rw [harr]
              show (slots1.set (a.number_of_elements - 1) none)[a.number_of_elements - 1]? = _
              simp [h4]
theorem is_stored_iff (a : game_boards_array) (p : Nat) :
    is_stored a p = true ↔ ∃ i < a.number_of_elements, a.array[i]? = some (some p) := by
  unfold is_stored
  rw [List.contains_iff_exists_mem_beq]
  constructor
  · rintro ⟨x, hx, hb⟩
    have hxp : x = some p := by
      have := hb
      simp at this
      exact this.symm
    rw [List.mem_iff_getElem?] at hx
    obtain ⟨i, hi⟩ := hx
    rw [List.getElem?_take] at hi
    split_ifs at hi with hlt
    exact ⟨i, hlt, by rw [hi, hxp]⟩
  · rintro ⟨i, hlt, hi⟩
    refine ⟨some p, ?_, by simp⟩
    rw [List.mem_iff_getElem?]
    exact ⟨i, by rw [List.getElem?_take_of_lt hlt, hi]⟩

/-- Under the index invariant a stored board sits at the position its `index` names. -/
theorem stored_at_index (a : game_boards_array) (mem : board_memory) (g : Nat)
    (hinv : registry_indexed a mem) (hst : is_stored a g = true) :
    (mem.board g).index < a.number_of_elements
    ∧ a.array[(mem.board g).index]? = some (some g) := by
  obtain ⟨i, hi, hget⟩ := (is_stored_iff a g).1 hst
  obtain ⟨p, hp, hidx⟩ := hinv i hi
  rw [hget] at hp
  have hpg : g = p := by simpa using hp
  rw [hpg, hidx]
  exact ⟨hi, by rw [← hpg]; exact hget⟩

/-- C12 as stated fails on the code: the registry holds one board, at address 10 with
index 0; the board at address 11 was never inserted and has index 0, as `calloc` leaves
it. `game_boards_array_remove` called with the board at 11 returns 0, releases the
matrix of the stored board at 10 and empties the registry. -/
theorem C12_counterexample_remove_of_unknown_board :
    (run_registry_calls empty_registry fresh_memory [registry_call.add 10 add_ok]).map
        (fun s => s.1) = some one_game_registry
    ∧ is_stored one_game_registry 11 = false
    ∧ (fresh_memory.board 11).index = 0
    ∧ (game_boards_array_remove (some one_game_registry) (some 11) fresh_memory remove_ok).map
        (fun r => (r.1, r.2.1, r.2.2.freed_matrices))
      = some (0, some { array := [none, none, none, none, none], visited := none,
                        number_of_elements := 0, array_size := REALLOC_SIZE }, [10]) := by
  decide

/-- C12 amended: for every registry state and every board whose `index` field is not a
position below the count (the registry is empty, or `index >= number_of_elements`),
`game_boards_array_remove` returns the error 2 and leaves the registry (pointer table,
count, markers, size) and every board unchanged. -/
theorem C12_remove_index_out_of_range (a : game_boards_array) (g : Nat) (mem : board_memory)
    (env : remove_env) (hlock : env.lock_rc = 0)
    (hrange : a.number_of_elements = 0 ∨ a.number_of_elements ≤ (mem.board g).index) :
    game_boards_array_remove (some a) (some g) mem env = some (2, some a, mem) := by
  have h : a.number_of_elements = 0 ∨ a.number_of_elements - 1 < (mem.board g).index := by
    omega
  simp only [game_boards_array_remove, hlock, ne_eq, not_true_eq_false, if_false, h, if_true]

/-- C12 amended, applied: in the registry of one board, the board at address 15, whose
index field is 5, is refused. -/
theorem C12_remove_index_out_of_range_witness :
    (indexed_memory.board 15).index = 5
    ∧ (game_boards_array_remove (some one_game_registry) (some 15) indexed_memory remove_ok).map
        (fun r => (r.1, r.2.1)) = some (2, some one_game_registry) :=
  ⟨by decide,
   by rw [C12_remove_index_out_of_range one_game_registry 15 indexed_memory remove_ok
        (by decide) (by decide)]; rfl⟩

/-- C14 as stated fails on the code: `game_boards_array_add` does not test whether the
board is stored. The registry holds the board at address 10 at position 0, with `index`
0. An insert of the same board returns 0 and makes the count 2; position 0 still holds
the board, but its `index` field is now 1. -/
theorem C14_counterexample_stored_board_inserted_again :
    is_stored one_game_registry 10 = true
    ∧ one_game_registry.array[0]? = some (some 10)
    ∧ (indexed_memory.board 10).index = 0
    ∧ (game_boards_array_add (some one_game_registry) (some 10) indexed_memory add_ok).map
        (fun r => (r.1, r.2.1.map (fun a => (a.number_of_elements, a.array[0]?)),
          (r.2.2.board 10).index))
      = some (0, some (2, some (some 10)), 1) := by
  refine ⟨by decide, by decide, by decide, by decide⟩

/-- C14 amended: a `game_boards_array_add` that returns 0, called on a registry with
count `n` for a board `g` that is not stored, stores `g` at position `n`, sets the
`index` field of `g` to `n`, makes the count `n + 1`, and leaves every position below
`n` with the pointer it had, to a board that is unchanged. -/
theorem C14_insert_postcondition (a : game_boards_array) (g : Nat) (mem : board_memory)
    (env : add_env) (r : Option game_boards_array) (mem1 : board_memory)
    (hnew : is_stored a g = false)
    (h : game_boards_array_add (some a) (some g) mem env = some (0, r, mem1)) :
    ∃ a1, r = some a1
      ∧ a1.array[a.number_of_elements]? = some (some g)
      ∧ (mem1.board g).index = a.number_of_elements
      ∧ a1.number_of_elements = a.number_of_elements + 1
      ∧ ∀ i < a.number_of_elements, ∀ p, a.array[i]? = some (some p) →
          a1.array[i]? = some (some p) ∧ mem1.board p = mem.board p := by
  obtain ⟨a1, hr, hcount, hlast, hkeep, hg, hother, _, _⟩ := add_returns_zero a g mem env _ _ h
  refine ⟨a1, hr, hlast, by rw [hg], hcount, ?_⟩
  intro i hi p hp
  have hpg : p ≠ g := by
    intro e
    have : is_stored a g = true := (is_stored_iff a g).2 ⟨i, hi, by rw [hp, e]⟩
    rw [hnew] at this
    exact Bool.false_ne_true this
  exact ⟨by rw [hkeep i hi, hp], hother p hpg⟩

/-- C14 amended, applied: the board at address 13 is inserted into the registry of the boards at
10, 11, 12. -/
theorem C14_insert_postcondition_witness :
    ∃ a1 mem1, game_boards_array_add (some three_game_registry) (some 13) indexed_memory add_ok
        = some (0, some a1, mem1)
      ∧ a1.array[3]? = some (some 13) ∧ (mem1.board 13).index = 3
      ∧ a1.number_of_elements = 4
      ∧ a1.array[0]? = some (some 10) ∧ mem1.board 10 = indexed_memory.board 10 :=
  have hadd : game_boards_array_add (some three_game_registry) (some 13) indexed_memory add_ok
      = some (0,
          some { three_game_registry with
                 array := [some 10, some 11, some 12, some 13, none],
                 number_of_elements := 4 },
          { indexed_memory with
            board := Function.update indexed_memory.board 13
              { indexed_memory.board 13 with index := 3 } }) := rfl
  match C14_insert_postcondition three_game_registry 13 indexed_memory add_ok _ _ (by decide)
      hadd with
  | ⟨a1, hr, hlast, hidx, hcount, hkeep⟩ => by
    cases hr
    exact ⟨_, _, hadd, hlast, hidx, hcount, hkeep 0 (by decide) 10 (by decide)⟩

/-! ## Matchmaking (`join_random_game_request`) -/

/-- Where the scan stops at a `break`, the board is the one stored at position `roll`
and the slot reported is empty; slot 2 is taken only when slot 1 is occupied. -/
theorem join_scan_found (a : game_boards_array) (mem : board_memory) (size : Nat) :
    ∀ (draws : List Nat) (i rp : Nat) (v : Option (List Nat)) (roll which p : Nat)
      (v' : Option (List Nat)),
      join_scan a mem size draws i rp v = some (scan_outcome.found roll which p v') →
      roll < size ∧ a.array[roll]? = some (some p)
      ∧ ((which = 0 ∧ (mem.board p).player_1 = none)
        ∨ (which = 1 ∧ (mem.board p).player_1 ≠ none ∧ (mem.board p).player_2 = none)) := by
  intro draws
  induction draws with
  | nil =>
    intro i rp v roll which p v' h
    simp only [join_scan] at h
    split_ifs at h
    simp at h
  | cons d rest ih =>
    intro i rp v roll which p v' h
    simp only [join_scan] at h
    split_ifs at h with h1 h2 h3
    · simp at h
    · exact ih _ _ _ _ _ _ _ h
    · split at h
      · simp at h
      · rename_i vl
        split at h
        · simp at h
        · rename_i flag hflag
          split_ifs at h with h4
          · exact ih _ _ _ _ _ _ _ h
          · split at h
            · simp at h
            · simp at h
            · rename_i q hq
              split_ifs at h with h5 h6
              · simp only [Option.some.injEq, scan_outcome.found.injEq] at h
                obtain ⟨e1, e2, e3, _⟩ := h
                subst e1 e2 e3
                exact ⟨Nat.mod_lt _ (Nat.pos_of_ne_zero h2), hq, Or.inl ⟨rfl, h5⟩⟩
              · simp only [Option.some.injEq, scan_outcome.found.injEq] at h
                obtain ⟨e1, e2, e3, _⟩ := h
                subst e1 e2 e3
                exact ⟨Nat.mod_lt _ (Nat.pos_of_ne_zero h2), hq, Or.inr ⟨rfl, h5, h6⟩⟩
              · exact ih _ _ _ _ _ _ _ h

theorem all_of_card (size : Nat) (T : Finset Nat) (hcard : T.card = size)
    (hlt : ∀ k ∈ T, k < size) : ∀ k < size, k ∈ T := by
  have hsub : T ⊆ Finset.range size := fun k hk => Finset.mem_range.2 (hlt k hk)
  have heq : T = Finset.range size :=
    Finset.eq_of_subset_of_card_le hsub (by rw [Finset.card_range, hcard])
  intro k hk
  rw [heq]
  exact Finset.mem_range.2 hk

/-- Where the scan ends with `i == size`, every position below `size` holds a board
with both slots occupied. `T` is the set of positions the scan has marked so far. -/
theorem join_scan_exhausted (a : game_boards_array) (mem : board_memory) (size : Nat) :
    ∀ (draws : List Nat) (i rp : Nat) (v v' : Option (List Nat)) (T : Finset Nat),
      T.card = i → (∀ k ∈ T, k < size) →
      (∀ k ∈ T, ∃ vl f, v = some vl ∧ vl[k]? = some f ∧ f ≠ 0) →
      (∀ k ∈ T, ∃ p, a.array[k]? = some (some p) ∧ both_occupied (mem.board p)) →
      join_scan a mem size draws i rp v = some (scan_outcome.exhausted v') →
      ∀ k < size, ∃ p, a.array[k]? = some (some p) ∧ both_occupied (mem.board p) := by
  intro draws
  induction draws with
  | nil =>
    intro i rp v v' T hcard hlt hflag hfull h k hk
    simp only [join_scan] at h
    split_ifs at h with h1
    exact hfull k (all_of_card size T (by rw [hcard, h1]) hlt k hk)
  | cons d rest ih =>
    intro i rp v v' T hcard hlt hflag hfull h k hk
    simp only [join_scan] at h
    split_ifs at h with h1 h2 h3
    · exact hfull k (all_of_card size T (by rw [hcard, h1]) hlt k hk)
    · exact ih _ _ _ _ T hcard hlt hflag hfull h k hk
    · split at h
      · simp at h
      · rename_i vl
        split at h
        · simp at h
        · rename_i flag hflag0
          split_ifs at h with h4
          · exact ih _ _ _ _ T hcard hlt hflag hfull h k hk
          · split at h
            · simp at h
            · simp at h
            · rename_i q hq
              split_ifs at h with h5 h6
              · simp at h
              · simp at h
              have hzero : flag = 0 := by
                by_contra hne
                exact h4 hne
              have hnot : d % size ∉ T := by
                intro hin
                obtain ⟨vl', f, hv, hf, hf0⟩ := hflag _ hin
                simp only [Option.some.injEq] at hv
                rw [← hv, hflag0] at hf
                simp only [Option.some.injEq] at hf
                exact hf0 (by rw [← hf, hzero])
              have hrl : d % size < vl.length := by
                have := List.getElem?_eq_some_iff.1 hflag0
                exact this.1
              refine ih _ _ _ _ (insert (d % size) T) ?_ ?_ ?_ ?_ h k hk
              · rw [Finset.card_insert_of_not_mem hnot, hcard]
              · intro j hj
                rcases Finset.mem_insert.1 hj with e | hjT
                · rw [e]
                  exact Nat.mod_lt _ (Nat.pos_of_ne_zero h2)
                · exact hlt j hjT
              · intro j hj
                rcases Finset.mem_insert.1 hj with e | hjT
                · exact ⟨_, 1, rfl, by rw [e]; simp [hrl], by decide⟩
                · obtain ⟨vl', f, hv, hf, hf0⟩ := hflag _ hjT
                  simp only [Option.some.injEq] at hv
                  have hne : d % size ≠ j := fun e => hnot (by rw [e]; exact hjT)
                  exact ⟨_, f, rfl, by rw [List.getElem?_set_ne hne, hv]; exact hf, hf0⟩
              · intro j hj
                rcases Finset.mem_insert.1 hj with e | hjT
                · exact ⟨q, by rw [e]; exact hq, h5, h6⟩
                · exact hfull j hjT
theorem write_joiner_board_size (mem : board_memory) (p which : Nat) (user : Option Nat)
    (fd : Int) : ((write_joiner mem p which user fd).board p).board_size
      = (mem.board p).board_size := by
  simp only [write_joiner, Function.update_same, occupy_slot]
  split <;> rfl

/-- The ways `join_random_game_request` returns for a session that exists: refused,
lock failure, scan ended with `i == size`, or scan ended at a `break`. -/
theorem join_cases (buffer : List Nat) (s : session_record)
    (games : game_boards_array) (mem : board_memory) (draws : List Nat) (lock_rc unlock_rc : Int)
    (r : handler_result)
    (h : join_random_game_request buffer (some s) games mem draws lock_rc unlock_rc = some r) :
    (¬ may_join s ∧ r = answer INVALID_REQUEST buffer s games mem)
    ∨ (may_join s ∧ lock_rc ≠ 0 ∧ r = answer INTERNAL_SERVER_ERROR buffer s games mem)
    ∨ (may_join s ∧ lock_rc = 0 ∧ ∃ v' cleared,
        join_scan games mem games.number_of_elements draws 0 UINT_MAX games.visited
          = some (scan_outcome.exhausted v')
        ∧ ((unlock_rc ≠ 0 ∧ r.ret = INTERNAL_SERVER_ERROR)
          ∨ (unlock_rc = 0
            ∧ r = answer NO_GAMES_AVAILABLE buffer s { games with visited := cleared } mem)))
    ∨ (may_join s ∧ lock_rc = 0 ∧ ∃ roll which p v' cleared,
        join_scan games mem games.number_of_elements draws 0 UINT_MAX games.visited
          = some (scan_outcome.found roll which p v')
        ∧ ((unlock_rc ≠ 0 ∧ r.ret = INTERNAL_SERVER_ERROR)
          ∨ (unlock_rc = 0 ∧ r.ret = JOIN_RANDOM_GAME_REPLY
            ∧ r.memory = write_joiner mem p which s.logged_in_user s.fd
            ∧ r.games = { games with visited := cleared }
            ∧ r.session = some { s with
                current_game := some p,
                bytes_written := 3 + (decimal (mem.board p).board_size).length }))) := by
  by_cases h1 : s.session_present = 0 ∨ s.current_game ≠ none
  · left
    simp only [join_random_game_request, h1, if_true, Option.some.injEq] at h
    refine ⟨?_, h.symm⟩
    rintro ⟨a, b⟩
    rcases h1 with e | e
    · exact a e
    · exact e b
  have hmay : may_join s := by
    constructor
    · intro e; exact h1 (Or.inl e)
    · by_contra e; exact h1 (Or.inr e)
  right
  by_cases h2 : lock_rc ≠ 0
  · left
    simp only [join_random_game_request, h1, if_false] at h
    rw [if_pos h2] at h
    simp only [Option.some.injEq] at h
    exact ⟨hmay, h2, h.symm⟩
  have hlock : lock_rc = 0 := by
    by_contra e
    exact h2 e
  right
  simp only [join_random_game_request, h1, if_false] at h
  rw [if_neg h2] at h
  cases hscan : join_scan games mem games.number_of_elements draws 0 UINT_MAX games.visited with
  | none =>
    rw [hscan] at h
    simp at h
  | some o =>
    rw [hscan] at h
    cases o with
    | exhausted v' =>
      left
      simp only at h
      cases hclear : clear_markers v' games.number_of_elements with
      | none =>
        rw [hclear] at h
        simp at h
      | some cleared =>
        rw [hclear] at h
        refine ⟨hmay, hlock, v', cleared, rfl, ?_⟩
        by_cases h3 : unlock_rc ≠ 0
        · simp only [if_pos h3, Option.some.injEq] at h
          exact Or.inl ⟨h3, by rw [← h]; rfl⟩
        · simp only [if_neg h3, Option.some.injEq] at h
          exact Or.inr ⟨by by_contra e; exact h3 e, h.symm⟩
    | found roll which p v' =>
      right
      simp only at h
      cases hclear : clear_markers v' games.number_of_elements with
      | none =>
        rw [hclear] at h
        simp at h
      | some cleared =>
        rw [hclear] at h
        refine ⟨hmay, hlock, roll, which, p, v', cleared, rfl, ?_⟩
        by_cases h3 : unlock_rc ≠ 0
        · simp only [if_pos h3, Option.some.injEq] at h
          exact Or.inl ⟨h3, by rw [← h]; rfl⟩
        · have hlen : (decimal ((write_joiner mem p which s.logged_in_user s.fd).board
              p).board_size).length > 0 := List.length_pos.2 (decimal_ne_nil _)
          simp only [if_neg h3, if_pos hlen, Option.some.injEq] at h
          refine Or.inr ⟨by by_contra e; exact h3 e, by rw [← h], by rw [← h], by rw [← h], ?_⟩
          rw [← h]
          simp only [write_joiner_board_size]
/-- C17: for every registry state, every memory and every sequence of random draws, a
call of `join_random_game_request` from a session with a user that returns
`JOIN_RANDOM_GAME_REPLY` has matched one board `p` stored in the registry, which is now
the session's board; the joiner and the connection were written into slot 1 of `p`,
which was empty, or into slot 2, which was empty while slot 1 was occupied; nothing
else of `p` and no other board has changed; `p` does not have both slots empty
afterwards; the pointer table and the count of the registry are unchanged. -/
theorem C17_matchmaking_safety (buffer : List Nat) (s : session_record)
    (games : game_boards_array) (mem : board_memory) (draws : List Nat) (lock_rc unlock_rc : Int)
    (r : handler_result) (huser : s.logged_in_user ≠ none)
    (h : join_random_game_request buffer (some s) games mem draws lock_rc unlock_rc = some r)
    (hret : r.ret = JOIN_RANDOM_GAME_REPLY) :
    ∃ k p, k < games.number_of_elements ∧ games.array[k]? = some (some p)
      ∧ matched_board r = some p
      ∧ (((mem.board p).player_1 = none
          ∧ r.memory.board p
            = { mem.board p with player_1 := s.logged_in_user, player1_fd := s.fd })
        ∨ ((mem.board p).player_1 ≠ none ∧ (mem.board p).player_2 = none
          ∧ r.memory.board p
            = { mem.board p with player_2 := s.logged_in_user, player2_fd := s.fd }))
      ∧ (∀ q, q ≠ p → r.memory.board q = mem.board q)
      ∧ ¬ ((r.memory.board p).player_1 = none ∧ (r.memory.board p).player_2 = none)
      ∧ r.games.array = games.array
      ∧ r.games.number_of_elements = games.number_of_elements := by
  have e1 : INVALID_REQUEST ≠ JOIN_RANDOM_GAME_REPLY := by decide
  have e2 : INTERNAL_SERVER_ERROR ≠ JOIN_RANDOM_GAME_REPLY := by decide
  have e3 : NO_GAMES_AVAILABLE ≠ JOIN_RANDOM_GAME_REPLY := by decide
  rcases join_cases buffer s games mem draws lock_rc unlock_rc r h with
    ⟨_, hr⟩ | ⟨_, _, hr⟩ | ⟨_, _, v', cleared, _, hr⟩ | ⟨_, _, roll, which, p, v', cleared, hscan, hr⟩
  · rw [hr] at hret
    exact absurd hret e1
  · rw [hr] at hret
    exact absurd hret e2
  · rcases hr with ⟨_, hr⟩ | ⟨_, hr⟩
    · rw [hr] at hret
      exact absurd hret e2
    · rw [hr] at hret
      exact absurd hret e3
  · rcases hr with ⟨_, hr⟩ | ⟨_, _, hmem, hgames, hsess⟩
    · rw [hr] at hret
      exact absurd hret e2
    · obtain ⟨hroll, hget, hslot⟩ := join_scan_found games mem _ _ _ _ _ _ _ _ _ hscan
      refine ⟨roll, p, hroll, hget, by simp [matched_board, hsess], ?_, ?_, ?_,
        by rw [hgames], by rw [hgames]⟩
      · rcases hslot with ⟨hw, h1⟩ | ⟨hw, h1, h2⟩
        · left
          refine ⟨h1, ?_⟩
          rw [hmem, hw]
          simp [write_joiner, occupy_slot]
        · right
          refine ⟨h1, h2, ?_⟩
          rw [hmem, hw]
          simp [write_joiner, occupy_slot]
      · intro q hq
        rw [hmem]
        simp [write_joiner, Function.update, hq]
      · rw [hmem]
        rcases hslot with ⟨hw, h1⟩ | ⟨hw, h1, h2⟩
        · rw [hw]
          simp only [write_joiner, Function.update_same, occupy_slot, if_true]
          exact fun hh => huser hh.1
        · rw [hw]
          simp only [write_joiner, Function.update_same, occupy_slot]
          exact fun hh => h1 hh.1

/-- C17 applied: on the registry of the boards at 10, 11, 12, the draw 4 leads to
position 1; the board at 11 has slot 1 empty and receives the joiner there. -/
theorem C17_matchmaking_safety_witness :
    ∃ r, join_random_game_request (request_buffer [JOIN_RANDOM_GAME_REQUEST])
        (some (lobby_session 7 9)) three_game_registry waiting_memory [4] 0 0 = some r
      ∧ r.ret = JOIN_RANDOM_GAME_REPLY
      ∧ ∃ k p, k < three_game_registry.number_of_elements
        ∧ three_game_registry.array[k]? = some (some p) ∧ matched_board r = some p
        ∧ ¬ ((r.memory.board p).player_1 = none ∧ (r.memory.board p).player_2 = none) :=
  match hj : join_random_game_request (request_buffer [JOIN_RANDOM_GAME_REQUEST])
      (some (lobby_session 7 9)) three_game_registry waiting_memory [4] 0 0 with
  | some r =>
    have hret : r.ret = JOIN_RANDOM_GAME_REPLY := by
      have h : (join_random_game_request (request_buffer [JOIN_RANDOM_GAME_REQUEST])
          (some (lobby_session 7 9)) three_game_registry waiting_memory [4] 0 0).map
            (fun r => r.ret) = some JOIN_RANDOM_GAME_REPLY := by decide
      rw [hj] at h
      simpa using h
    match C17_matchmaking_safety _ (lobby_session 7 9) three_game_registry waiting_memory [4] 0 0
        r (by decide) hj hret with
    | ⟨k, p, hk, hget, hm, _, _, hnot, _, _⟩ => ⟨r, rfl, hret, k, p, hk, hget, hm, hnot⟩
  | none => by
    have h : (join_random_game_request (request_buffer [JOIN_RANDOM_GAME_REQUEST])
        (some (lobby_session 7 9)) three_game_registry waiting_memory [4] 0 0).isSome
          = true := by decide
    rw [hj] at h
    exact absurd h (by decide)

/-- C18: for every registry state, whatever its markers, every memory and every
sequence of random draws, a call of `join_random_game_request` that returns
`NO_GAMES_AVAILABLE` found both slots occupied on the board at every position below the
count (none when the registry is empty); the boards are unchanged, the session is
unchanged but for `bytes_written = 1`, and the registry keeps its pointer table, count
and size. -/
theorem C18_no_games_only_when_full (buffer : List Nat) (s : session_record)
    (games : game_boards_array) (mem : board_memory) (draws : List Nat) (lock_rc unlock_rc : Int)
    (r : handler_result)
    (h : join_random_game_request buffer (some s) games mem draws lock_rc unlock_rc = some r)
    (hret : r.ret = NO_GAMES_AVAILABLE) :
    (∀ k < games.number_of_elements,
        ∃ p, games.array[k]? = some (some p) ∧ both_occupied (mem.board p))
      ∧ r.memory = mem
      ∧ r.session = some { s with bytes_written := 1 }
      ∧ r.games.array = games.array
      ∧ r.games.number_of_elements = games.number_of_elements
      ∧ r.games.array_size = games.array_size := by
  have e1 : INVALID_REQUEST ≠ NO_GAMES_AVAILABLE := by decide
  have e2 : INTERNAL_SERVER_ERROR ≠ NO_GAMES_AVAILABLE := by decide
  have e3 : JOIN_RANDOM_GAME_REPLY ≠ NO_GAMES_AVAILABLE := by decide
  rcases join_cases buffer s games mem draws lock_rc unlock_rc r h with
    ⟨_, hr⟩ | ⟨_, _, hr⟩ | ⟨_, _, v', cleared, hscan, hr⟩ | ⟨_, _, roll, which, p, v', cleared, _, hr⟩
  · rw [hr] at hret
    exact absurd hret e1
  · rw [hr] at hret
    exact absurd hret e2
  · rcases hr with ⟨_, hr⟩ | ⟨_, hr⟩
    · rw [hr] at hret
      exact absurd hret e2
    · refine ⟨?_, by rw [hr]; rfl, by rw [hr]; rfl, by rw [hr]; rfl, by rw [hr]; rfl,
        by rw [hr]; rfl⟩
      exact join_scan_exhausted games mem _ draws 0 UINT_MAX games.visited v' ∅ rfl
        (fun k hk => absurd hk (Finset.not_mem_empty k))
        (fun k hk => absurd hk (Finset.not_mem_empty k))
        (fun k hk => absurd hk (Finset.not_mem_empty k)) hscan
  · rcases hr with ⟨_, hr⟩ | ⟨_, hr, _⟩
    · rw [hr] at hret
      exact absurd hret e2
    · rw [hr] at hret
      exact absurd hret e3

/-- C18 applied: on the registry of three boards that all have both slots occupied the
draws 0, 1, 2 visit every board and the call returns `NO_GAMES_AVAILABLE`; on the empty
registry it does so without a draw. -/
theorem C18_no_games_only_when_full_witness :
    (∃ r, join_random_game_request (request_buffer [JOIN_RANDOM_GAME_REQUEST])
        (some (lobby_session 7 9)) three_game_registry full_memory [0, 1, 2] 0 0 = some r
      ∧ r.ret = NO_GAMES_AVAILABLE
      ∧ ∀ k < three_game_registry.number_of_elements,
        ∃ p, three_game_registry.array[k]? = some (some p)
          ∧ both_occupied (full_memory.board p))
    ∧ (join_random_game_request (request_buffer [JOIN_RANDOM_GAME_REQUEST])
        (some (lobby_session 7 9)) empty_registry full_memory [] 0 0).map (fun r => r.ret)
      = some NO_GAMES_AVAILABLE :=
  have hj : join_random_game_request (request_buffer [JOIN_RANDOM_GAME_REQUEST])
      (some (lobby_session 7 9)) three_game_registry full_memory [0, 1, 2] 0 0
      = some (answer NO_GAMES_AVAILABLE (request_buffer [JOIN_RANDOM_GAME_REQUEST])
          (lobby_session 7 9) three_game_registry full_memory) := rfl
  ⟨⟨_, hj, rfl,
    (C18_no_games_only_when_full _ (lobby_session 7 9) three_game_registry full_memory
      [0, 1, 2] 0 0 _ hj rfl).1⟩, by decide⟩
/-- Claim C20. Each request that the state table does not allow is answered
INVALID_REQUEST, and the handler leaves the session's authentication flag, its user, its
current board, the registry and every board as they were; only the first byte of the
reply buffer and the reply length (1) are written. The requests are: login on an
authenticated session; create-board and join-random on a session that is not
authenticated or already has a board; leave-board and move on a session without a board;
logout on a session that is not authenticated. -/
theorem C20_state_table_rejection (buffer : List Nat) (s : session_record)
    (games : game_boards_array) (mem : board_memory) :
    (∀ env : login_env, s.session_present ≠ 0 →
      login_request buffer (some s) games mem env
        = some { ret := INVALID_REQUEST, buffer := buffer.set 0 INVALID_REQUEST,
                 session := some { s with bytes_written := 1 }, games := games,
                 memory := mem })
    ∧ (∀ env : create_env, s.session_present = 0 ∨ s.current_game ≠ none →
      create_new_game_request buffer (some s) games mem env
        = some { ret := INVALID_REQUEST, buffer := buffer.set 0 INVALID_REQUEST,
                 session := some { s with bytes_written := 1 }, games := games,
                 memory := mem })
    ∧ (∀ (draws : List Nat) (lock_rc unlock_rc : Int),
      s.session_present = 0 ∨ s.current_game ≠ none →
      join_random_game_request buffer (some s) games mem draws lock_rc unlock_rc
        = some { ret := INVALID_REQUEST, buffer := buffer.set 0 INVALID_REQUEST,
                 session := some { s with bytes_written := 1 }, games := games,
                 memory := mem })
    ∧ (∀ env : leave_env, s.current_game = none →
      leave_game_request buffer (some s) games mem env
        = some { ret := INVALID_REQUEST, buffer := buffer.set 0 INVALID_REQUEST,
                 session := some { s with bytes_written := 1 }, games := games,
                 memory := mem })
    ∧ (∀ (t : session_details) (errno : Nat) (lock_rc unlock_rc : Int),
      t.current_game = none →
      action_request buffer (some t) errno lock_rc unlock_rc
        = some { ret := INVALID_REQUEST, buffer := buffer.set 0 INVALID_REQUEST,
                 session := some { t with bytes_written := 1 }, errno := errno,
                 lock_held := false })
    ∧ (s.session_present = 0 →
      logout_request buffer (some s) games mem
        = { ret := INVALID_REQUEST, buffer := buffer.set 0 INVALID_REQUEST,
            session := some { s with bytes_written := 1 }, games := games,
            memory := mem }) := by
  refine ⟨?_, ?_, ?_, ?_, ?_, ?_⟩
  · intro env h
    simp only [login_request, answer]
    rw [if_pos h]
  · intro env h
    simp only [create_new_game_request, answer]
    rw [if_pos h]
  · intro draws lock_rc unlock_rc h
    simp only [join_random_game_request, answer]
    rw [if_pos h]
  · intro env h
    simp only [leave_game_request, answer, h]
    split_ifs <;> rfl
  · intro t errno lock_rc unlock_rc h
    simp only [action_request, reply, h]
  · intro h
    simp only [logout_request, answer]
    rw [if_pos h]

/-- Witness of C20: the rejections on an authenticated session without a board (user 7),
on an anonymous session, and on a session that is on the board at address 10. -/
theorem C20_state_table_rejection_witness :
    (login_request (request_buffer [LOGIN_REQUEST]) (some (lobby_session 7 4))
        one_game_registry indexed_memory no_users).map (fun r => r.ret)
      = some INVALID_REQUEST
    ∧ (leave_game_request (request_buffer [LEAVE_GAME_REQUEST]) (some (lobby_session 7 4))
        one_game_registry indexed_memory leave_ok).map (fun r => r.ret)
      = some INVALID_REQUEST
    ∧ (action_request (request_buffer [ACTION_REQUEST])
        (some { logged_in_user := some 7, bytes_written := 0, fd := 4, session_present := 1,
                current_game := none }) 0 0 0).map (fun r => r.ret)
      = some INVALID_REQUEST
    ∧ (create_new_game_request (request_buffer [CREATE_NEW_GAME_REQUEST])
        (some (anonymous_session 4)) one_game_registry indexed_memory
        (create_at 20)).map (fun r => r.ret)
      = some INVALID_REQUEST
    ∧ (logout_request (request_buffer [LOGOUT_REQUEST]) (some (anonymous_session 4))
        one_game_registry indexed_memory).ret = INVALID_REQUEST
    ∧ (join_random_game_request (request_buffer [JOIN_RANDOM_GAME_REQUEST])
        (some (playing_session 7 4 10)) one_game_registry indexed_memory [0] 0 0).map
        (fun r => r.ret)
      = some INVALID_REQUEST :=
  ⟨by rw [(C20_state_table_rejection _ (lobby_session 7 4) _ _).1 no_users (by decide)]
      rfl,
   by rw [(C20_state_table_rejection _ (lobby_session 7 4) _ _).2.2.2.1 leave_ok rfl]
      rfl,
   by rw [(C20_state_table_rejection _ (lobby_session 7 4) one_game_registry
        indexed_memory).2.2.2.2.1 _ 0 0 0 rfl]
      rfl,
   by rw [(C20_state_table_rejection _ (anonymous_session 4) _ _).2.1 (create_at 20)
        (Or.inl rfl)]
      rfl,
   by rw [(C20_state_table_rejection _ (anonymous_session 4) _ _).2.2.2.2.2 rfl],
   by rw [(C20_state_table_rejection _ (playing_session 7 4 10) _ _).2.2.1 [0] 0 0
        (Or.inr (by decide))]
      rfl⟩

/-! ## Opcode bands -/

/-- Claim C24. The request opcodes are 0..7 and the reply opcodes are the consecutive
values 233..255 in the order of the enumeration (`PEER_LEFT_NOTIFY` = 233, ...,
`LOGIN_FAILED` = 255). For every byte `c`: `c >= FATAL_ERRORS` holds exactly when `c`
is `INTERNAL_SERVER_ERROR`, `INVALID_REQUEST`, `IO_ERROR` or `LOGIN_FAILED`, and
`ANY_ERROR <= c < FATAL_ERRORS` holds exactly when `c` is `NO_PLAYER_PRESENT`,
`INVALID_OPERANDS`, `NO_GAMES_AVAILABLE`, `NOT_IMPLEMENTED` or `USER_ALREADY_EXISTS`. -/
theorem C24_opcode_bands :
    request_opcodes = List.range 8
    ∧ reply_opcodes = (List.range 23).map (fun i => 233 + i)
    ∧ (∀ c : Fin 256, FATAL_ERRORS ≤ c.val ↔
        (c.val = INTERNAL_SERVER_ERROR ∨ c.val = INVALID_REQUEST ∨ c.val = IO_ERROR
          ∨ c.val = LOGIN_FAILED))
    ∧ (∀ c : Fin 256, (ANY_ERROR ≤ c.val ∧ c.val < FATAL_ERRORS) ↔
        (c.val = NO_PLAYER_PRESENT ∨ c.val = INVALID_OPERANDS ∨ c.val = NO_GAMES_AVAILABLE
          ∨ c.val = NOT_IMPLEMENTED ∨ c.val = USER_ALREADY_EXISTS)) := by
  refine ⟨by decide, by decide, ?_, ?_⟩
  · rintro ⟨c, hc⟩
    simp only [FATAL_ERRORS, INTERNAL_SERVER_ERROR, INVALID_REQUEST, IO_ERROR, LOGIN_FAILED]
    omega
  · rintro ⟨c, hc⟩
    simp only [ANY_ERROR, FATAL_ERRORS, INTERNAL_SERVER_ERROR, NO_PLAYER_PRESENT,
      INVALID_OPERANDS, NO_GAMES_AVAILABLE, NOT_IMPLEMENTED, USER_ALREADY_EXISTS]
    omega

/-! ## Logout and account creation -/

/-- Claim C21, evaluated on the code: the session of user 100 is authenticated and
occupies slot 1 of the stored board at address 10. Its logout request is answered
`LOGOUT_REPLY`, not `INVALID_REQUEST`; the session is not authenticated any more, while
the board still lists user 100 and stays in the registry. -/
theorem C21_logout_accepted_in_game :
    is_stored one_game_registry 10 = true
    ∧ (waiting_memory.board 10).player_1 = some 100
    ∧ (logout_request (request_buffer [LOGOUT_REQUEST]) (some (playing_session 100 4 10))
        one_game_registry waiting_memory).ret = LOGOUT_REPLY
    ∧ (logout_request (request_buffer [LOGOUT_REQUEST]) (some (playing_session 100 4 10))
        one_game_registry waiting_memory).session
      = some { playing_session 100 4 10 with session_present := 0, bytes_written := 1 }
    ∧ LOGOUT_REPLY ≠ INVALID_REQUEST := by
  decide

/-- Claim C22, on the code: `create_user_request` returns `INVALID_REQUEST` for every
session, also for an existing session that is not authenticated, and leaves the session,
the registry and the boards as they were. -/
theorem C22_create_user_always_rejected (buffer : List Nat) (session : Option session_record)
    (games : game_boards_array) (mem : board_memory) :
    (create_user_request buffer session games mem).ret = INVALID_REQUEST
    ∧ (create_user_request buffer (some (anonymous_session 4)) games mem).session
      = some (anonymous_session 4)
    ∧ (create_user_request account_request (some (anonymous_session 4)) games mem).buffer
      = account_request.set 0 INVALID_REQUEST := by
  refine ⟨?_, rfl, rfl⟩
  cases session with
  | none => rfl
  | some s =>
    simp only [create_user_request, answer]
    split_ifs <;> rfl

/-! ## The reply to a move that ends the game -/

set_option maxRecDepth 100000 in
/-- Claim C29, evaluated on the code. On `anti_diagonal_board` the legal move (0,2) of
`'x'` completes the anti-diagonal, yet `action_request` returns `ACTION_REPLY` with a
reply of one byte and the board goes on with `'o'` to move. On `false_win_board` the
legal move (1,1) of `'x'` completes no line and leaves four cells empty, yet
`action_request` returns `GAME_IS_FINISHED` with the two bytes `GAME_IS_FINISHED`,
`'X'`. -/
theorem C29_game_end_reply_diverges :
    legal_move anti_diagonal_board 0 2 ch_x
    ∧ anti_full (place anti_diagonal_board.matrix 3 0 2 ch_x) 3 ch_x
    ∧ action_request (move_request 0 2) (some (session_on 1 4 anti_diagonal_board)) 0 0 0
      = some { ret := ACTION_REPLY,
               buffer := (move_request 0 2).set 0 ACTION_REPLY,
               session := some { session_on 1 4 anti_diagonal_board with
                 bytes_written := 1,
                 current_game := some { anti_diagonal_board with
                   matrix := place anti_diagonal_board.matrix 3 0 2 ch_x,
                   whose_turn := ch_o, player1_last_x := 0, player1_last_y := 2 } },
               errno := 0, lock_held := false }
    ∧ legal_move false_win_board 1 1 ch_x
    ∧ ¬ has_line (place false_win_board.matrix 3 1 1 ch_x) 3 ch_x
    ∧ (place false_win_board.matrix 3 1 1 ch_x).count ch_space = 4
    ∧ action_request (move_request 1 1) (some (session_on 1 4 false_win_board)) 0 0 0
      = some { ret := GAME_IS_FINISHED,
               buffer := ((move_request 1 1).set 0 GAME_IS_FINISHED).set 1 ch_X,
               session := some { session_on 1 4 false_win_board with
                 bytes_written := 2,
                 current_game := some { false_win_board with
                   matrix := place false_win_board.matrix 3 1 1 ch_x,
                   whose_turn := ch_X, player1_last_x := 1, player1_last_y := 1 } },
               errno := 0, lock_held := false } := by
  decide

/-! ## create_new_game_request -/

theorem add_succeeds (a : game_boards_array) (g : Nat) (mem : board_memory) (env : add_env)
    (h : add_possible a env) :
    ∃ a1 mem1, game_boards_array_add (some a) (some g) mem env = some (0, some a1, mem1) := by
  obtain ⟨h1, h2, h3, h4, h5, h6, h7⟩ := h
  simp only [game_boards_array_add]
  rw [if_neg (by simpa using h1), if_neg h3, if_neg h4]
  have hv : ¬ (a.visited = none ∧ env.calloc_ok = false) := by
    rintro ⟨e1, e2⟩
    rw [h6 e1] at e2
    exact Bool.noConfusion e2
  rw [if_neg hv, if_pos h5]
  by_cases h8 : a.number_of_elements + 1 = a.array_size
  · obtain ⟨r1, r2⟩ := h7 h8
    rw [if_pos h8]
    cases hra : env.realloc_array with
    | none => exact absurd hra r1
    | some ja =>
      cases hrv : env.realloc_visited with
      | none => exact absurd hrv r2
      | some jv => exact ⟨_, _, by rw [h2]⟩
  · rw [if_neg h8]
    exact ⟨_, _, by rw [h2]⟩

theorem first_turn_fields (mark : Nat) (b : game_board) :
    (first_turn mark b).board_size = b.board_size ∧ (first_turn mark b).matrix = b.matrix
    ∧ (first_turn mark b).player_1 = b.player_1 ∧ (first_turn mark b).player_2 = b.player_2
    ∧ (first_turn mark b).host = b.host := by
  unfold first_turn
  split_ifs <;> exact ⟨rfl, rfl, rfl, rfl, rfl⟩

theorem seat_creator_fields (b : game_board) (slot : Nat) (user : Option Nat) (fd : Int) :
    (seat_creator b slot user fd).board_size = b.board_size
    ∧ (seat_creator b slot user fd).matrix = b.matrix
    ∧ (seat_creator b slot user fd).host = user
    ∧ (seat_creator b slot user fd).whose_turn = b.whose_turn := by
  unfold seat_creator
  split_ifs <;> exact ⟨rfl, rfl, rfl, rfl⟩

theorem created_board_size (s : session_record) (env : create_env) :
    (created_board s env).board_size = BOARD_SIZE := by
  unfold created_board
  rw [(first_turn_fields _ _).1, (seat_creator_fields _ _ _ _).1]

theorem decimal_board_size : decimal BOARD_SIZE = [ch_3] := by decide

/-- What a successful `create_new_game_request` has done: the session was authenticated
and without a board, `calloc` returned an address `g`, the reply is `created_reply`, and
the registry and memory are those `game_boards_array_add` returned with 0 for the board
`created_board` at `g`. -/
theorem create_success_inv (buffer : List Nat) (s : session_record)
    (games : game_boards_array) (mem : board_memory) (env : create_env) (r : handler_result)
    (h : create_new_game_request buffer (some s) games mem env = some r)
    (hret : r.ret = CREATE_NEW_GAME_SUCCESS) :
    s.session_present ≠ 0 ∧ s.current_game = none ∧ BUFFER_LENGTH ≤ buffer.length
    ∧ ∃ g, env.calloc_game = some g
      ∧ r.session = some { s with current_game := some g, bytes_written := 4 }
      ∧ r.buffer = created_reply buffer s env
      ∧ game_boards_array_add (some games) (some g)
          { mem with board := Function.update mem.board g (created_board s env) } env.add
        = some (0, some r.games, r.memory) := by
  have e1 : INVALID_REQUEST ≠ CREATE_NEW_GAME_SUCCESS := by decide
  have e2 : INTERNAL_SERVER_ERROR ≠ CREATE_NEW_GAME_SUCCESS := by decide
  simp only [create_new_game_request] at h
  by_cases h1 : s.session_present = 0 ∨ s.current_game ≠ none
  · rw [if_pos h1] at h
    simp only [Option.some.injEq] at h
    rw [← h] at hret
    exact absurd hret e1
  · rw [if_neg h1] at h
    have hs : s.session_present ≠ 0 ∧ s.current_game = none := by
      constructor
      · exact fun e => h1 (Or.inl e)
      · by_contra e
        exact h1 (Or.inr e)
    cases hc : env.calloc_game with
    | none =>
      rw [hc] at h
      simp only [Option.some.injEq] at h
      rw [← h] at hret
      exact absurd hret e2
    | some g =>
      rw [hc] at h
      simp only at h
      cases hm : env.malloc_matrix with
      | none =>
        rw [hm] at h
        simp only [Option.some.injEq] at h
        rw [← h] at hret
        exact absurd hret e2
      | some junk =>
        rw [hm] at h
        simp only at h
        by_cases h2 : env.mutex_init_rc ≠ 0
        · rw [if_pos h2] at h
          simp only [Option.some.injEq] at h
          rw [← h] at hret
          exact absurd hret e2
        · rw [if_neg h2] at h
          by_cases h3 : buffer.length < BUFFER_LENGTH
          · rw [if_pos h3] at h
            exact Option.noConfusion h
          · rw [if_neg h3] at h
            refine ⟨hs.1, hs.2, by omega, g, rfl, ?_⟩
            have hsize : (first_turn
                (creator_mark (seat_creator
                  { zero_board with board_size := BOARD_SIZE,
                                    matrix := List.replicate (BOARD_SIZE * BOARD_SIZE) ch_space,
                                    player1_fd := -1, player2_fd := -1 }
                  env.random_slot s.logged_in_user s.fd) (creator_case env))
                (seat_creator
                  { zero_board with board_size := BOARD_SIZE,
                                    matrix := List.replicate (BOARD_SIZE * BOARD_SIZE) ch_space,
                                    player1_fd := -1, player2_fd := -1 }
                  env.random_slot s.logged_in_user s.fd)).board_size = BOARD_SIZE :=
              created_board_size s env
            have hd : (decimal BOARD_SIZE).length > 0 := by decide
            have hd1 : 3 + (decimal BOARD_SIZE).length = 4 := by decide
            simp only [creator_case] at hsize
            simp only [hsize] at h
            rw [if_pos hd] at h
            cases hadd : game_boards_array_add (some games) (some g)
                { mem with board := Function.update mem.board g (created_board s env) }
                env.add with
            | none =>
              simp only [created_board, creator_case] at hadd
              rw [hadd] at h
              exact Option.noConfusion h
            | some t =>
              obtain ⟨rc, a1, mem2⟩ := t
              simp only [created_board, creator_case] at hadd
              rw [hadd] at h
              cases a1 with
              | none => exact Option.noConfusion h
              | some games1 =>
                simp only at h
                by_cases h4 : rc = 0
                · rw [if_pos h4] at h
                  simp only [Option.some.injEq] at h
                  rw [← h, h4, hd1]
                  exact ⟨rfl, rfl, rfl⟩
                · rw [if_neg h4] at h
                  simp only [Option.some.injEq] at h
                  rw [← h] at hret
                  exact absurd hret e2
theorem create_succeeds (buffer : List Nat) (s : session_record)
    (games : game_boards_array) (mem : board_memory) (env : create_env) (g : Nat)
    (junk : Nat → Nat)
    (hauth : s.session_present ≠ 0) (hfree : s.current_game = none)
    (hbuf : BUFFER_LENGTH ≤ buffer.length)
    (hcalloc : env.calloc_game = some g) (hmalloc : env.malloc_matrix = some junk)
    (hmutex : env.mutex_init_rc = 0) (hadd : add_possible games env.add) :
    ∃ r, create_new_game_request buffer (some s) games mem env = some r
      ∧ r.ret = CREATE_NEW_GAME_SUCCESS := by
  obtain ⟨a1, mem1, ha⟩ := add_succeeds games g
    { mem with board := Function.update mem.board g (created_board s env) } env.add hadd
  have h1 : ¬ (s.session_present = 0 ∨ s.current_game ≠ none) := by
    rintro (e | e)
    · exact hauth e
    · exact e hfree
  have h2 : ¬ env.mutex_init_rc ≠ 0 := fun e => e hmutex
  have h3 : ¬ buffer.length < BUFFER_LENGTH := by omega
  have hsize := created_board_size s env
  have hd : (decimal BOARD_SIZE).length > 0 := by decide
  simp only [created_board, creator_case] at ha hsize
  simp only [create_new_game_request, hcalloc, hmalloc]
  rw [if_neg h1, if_neg h2, if_neg h3]
  simp only [hsize]
  rw [if_pos hd, ha]
  exact ⟨_, rfl, rfl⟩

/-- The fields of the board a create-board request builds: nine empty cells, size 3, the
creator as host, and either the creator in slot 1 with slot 2 empty, or slot 1 empty and
the creator in slot 2; the mark byte is `'x'` exactly when slot 1 is occupied, else
`'o'` or `'O'`, and the side to move is `'x'` for the mark `'o'` and `'o'` otherwise. -/
theorem created_board_spec (s : session_record) (env : create_env) :
    (created_board s env).matrix = List.replicate 9 ch_space
    ∧ (created_board s env).board_size = 3
    ∧ (created_board s env).host = s.logged_in_user
    ∧ (((created_board s env).player_1 = s.logged_in_user
          ∧ (created_board s env).player_2 = none)
        ∨ ((created_board s env).player_1 = none
          ∧ (created_board s env).player_2 = s.logged_in_user))
    ∧ (((created_board s env).player_1 ≠ none ∧ created_mark s env = ch_x
          ∧ (created_board s env).whose_turn = ch_o)
        ∨ ((created_board s env).player_1 = none ∧ created_mark s env = ch_o
          ∧ (created_board s env).whose_turn = ch_x)
        ∨ ((created_board s env).player_1 = none ∧ created_mark s env = ch_O
          ∧ (created_board s env).whose_turn = ch_o)) := by
  unfold created_board created_mark creator_case
  by_cases hslot : env.random_slot % 2 ≠ 0 <;> by_cases hcase : env.random_case % 2 ≠ 0 <;>
    cases hu : s.logged_in_user <;>
    simp [seat_creator, creator_mark, first_turn, hslot, hcase, zero_board, BOARD_SIZE,
      ch_x, ch_o, ch_O, ch_X]

theorem created_reply_take (buffer : List Nat) (s : session_record) (env : create_env)
    (hbuf : BUFFER_LENGTH ≤ buffer.length) :
    (created_reply buffer s env).take 4
      = [CREATE_NEW_GAME_SUCCESS, created_mark s env, ch_3, 0] := by
  match buffer, hbuf with
  | b0 :: b1 :: rest, _ =>
    rfl
  | [], h => simp [BUFFER_LENGTH] at h
  | [_], h => simp [BUFFER_LENGTH] at h

/-! ## The reply to a create-board request -/

/-- Claim C27. For every authenticated session without a board whose user is not null,
with a buffer of `BUFFER_LENGTH` bytes or more, the allocations and the mutex
initialisation succeeding and the registry insert possible, `create_new_game_request`
returns `CREATE_NEW_GAME_SUCCESS`; the reply is 4 bytes long and consists of
`CREATE_NEW_GAME_SUCCESS`, the mark, `'3'` and a zero byte; the session is on the new
board, which is stored in the registry, has nine empty cells, the creator as host and as
the occupant of exactly one slot; the mark is `'x'` when that is slot 1, `'o'` or `'O'`
when it is slot 2, and `whose_turn` is `'x'` or `'o'`. -/
theorem C27_create_board_reply (buffer : List Nat) (s : session_record)
    (games : game_boards_array) (mem : board_memory) (env : create_env) (g : Nat)
    (junk : Nat → Nat)
    (hauth : s.session_present ≠ 0) (hfree : s.current_game = none)
    (huser : s.logged_in_user ≠ none) (hbuf : BUFFER_LENGTH ≤ buffer.length)
    (hcalloc : env.calloc_game = some g) (hmalloc : env.malloc_matrix = some junk)
    (hmutex : env.mutex_init_rc = 0) (hadd : add_possible games env.add) :
    ∃ r mark, create_new_game_request buffer (some s) games mem env = some r
      ∧ r.ret = CREATE_NEW_GAME_SUCCESS
      ∧ r.buffer.take 4 = [CREATE_NEW_GAME_SUCCESS, mark, ch_3, 0]
      ∧ r.session = some { s with current_game := some g, bytes_written := 4 }
      ∧ is_stored r.games g = true
      ∧ (r.memory.board g).matrix = List.replicate 9 ch_space
      ∧ (r.memory.board g).host = s.logged_in_user
      ∧ (((r.memory.board g).player_1 = s.logged_in_user
            ∧ (r.memory.board g).player_2 = none ∧ mark = ch_x)
          ∨ ((r.memory.board g).player_1 = none
            ∧ (r.memory.board g).player_2 = s.logged_in_user
            ∧ (mark = ch_o ∨ mark = ch_O)))
      ∧ ((r.memory.board g).whose_turn = ch_x ∨ (r.memory.board g).whose_turn = ch_o) := by
  obtain ⟨r, hr, hret⟩ := create_succeeds buffer s games mem env g junk hauth hfree hbuf
    hcalloc hmalloc hmutex hadd
  obtain ⟨_, _, _, g', hg', hsess, hreply, haddr⟩ :=
    create_success_inv buffer s games mem env r hr hret
  have hgg : g' = g := by
    rw [hcalloc] at hg'
    exact (Option.some.inj hg').symm
  rw [hgg] at hsess haddr
  obtain ⟨a1, ha1, hcount, hlast, _, hboard, _, _, _⟩ := add_returns_zero _ _ _ _ _ _ haddr
  have hgames : a1 = r.games := (Option.some.inj ha1).symm
  rw [hgames] at hcount hlast
  have hb : r.memory.board g
      = { created_board s env with index := games.number_of_elements } := by
    rw [hboard]
    simp only [Function.update_same]
  obtain ⟨hm, _, hhost, hslots, hmark⟩ := created_board_spec s env
  refine ⟨r, created_mark s env, hr, hret, ?_, hsess, ?_, ?_, ?_, ?_, ?_⟩
  · rw [hreply]
    exact created_reply_take buffer s env hbuf
  · exact (is_stored_iff _ _).2 ⟨games.number_of_elements, by omega, hlast⟩
  · rw [hb]
    exact hm
  · rw [hb]
    exact hhost
  · rw [hb]
    rcases hslots with ⟨p1, p2⟩ | ⟨p1, p2⟩
    · left
      refine ⟨p1, p2, ?_⟩
      rcases hmark with ⟨_, m, _⟩ | ⟨q, _, _⟩ | ⟨q, _, _⟩
      · exact m
      · rw [p1] at q
        exact absurd q huser
      · rw [p1] at q
        exact absurd q huser
    · right
      refine ⟨p1, p2, ?_⟩
      rcases hmark with ⟨q, _, _⟩ | ⟨_, m, _⟩ | ⟨_, m, _⟩
      · exact absurd p1 q
      · exact Or.inl m
      · exact Or.inr m
  · rw [hb]
    rcases hmark with ⟨_, _, t⟩ | ⟨_, _, t⟩ | ⟨_, _, t⟩
    · exact Or.inr t
    · exact Or.inl t
    · exact Or.inr t

set_option maxRecDepth 100000 in
/-- C27 applied: user 7 creates a board at address 20 in the empty registry; both
`random()` values are even, so the creator is in slot 2 with the mark `'o'` and `'x'`
moves first. -/
theorem C27_create_board_reply_witness :
    ∃ r mark, create_new_game_request (request_buffer [CREATE_NEW_GAME_REQUEST])
        (some (lobby_session 7 4)) empty_registry fresh_memory (create_at 20) = some r
      ∧ r.ret = CREATE_NEW_GAME_SUCCESS
      ∧ r.buffer.take 4 = [CREATE_NEW_GAME_SUCCESS, mark, ch_3, 0]
      ∧ r.session = some { lobby_session 7 4 with current_game := some 20, bytes_written := 4 }
      ∧ is_stored r.games 20 = true
      ∧ (r.memory.board 20).matrix = List.replicate 9 ch_space
      ∧ (r.memory.board 20).host = some 7
      ∧ (((r.memory.board 20).player_1 = some 7
            ∧ (r.memory.board 20).player_2 = none ∧ mark = ch_x)
          ∨ ((r.memory.board 20).player_1 = none
            ∧ (r.memory.board 20).player_2 = some 7
            ∧ (mark = ch_o ∨ mark = ch_O)))
      ∧ ((r.memory.board 20).whose_turn = ch_x ∨ (r.memory.board 20).whose_turn = ch_o) :=
  C27_create_board_reply (request_buffer [CREATE_NEW_GAME_REQUEST]) (lobby_session 7 4)
    empty_registry fresh_memory (create_at 20) 20 (fun _ => 0)
    (by decide) rfl (by decide) (by decide) rfl rfl rfl
    ⟨rfl, rfl, by decide, by decide, by decide, fun _ => rfl, fun h => absurd h (by decide)⟩

/-! ## The joiner's mark -/

/-- What a successful `join_random_game_request` has written: the scan found a board
`p` and a slot `which`, the reply holds the opcode, the mark for that slot and the
decimal board size, and the session is on `p`. -/
theorem join_reply_inv (buffer : List Nat) (s : session_record)
    (games : game_boards_array) (mem : board_memory) (draws : List Nat) (lock_rc unlock_rc : Int)
    (r : handler_result)
    (h : join_random_game_request buffer (some s) games mem draws lock_rc unlock_rc = some r)
    (hret : r.ret = JOIN_RANDOM_GAME_REPLY) :
    ∃ roll which p v',
      join_scan games mem games.number_of_elements draws 0 UINT_MAX games.visited
        = some (scan_outcome.found roll which p v')
      ∧ r.buffer = write_bytes ((buffer.set 0 JOIN_RANDOM_GAME_REPLY).set 1
          (join_mark which (mem.board p).whose_turn)) 2
          (decimal (mem.board p).board_size ++ [0])
      ∧ r.session = some { s with
          current_game := some p,
          bytes_written := 3 + (decimal (mem.board p).board_size).length } := by
  have e1 : INVALID_REQUEST ≠ JOIN_RANDOM_GAME_REPLY := by decide
  have e2 : INTERNAL_SERVER_ERROR ≠ JOIN_RANDOM_GAME_REPLY := by decide
  have e3 : NO_GAMES_AVAILABLE ≠ JOIN_RANDOM_GAME_REPLY := by decide
  simp only [join_random_game_request] at h
  by_cases h1 : s.session_present = 0 ∨ s.current_game ≠ none
  · rw [if_pos h1] at h
    simp only [Option.some.injEq] at h
    rw [← h] at hret
    exact absurd hret e1
  rw [if_neg h1] at h
  by_cases h2 : lock_rc ≠ 0
  · rw [if_pos h2] at h
    simp only [Option.some.injEq] at h
    rw [← h] at hret
    exact absurd hret e2
  rw [if_neg h2] at h
  cases hscan : join_scan games mem games.number_of_elements draws 0 UINT_MAX games.visited with
  | none =>
    rw [hscan] at h
    exact Option.noConfusion h
  | some o =>
    rw [hscan] at h
    cases o with
    | exhausted v' =>
      simp only at h
      cases hclear : clear_markers v' games.number_of_elements with
      | none =>
        rw [hclear] at h
        exact Option.noConfusion h
      | some cleared =>
        rw [hclear] at h
        by_cases h3 : unlock_rc ≠ 0
        · simp only [if_pos h3, Option.some.injEq] at h
          rw [← h] at hret
          exact absurd hret e2
        · simp only [if_neg h3, Option.some.injEq] at h
          rw [← h] at hret
          exact absurd hret e3
    | found roll which p v' =>
      simp only at h
      cases hclear : clear_markers v' games.number_of_elements with
      | none =>
        rw [hclear] at h
        exact Option.noConfusion h
      | some cleared =>
        rw [hclear] at h
        refine ⟨roll, which, p, v', rfl, ?_⟩
        by_cases h3 : unlock_rc ≠ 0
        · simp only [if_pos h3, Option.some.injEq] at h
          rw [← h] at hret
          exact absurd hret e2
        · have hlen : (decimal ((write_joiner mem p which s.logged_in_user s.fd).board
              p).board_size).length > 0 := List.length_pos.2 (decimal_ne_nil _)
          simp only [if_neg h3, if_pos hlen, Option.some.injEq] at h
          rw [← h]
          refine ⟨?_, ?_⟩ <;> simp only [write_joiner_board_size]

theorem join_mark_lower (which turn : Nat) :
    (which = 0 → to_lower (join_mark which turn) = ch_x)
    ∧ (which ≠ 0 → to_lower (join_mark which turn) = ch_o) := by
  constructor
  · intro h
    by_cases ht : turn = 120 <;> simp [join_mark, h, ht, to_lower, ch_x]
  · intro h
    by_cases ht : turn = 111 <;> simp [join_mark, h, ht, to_lower, ch_o, ch_x]

theorem join_reply_take (buffer : List Nat) (mark : Nat) (hlen : 4 ≤ buffer.length) :
    (write_bytes ((buffer.set 0 JOIN_RANDOM_GAME_REPLY).set 1 mark) 2
      (decimal BOARD_SIZE ++ [0])).take 4 = [JOIN_RANDOM_GAME_REPLY, mark, ch_3, 0] := by
  match buffer, hlen with
  | b0 :: b1 :: b2 :: b3 :: rest, _ => rfl
  | [], h => simp at h
  | [_], h => simp at h
  | [_, _], h => simp at h
  | [_, _, _], h => simp at h

set_option maxRecDepth 100000 in
/-- C28 as stated fails on the code: the joiner gets the mark of the slot it fills, `'x'`
for slot 1 and `'o'` for slot 2, whoever holds the other slot. User 1 creates the board
at address 20 and is told the mark `'o'` (slot 2); user 2 joins and user 1 leaves, which
empties slot 2. The join request of user 3 is then matched to this board, fills slot 2
and is answered with the mark `'o'`, the mark the creator had. -/
theorem C28_counterexample_joiner_gets_creators_mark :
    (create_new_game_request (request_buffer [CREATE_NEW_GAME_REQUEST])
        (some (lobby_session 1 4)) empty_registry fresh_memory (create_at 20)).map
        (fun r => (r.ret, matched_board r, r.buffer.take 4))
      = some (CREATE_NEW_GAME_SUCCESS, some 20, [CREATE_NEW_GAME_SUCCESS, ch_o, ch_3, 0])
    ∧ (run_requests three_sessions [create_call 0 20, join_call 1 [0], leave_call 0]).map
        (fun l => (l.replies, (l.memory.board 20).player_1, (l.memory.board 20).player_2))
      = some ([CREATE_NEW_GAME_SUCCESS, JOIN_RANDOM_GAME_REPLY, LEAVE_GAME_REPLY],
          some 2, none)
    ∧ (join_random_game_request (request_buffer [JOIN_RANDOM_GAME_REQUEST])
        (some (lobby_session 3 6))
        (lobby_after three_sessions [create_call 0 20, join_call 1 [0], leave_call 0]).games
        (lobby_after three_sessions [create_call 0 20, join_call 1 [0], leave_call 0]).memory
        [0] 0 0).map
        (fun r => (r.ret, matched_board r, r.buffer.take 4))
      = some (JOIN_RANDOM_GAME_REPLY, some 20, [JOIN_RANDOM_GAME_REPLY, ch_o, ch_3, 0]) := by
  refine ⟨by decide, by decide, by decide⟩

/-- Claim C28, amended. Let `create_new_game_request` succeed for a session and leave the
board at `g`, and let a later `join_random_game_request` return `JOIN_RANDOM_GAME_REPLY`
with the joiner matched to `g`, at a time when slot 1 of that board is empty exactly if
the creation left it empty and the board has the size the creation gave it (the rest of
the board, of the memory and of the registry being arbitrary). Then the joiner's reply
is 4 bytes long and consists of `JOIN_RANDOM_GAME_REPLY`, the mark, `'3'` and a zero
byte, and, ignoring letter case, the joiner's mark is `'o'` if the creator's mark byte
was `'x'` and `'x'` if it was `'o'`. -/
theorem C28_joiner_gets_opposite_mark (buffer1 buffer2 : List Nat) (s1 s2 : session_record)
    (games games2 : game_boards_array) (mem mem2 : board_memory) (env : create_env)
    (draws : List Nat) (lock_rc unlock_rc : Int) (r1 r2 : handler_result) (g : Nat)
    (hcreate : create_new_game_request buffer1 (some s1) games mem env = some r1)
    (hok : r1.ret = CREATE_NEW_GAME_SUCCESS)
    (hg : matched_board r1 = some g)
    (hslot1 : (mem2.board g).player_1 = none ↔ (r1.memory.board g).player_1 = none)
    (hsize1 : (mem2.board g).board_size = (r1.memory.board g).board_size)
    (hjoin : join_random_game_request buffer2 (some s2) games2 mem2 draws lock_rc unlock_rc
      = some r2)
    (hret : r2.ret = JOIN_RANDOM_GAME_REPLY)
    (hmatch : matched_board r2 = some g)
    (hlen : 4 ≤ buffer2.length) :
    ∃ m1 m2, r1.buffer.take 4 = [CREATE_NEW_GAME_SUCCESS, m1, ch_3, 0]
      ∧ r2.buffer.take 4 = [JOIN_RANDOM_GAME_REPLY, m2, ch_3, 0]
      ∧ (∃ t, r2.session = some t ∧ t.bytes_written = 4)
      ∧ ((to_lower m1 = ch_x ∧ to_lower m2 = ch_o)
        ∨ (to_lower m1 = ch_o ∧ to_lower m2 = ch_x)) := by
  obtain ⟨_, _, hbuf, g', _, hsess, hreply, haddr⟩ :=
    create_success_inv buffer1 s1 games mem env r1 hcreate hok
  have hgg : g' = g := by
    simp only [matched_board, hsess, Option.some.injEq] at hg
    exact hg
  rw [hgg] at haddr
  obtain ⟨_, _, _, _, _, hboard, _, _, _⟩ := add_returns_zero _ _ _ _ _ _ haddr
  have hb : r1.memory.board g
      = { created_board s1 env with index := games.number_of_elements } := by
    rw [hboard]
    simp only [Function.update_same]
  obtain ⟨roll, which, p, v', hscan, hbuf2, hsess2⟩ :=
    join_reply_inv buffer2 s2 games2 mem2 draws lock_rc unlock_rc r2 hjoin hret
  have hpg : p = g := by
    simp only [matched_board, hsess2, Option.some.injEq] at hmatch
    exact hmatch
  rw [hpg] at hscan hbuf2 hsess2
  obtain ⟨_, _, hslot⟩ := join_scan_found _ _ _ _ _ _ _ _ _ _ _ hscan
  obtain ⟨_, hsize, _, _, hmark⟩ := created_board_spec s1 env
  have hsize2 : (mem2.board g).board_size = BOARD_SIZE := by
    rw [hsize1, hb]
    exact hsize
  have hd : 3 + (decimal BOARD_SIZE).length = 4 := by decide
  rw [hsize2] at hbuf2 hsess2
  refine ⟨created_mark s1 env, join_mark which (mem2.board g).whose_turn, ?_, ?_, ?_, ?_⟩
  · rw [hreply]
    exact created_reply_take buffer1 s1 env hbuf
  · rw [hbuf2]
    exact join_reply_take buffer2 _ hlen
  · exact ⟨_, hsess2, hd⟩
  · have hp1 : (mem2.board g).player_1 = none ↔ (created_board s1 env).player_1 = none := by
      rw [hslot1, hb]
    rcases hslot with ⟨hw, hnone⟩ | ⟨hw, hsome, _⟩
    · right
      refine ⟨?_, (join_mark_lower which _).1 hw⟩
      replace hnone := hp1.1 hnone
      rcases hmark with ⟨q, _, _⟩ | ⟨_, m, _⟩ | ⟨_, m, _⟩
      · exact absurd hnone q
      · rw [m]
        decide
      · rw [m]
        decide
    · left
      refine ⟨?_, (join_mark_lower which _).2 (by omega)⟩
      replace hsome : (created_board s1 env).player_1 ≠ none := fun e => hsome (hp1.2 e)
      rcases hmark with ⟨_, m, _⟩ | ⟨q, _, _⟩ | ⟨q, _, _⟩
      · rw [m]
        decide
      · exact absurd q hsome
      · exact absurd q hsome
set_option maxRecDepth 100000 in
/-- C28 amended, applied: user 7 creates the board at address 20 and gets the mark
`'o'`; user 8 then joins it and gets a mark that is `'x'` when letter case is ignored. -/
theorem C28_joiner_gets_opposite_mark_witness :
    ∃ r1 r2 m1 m2,
      create_new_game_request (request_buffer [CREATE_NEW_GAME_REQUEST])
        (some (lobby_session 7 4)) empty_registry fresh_memory (create_at 20) = some r1
      ∧ join_random_game_request (request_buffer [JOIN_RANDOM_GAME_REQUEST])
        (some (lobby_session 8 5)) created_registry created_memory [0] 0 0 = some r2
      ∧ r1.buffer.take 4 = [CREATE_NEW_GAME_SUCCESS, m1, ch_3, 0]
      ∧ r2.buffer.take 4 = [JOIN_RANDOM_GAME_REPLY, m2, ch_3, 0]
      ∧ (∃ t, r2.session = some t ∧ t.bytes_written = 4)
      ∧ ((to_lower m1 = ch_x ∧ to_lower m2 = ch_o)
        ∨ (to_lower m1 = ch_o ∧ to_lower m2 = ch_x)) :=
  match hc : create_new_game_request (request_buffer [CREATE_NEW_GAME_REQUEST])
      (some (lobby_session 7 4)) empty_registry fresh_memory (create_at 20),
    hj : join_random_game_request (request_buffer [JOIN_RANDOM_GAME_REQUEST])
      (some (lobby_session 8 5)) created_registry created_memory [0] 0 0 with
  | some r1, some r2 =>
    have hfacts : r1.ret = CREATE_NEW_GAME_SUCCESS ∧ matched_board r1 = some 20
        ∧ created_memory.board 20 = r1.memory.board 20 := by
      have h : (create_new_game_request (request_buffer [CREATE_NEW_GAME_REQUEST])
          (some (lobby_session 7 4)) empty_registry fresh_memory (create_at 20)).map
            (fun r => (r.ret, matched_board r, r.memory.board 20))
          = some (CREATE_NEW_GAME_SUCCESS, some 20, created_memory.board 20) := by decide
      rw [hc] at h
      simp only [Option.map_some', Option.some.injEq, Prod.mk.injEq] at h
      exact ⟨h.1, h.2.1, h.2.2.symm⟩
    have hfacts2 : r2.ret = JOIN_RANDOM_GAME_REPLY ∧ matched_board r2 = some 20 := by
      have h : (join_random_game_request (request_buffer [JOIN_RANDOM_GAME_REQUEST])
          (some (lobby_session 8 5)) created_registry created_memory [0] 0 0).map
            (fun r => (r.ret, matched_board r))
          = some (JOIN_RANDOM_GAME_REPLY, some 20) := by decide
      rw [hj] at h
      simp only [Option.map_some', Option.some.injEq, Prod.mk.injEq] at h
      exact h
    match C28_joiner_gets_opposite_mark _ _ _ _ _ _ _ _ _ _ _ _ r1 r2 20 hc hfacts.1
        hfacts.2.1 (by rw [hfacts.2.2]) (by rw [hfacts.2.2]) hj hfacts2.1 hfacts2.2
        (by decide) with
    | ⟨m1, m2, h1, h2, h3, h4⟩ => ⟨r1, r2, m1, m2, rfl, rfl, h1, h2, h3, h4⟩
  | none, _ => by
    have h : (create_new_game_request (request_buffer [CREATE_NEW_GAME_REQUEST])
        (some (lobby_session 7 4)) empty_registry fresh_memory (create_at 20)).isSome
          = true := by decide
    rw [hc] at h
    exact absurd h (by decide)
  | some _, none => by
    have h : (join_random_game_request (request_buffer [JOIN_RANDOM_GAME_REQUEST])
        (some (lobby_session 8 5)) created_registry created_memory [0] 0 0).isSome
          = true := by decide
    rw [hj] at h
    exact absurd h (by decide)

/-! ## Fatal reply codes in the connection loop -/

/-- An out-of-state request is answered `INVALID_REQUEST` by the state guard of its
handler, which writes the reply code and the reply length only. -/
theorem handler_out_of_state (opcode : Nat) (buffer : List Nat) (s : session_record)
    (games : game_boards_array) (mem : board_memory) (env : handler_env)
    (h : out_of_state opcode s) :
    handler opcode buffer (some s) games mem env
      = some (answer INVALID_REQUEST buffer s games mem) := by
  obtain ⟨hauth, hop⟩ := h
  rcases hop with e | e | ⟨e | e, hg⟩ | ⟨e | e, hg⟩
  · rw [e]
    simp only [handler, if_true, login_request]
    rw [if_pos hauth]
  · rw [e]
    simp only [handler, CREATE_USER_REQUEST, LOGIN_REQUEST, LOGOUT_REQUEST, if_true,
      create_user_request, OfNat.ofNat_ne_zero, if_false, OfNat.ofNat_ne_one]
    rw [if_pos hauth]
  · rw [e]
    have h1 : s.session_present = 0 ∨ s.current_game ≠ none := Or.inr hg
    simp only [handler, CREATE_NEW_GAME_REQUEST, LOGIN_REQUEST, LOGOUT_REQUEST,
      CREATE_USER_REQUEST, JOIN_RANDOM_GAME_REQUEST, create_new_game_request]
    simp only [h1, if_true]
    rfl
  · rw [e]
    have h1 : s.session_present = 0 ∨ s.current_game ≠ none := Or.inr hg
    simp only [handler, LOGIN_REQUEST, LOGOUT_REQUEST,
      CREATE_USER_REQUEST, JOIN_RANDOM_GAME_REQUEST, join_random_game_request]
    simp only [h1, if_true]
    rfl
  · rw [e]
    simp only [handler, CREATE_NEW_GAME_REQUEST, LOGIN_REQUEST, LOGOUT_REQUEST,
      CREATE_USER_REQUEST, JOIN_RANDOM_GAME_REQUEST, LEAVE_GAME_REQUEST, leave_game_request,
      hg]
    simp only [hauth, if_false]
    rfl
  · rw [e]
    simp only [handler, CREATE_NEW_GAME_REQUEST, LOGIN_REQUEST, LOGOUT_REQUEST,
      CREATE_USER_REQUEST, JOIN_RANDOM_GAME_REQUEST, LEAVE_GAME_REQUEST, ACTION_REQUEST,
      action_request_at, action_request, hg, Option.map_none', reply, answer]
    rfl
theorem notify_other_code (c : connection) (code : Nat) (h1 : code ≠ JOIN_RANDOM_GAME_REPLY)
    (h2 : code ≠ ACTION_REPLY) (h3 : code ≠ GAME_IS_FINISHED) :
    notify_opponent c code = some c := by
  unfold notify_opponent
  rw [if_neg]
  rintro (e | e | e)
  · exact h1 e
  · exact h2 e
  · exact h3 e

theorem connection_loop_ended (c : connection) (h : loop_condition c = false) :
    ∀ rest, connection_loop c rest = some (connection_end c) := by
  intro rest
  cases rest with
  | nil => simp [connection_loop, h]
  | cons e rest =>
    obtain ⟨ev, env⟩ := e
    simp [connection_loop, h]

set_option maxRecDepth 100000 in
/-- C23 as stated fails on the code: user 7 is authenticated and has no board; its login
request is out of state and `login_request` returns `INVALID_REQUEST`. The loop then frees
the user and the session record and ends: the create-board request that follows is not
handled (one reply was sent, the registry is still empty). -/
theorem C23_counterexample_invalid_request_is_fatal :
    (handler LOGIN_REQUEST (request_buffer [LOGIN_REQUEST, 97, 0, 98, 0])
        (some (lobby_session 7 4)) empty_registry fresh_memory calm.request).map
        (fun r => r.ret) = some INVALID_REQUEST
    ∧ (connection_loop (connected 4 (lobby_session 7 4) empty_registry fresh_memory)
        [(received.message (request_buffer [LOGIN_REQUEST, 97, 0, 98, 0]), calm),
         (received.message (request_buffer [CREATE_NEW_GAME_REQUEST]), calm)]).map
        (fun c => (c.session, c.session_released, c.released_users))
      = some (none, true, [some 7])
    ∧ (connection_loop (connected 4 (lobby_session 7 4) empty_registry fresh_memory)
        [(received.message (request_buffer [LOGIN_REQUEST, 97, 0, 98, 0]), calm),
         (received.message (request_buffer [CREATE_NEW_GAME_REQUEST]), calm)]).map
        (fun c => (c.sent, c.games, c.running))
      = some ([(4, [INVALID_REQUEST])], empty_registry, false)
    ∧ (connection_loop (connected 4 (lobby_session 7 4) empty_registry fresh_memory)
        [(received.message (request_buffer [CREATE_NEW_GAME_REQUEST]), calm)]).map
        (fun c => (c.session_released, c.games.number_of_elements, c.running))
      = some (false, 1, true) := by
  decide

/-- Claim C23, amended: `INVALID_REQUEST` is fatal. When a session in the connection
loop sends a request that does not fit its state, the handler returns `INVALID_REQUEST`
without changing the registry or a board; the loop frees the user and the session
record, sets `session_details` to `NULL`, sends the one-byte reply (when `send`
succeeds) and ends: whatever is received next, no further request is handled. -/
theorem C23_invalid_request_ends_session (c : connection) (s : session_record)
    (buffer : List Nat) (opcode : Nat) (env : round_env)
    (hs : c.session = some s) (hop : buffer[0]? = some opcode)
    (hout : out_of_state opcode s) :
    handler opcode buffer (some s) c.games c.memory env.request
      = some (answer INVALID_REQUEST buffer s c.games c.memory)
    ∧ FATAL_ERRORS ≤ INVALID_REQUEST
    ∧ ∃ c1, connection_round c (received.message buffer) env = some c1
      ∧ c1.session = none ∧ c1.session_released = true
      ∧ c1.released_users = s.logged_in_user :: c.released_users
      ∧ c1.games = c.games ∧ c1.memory = c.memory
      ∧ (env.send_ok = true → c1.sent = c.sent ++ [(c.fd, [INVALID_REQUEST])])
      ∧ loop_condition c1 = false
      ∧ ∀ rest, connection_loop c1 rest = some (connection_end c1) := by
  have hcall := handler_out_of_state opcode buffer s c.games c.memory env.request hout
  refine ⟨hcall, by decide, ?_⟩
  have hpresent : handler_present opcode = true := by
    obtain ⟨_, e | e | ⟨e | e, _⟩ | ⟨e | e, _⟩⟩ := hout <;> rw [e] <;> decide
  have hfatal : FATAL_ERRORS ≤ INVALID_REQUEST := by decide
  have hne : buffer ≠ [] := by
    intro e
    rw [e] at hop
    exact Option.noConfusion hop
  obtain ⟨b0, rest0, hb⟩ := List.exists_cons_of_ne_nil hne
  have hhead : (buffer.set 0 INVALID_REQUEST)[0]? = some INVALID_REQUEST := by
    rw [hb]
    simp
  have htake : (buffer.set 0 INVALID_REQUEST).take 1 = [INVALID_REQUEST] := by
    rw [hb]
    simp
  by_cases hsend : env.send_ok = false
  · have hround : connection_round c (received.message buffer) env
        = some { c with session := none,
                        released_users := s.logged_in_user :: c.released_users,
                        session_released := true, running := false } := by
      simp only [connection_round, hs, hop, hpresent, hcall, if_true]
      simp only [answer, hsend, if_true]
      rw [if_pos hfatal]
    refine ⟨_, hround, rfl, rfl, rfl, rfl, rfl, ?_, rfl, ?_⟩
    · intro e
      rw [hsend] at e
      exact Bool.noConfusion e
    · exact connection_loop_ended _ rfl
  · have hround : connection_round c (received.message buffer) env
        = some { c with session := none,
                        released_users := s.logged_in_user :: c.released_users,
                        session_released := true,
                        sent := c.sent ++ [(c.fd, [INVALID_REQUEST])] } := by
      simp only [connection_round, hs, hop, hpresent, hcall, if_true]
      simp only [answer, hsend, if_false, hhead, htake]
      rw [if_pos hfatal]
      have n1 : INVALID_REQUEST ≠ JOIN_RANDOM_GAME_REPLY := by decide
      have n2 : INVALID_REQUEST ≠ ACTION_REPLY := by decide
      have n3 : INVALID_REQUEST ≠ GAME_IS_FINISHED := by decide
      exact notify_other_code _ _ n1 n2 n3
    refine ⟨_, hround, rfl, rfl, rfl, rfl, rfl, ?_, ?_, ?_⟩
    · intro _
      rfl
    · simp [loop_condition]
    · exact connection_loop_ended _ (by simp [loop_condition])

set_option maxRecDepth 100000 in
/-- C23 (amended) applied: user 7, authenticated and without a board, sends a leave-board
request. -/
theorem C23_invalid_request_ends_session_witness :
    ∃ c1, connection_round (connected 4 (lobby_session 7 4) empty_registry fresh_memory)
        (received.message (request_buffer [LEAVE_GAME_REQUEST])) calm = some c1
      ∧ c1.session = none ∧ c1.session_released = true
      ∧ c1.sent = [(4, [INVALID_REQUEST])]
      ∧ loop_condition c1 = false :=
  match (C23_invalid_request_ends_session
      (connected 4 (lobby_session 7 4) empty_registry fresh_memory) (lobby_session 7 4)
      (request_buffer [LEAVE_GAME_REQUEST]) LEAVE_GAME_REQUEST calm rfl (by decide)
      (by decide)).2.2 with
  | ⟨c1, h1, h2, h3, _, _, _, h4, h5, _⟩ => ⟨c1, h1, h2, h3, h4 rfl, h5⟩

/-! ## Teardown and boards -/

set_option maxRecDepth 100000 in
/-- Claim C25, evaluated on the code. User 100 occupies slot 1 of the stored board at
address 10 and nobody is in slot 2. A create-board request of that session is answered
`INVALID_REQUEST`, a move request for which the board's mutex cannot be locked is
answered `INTERNAL_SERVER_ERROR`; both codes are fatal. After the loop has freed the
user and the session record and has ended, the board still has user 100 in slot 1 and is
still stored in the registry. -/
theorem C25_fatal_teardown_keeps_occupancy :
    is_stored one_game_registry 10 = true
    ∧ (waiting_memory.board 10).player_1 = some 100
    ∧ (waiting_memory.board 10).player_2 = none
    ∧ (handler CREATE_NEW_GAME_REQUEST (request_buffer [CREATE_NEW_GAME_REQUEST])
        (some (playing_session 100 4 10)) one_game_registry waiting_memory calm.request).map
        (fun r => decide (FATAL_ERRORS ≤ r.ret)) = some true
    ∧ (connection_loop (connected 4 (playing_session 100 4 10) one_game_registry
          waiting_memory)
        [(received.message (request_buffer [CREATE_NEW_GAME_REQUEST]), calm)]).map
        (fun c => (c.session, c.session_released, c.released_users, c.running))
      = some (none, true, [some 100], false)
    ∧ (connection_loop (connected 4 (playing_session 100 4 10) one_game_registry
          waiting_memory)
        [(received.message (request_buffer [CREATE_NEW_GAME_REQUEST]), calm)]).map
        (fun c => (is_stored c.games 10, (c.memory.board 10).player_1,
          (c.memory.board 10).player_2))
      = some (true, some 100, none)
    ∧ (connection_loop (connected 4 (playing_session 100 4 10) one_game_registry
          waiting_memory)
        [(received.message (move_request 1 1), board_lock_fails)]).map
        (fun c => (c.session, c.session_released, c.sent))
      = some (none, true, [(4, [INTERNAL_SERVER_ERROR])])
    ∧ (connection_loop (connected 4 (playing_session 100 4 10) one_game_registry
          waiting_memory)
        [(received.message (move_request 1 1), board_lock_fails)]).map
        (fun c => (is_stored c.games 10, (c.memory.board 10).player_1,
          (c.memory.board 10).player_2))
      = some (true, some 100, none) := by
  refine ⟨by decide, by decide, by decide, by decide, by decide, by decide, by decide,
    by decide⟩

set_option maxRecDepth 100000 in
/-- C26: the code diverges from the claim. The stored board at address 10 has user 1
(on descriptor 4) in slot 1 and user 2 (on descriptor 5) in slot 2. When the connection
of user 1 is closed, the loop passes the board to `game_boards_array_remove`: the board
is not stored any more and its matrix has been freed, although user 2 still occupies
slot 2; slot 1 still holds user 1; `PEER_LEFT_NOTIFY` goes to descriptor 5. In the same
state `leave_game_request` of user 1 empties slot 1, keeps the board stored and frees
nothing. -/
theorem C26_disconnect_removes_occupied_board :
    is_stored one_game_registry 10 = true
    ∧ (full_memory.board 10).player_1 = some 1 ∧ (full_memory.board 10).player1_fd = 4
    ∧ (full_memory.board 10).player_2 = some 2 ∧ (full_memory.board 10).player2_fd = 5
    ∧ (connection_loop (connected 4 (playing_session 1 4 10) one_game_registry full_memory)
        [(received.closed, calm)]).map
        (fun c => (is_stored c.games 10, c.games.number_of_elements,
          (c.memory.board 10).player_1, (c.memory.board 10).player_2))
      = some (false, 0, some 1, some 2)
    ∧ (connection_loop (connected 4 (playing_session 1 4 10) one_game_registry full_memory)
        [(received.closed, calm)]).map
        (fun c => (c.memory.freed_matrices, c.sent, c.running))
      = some ([10], [(5, [PEER_LEFT_NOTIFY])], false)
    ∧ (leave_game_request (request_buffer [LEAVE_GAME_REQUEST])
        (some (playing_session 1 4 10)) one_game_registry full_memory leave_ok).map
        (fun r => (r.ret, is_stored r.games 10, (r.memory.board 10).player_1,
          (r.memory.board 10).player_2, r.memory.freed_matrices))
      = some (LEAVE_GAME_REPLY, true, none, some 2, []) := by
  refine ⟨by decide, by decide, by decide, by decide, by decide, by decide, by decide,
    by decide⟩

/-! ## Boards without an occupant -/

set_option maxRecDepth 100000 in
/-- Claim C30, evaluated on the code. Users 1 and 2 each create a board (at the addresses
20 and 21); user 1 leaves, so the board at 20 is removed: `game_boards_array_remove`
moves the pointer 21 to position 0 and then passes it, not the removed board, to `free`,
while it stays stored. User 3 creates a board and `calloc` returns the freed block at
21, which wipes the slot of user 2; user 3 leaves and the removal clears position 1.
Every call returned its success code, and the registry ends with one stored board, at
position 0, that has no occupant. -/
theorem C30_stored_board_without_occupant :
    (run_board_calls three_sessions
        [board_call.create 0 (create_at 20), board_call.create 1 (create_at 21),
         board_call.leave 0 leave_ok]).map
        (fun l => (l.games.array.take l.games.number_of_elements, l.memory.freed_boards,
          (l.memory.board 21).player_2))
      = some ([some 21], [21], some 2)
    ∧ (run_board_calls three_sessions
        [board_call.create 0 (create_at 20), board_call.create 1 (create_at 21),
         board_call.leave 0 leave_ok, board_call.create 2 (create_at 21),
         board_call.leave 2 leave_ok]).map
        (fun l => (l.replies, l.games.array.take l.games.number_of_elements,
          is_stored l.games 21, unoccupied (l.memory.board 21)))
      = some ([CREATE_NEW_GAME_SUCCESS, CREATE_NEW_GAME_SUCCESS, LEAVE_GAME_REPLY,
               CREATE_NEW_GAME_SUCCESS, LEAVE_GAME_REPLY], [some 21], true, true) := by
  refine ⟨by decide, by decide⟩

/-! ## Removal of a stored board -/

theorem resize_visited_works (b : game_boards_array) (m : board_memory) (env : remove_env)
    (h : remove_works env) : ∃ b1, resize_visited b m env = (0, some b1, m) := by
  obtain ⟨_, _, _, h4, h5⟩ := h
  unfold resize_visited
  split_ifs with h1 h2
  · rw [h4] at h2
    exact Bool.noConfusion h2
  · exact ⟨_, by rw [h5]⟩
  · exact ⟨_, by rw [h5]⟩

theorem shrink_after_remove_works (b : game_boards_array) (m : board_memory)
    (env : remove_env) (h : remove_works env) :
    ∃ b1, shrink_after_remove b m env = (0, some b1, m) := by
  unfold shrink_after_remove
  split_ifs with h1 h2
  · rw [h.2.2.1] at h2
    exact Bool.noConfusion h2
  · exact resize_visited_works _ _ _ h
  · exact resize_visited_works _ _ _ h

/-- Under the index invariant the removal of a stored board returns 0 when every call
to the outside succeeds. -/
theorem remove_succeeds (a : game_boards_array) (g : Nat) (mem : board_memory)
    (env : remove_env) (hinv : registry_indexed a mem) (hst : is_stored a g = true)
    (henv : remove_works env) :
    ∃ a1 mem1, game_boards_array_remove (some a) (some g) mem env = some (0, some a1, mem1) := by
  obtain ⟨hi, hgi⟩ := stored_at_index a mem g hinv hst
  have h1 : ¬ env.lock_rc ≠ 0 := fun e => e henv.1
  have h2 : ¬ (a.number_of_elements = 0 ∨ a.number_of_elements - 1 < (mem.board g).index) := by
    omega
  have h3 : ¬ env.destroy_rc ≠ 0 := fun e => e henv.2.1
  obtain ⟨q, hq, _⟩ := hinv (a.number_of_elements - 1) (by omega)
  have hlen : a.number_of_elements - 1 < a.array.length := by
    by_contra e
    rw [List.getElem?_eq_none (by omega)] at hq
    exact Option.noConfusion hq
  have key : ∀ b m, ∃ a1 mem1,
      some (shrink_after_remove b m env) = some (0, some a1, mem1) := by
    intro b m
    obtain ⟨b1, hb1⟩ := shrink_after_remove_works b m env henv
    exact ⟨b1, m, by rw [hb1]⟩
  simp only [game_boards_array_remove]
  rw [if_neg h1, if_neg h2, hgi]
  simp only
  rw [if_neg h3]
  by_cases hlt : (mem.board g).index < a.number_of_elements - 1
  · simp only [move_last, if_pos hlt, hq]
    rw [if_pos (by rw [List.length_set]; exact hlen)]
    exact key _ _
  · simp only [move_last, if_neg hlt]
    rw [if_pos hlen]
    exact key _ _
/-- After the removal of a stored board under the index invariant the board is not
stored any more and its content is as before. -/
theorem remove_unstores (a : game_boards_array) (g : Nat) (mem : board_memory)
    (env : remove_env) (a1 : game_boards_array) (mem1 : board_memory)
    (hinv : registry_indexed a mem) (hstored : is_stored a g = true)
    (h : game_boards_array_remove (some a) (some g) mem env = some (0, some a1, mem1)) :
    is_stored a1 g = false ∧ mem1.board g = mem.board g
    ∧ a1.number_of_elements = a.number_of_elements - 1 := by
  obtain ⟨hi, hgi⟩ := stored_at_index a mem g hinv hstored
  obtain ⟨hidx, b, hb, hcount, hmove, hstay, hkeep, hlast⟩ :=
    remove_returns_zero a g mem env _ _ h
  cases hb
  have hlastq : ∀ q, a.array[a.number_of_elements - 1]? = some (some q) →
      (mem.board q).index = a.number_of_elements - 1 := by
    intro q hq
    obtain ⟨q', hq', hqi⟩ := hinv (a.number_of_elements - 1) (by omega)
    rw [hq] at hq'
    have hqq : q = q' := by simpa using hq'
    rw [hqq, hqi]
  refine ⟨?_, ?_, hcount⟩
  · cases hst : is_stored a1 g with
    | false => rfl
    | true =>
      exfalso
      obtain ⟨j, hj, hget⟩ := (is_stored_iff a1 g).1 hst
      rw [hcount] at hj
      by_cases hji : j = (mem.board g).index
      · have hlt : (mem.board g).index < a.number_of_elements - 1 := by omega
        obtain ⟨q, hq, hq1, _, _⟩ := hmove hlt
        rw [hji, hq1] at hget
        have hqg : q = g := by simpa using hget
        have := hlastq q hq
        rw [hqg] at this
        omega
      · rw [hkeep j hj hji] at hget
        obtain ⟨p, hp, hpi⟩ := hinv j (by omega)
        rw [hget] at hp
        have hgp : g = p := by simpa using hp
        rw [← hgp] at hpi
        exact hji hpi.symm
  · by_cases hlt : (mem.board g).index < a.number_of_elements - 1
    · obtain ⟨q, hq, _, _, hother⟩ := hmove hlt
      apply hother
      intro e
      have := hlastq q hq
      rw [← e] at this
      omega
    · rw [hstay hlt]

/-! ## Disconnect of a session that occupies a board -/

/-- What the disconnect branch of the loop does in general. When a session that occupies
a stored board disconnects (`recv` returns `n <= 0`), the registry being indexed and the
calls of the removal succeeding, the loop removes the board from the registry whether or
not the opponent still occupies the other slot; the board's content, its two slots
included, is not changed; `PEER_LEFT_NOTIFY` is sent to the board's other descriptor, and
the loop ends. -/
theorem disconnect_removes_board (c : connection) (s : session_record) (p : Nat)
    (env : round_env)
    (hs : c.session = some s) (hp : s.current_game = some p)
    (hinv : registry_indexed c.games c.memory) (hstored : is_stored c.games p = true)
    (henv : remove_works env.remove) :
    ∃ c1, connection_round c received.closed env = some c1
      ∧ is_stored c1.games p = false
      ∧ c1.games.number_of_elements = c.games.number_of_elements - 1
      ∧ c1.memory.board p = c.memory.board p
      ∧ c1.sent = c.sent ++
          [(if c.fd = (c.memory.board p).player1_fd then (c.memory.board p).player2_fd
            else (c.memory.board p).player1_fd, [PEER_LEFT_NOTIFY])]
      ∧ loop_condition c1 = false := by
  obtain ⟨a1, mem1, hrem⟩ := remove_succeeds c.games p c.memory env.remove hinv hstored henv
  obtain ⟨hgone, hboard, hcount⟩ :=
    remove_unstores c.games p c.memory env.remove a1 mem1 hinv hstored hrem
  have hround : connection_round c received.closed env
      = some (send_bytes
          { c with games := a1, memory := mem1,
                   peer_fd := some (if c.fd = (mem1.board p).player1_fd
                     then (mem1.board p).player2_fd else (mem1.board p).player1_fd),
                   running := false }
          (if c.fd = (mem1.board p).player1_fd then (mem1.board p).player2_fd
            else (mem1.board p).player1_fd) [PEER_LEFT_NOTIFY]) := by
    simp only [connection_round, hs, on_disconnect, hp, hrem]
  refine ⟨_, hround, hgone, hcount, hboard, ?_, ?_⟩
  · simp only [send_bytes, hboard]
  · simp [loop_condition, send_bytes]

/-- The disconnect branch on one state: the connection of user 1 is closed while user 2
occupies slot 2 of the same board. -/
theorem disconnect_removes_board_example :
    ∃ c1, connection_round (connected 4 (playing_session 1 4 10) one_game_registry full_memory)
        received.closed calm = some c1
      ∧ is_stored c1.games 10 = false
      ∧ c1.memory.board 10 = full_memory.board 10
      ∧ c1.sent = [(5, [PEER_LEFT_NOTIFY])]
      ∧ loop_condition c1 = false :=
  match disconnect_removes_board
      (connected 4 (playing_session 1 4 10) one_game_registry full_memory)
      (playing_session 1 4 10) 10 calm rfl rfl
      (by
        intro i hi
        have h1 : i < 1 := hi
        interval_cases i
        exact ⟨10, by decide, by decide⟩)
      (by decide) ⟨rfl, rfl, rfl, rfl, rfl⟩ with
  | ⟨c1, h1, h2, _, h3, h4, h5⟩ => ⟨c1, h1, h2, h3, h4, h5⟩

/-! ## Defects of the registry -/

/-- Claim C31, evaluated on the code. `array_of_games_init(REALLOC_SIZE)` gives
`empty_registry`; after two successful inserts the count is 2 but the marker array has
one entry, the byte the first insert allocated: the second insert does not touch it
(`realloc` of the markers happens only when the count reaches `array_size`). Index 1 is
below the count and not a valid marker index: a matchmaking scan whose draw leads to
position 1 reads outside the marker array. -/
theorem C31_markers_shorter_than_count :
    array_of_games_init REALLOC_SIZE true true 0 = some empty_registry
    ∧ (run_registry_calls empty_registry fresh_memory
        [registry_call.add 10 add_ok, registry_call.add 11 add_ok]).map (fun r => r.1)
      = some two_game_registry
    ∧ two_game_registry.number_of_elements = 2
    ∧ two_game_registry.visited.map List.length = some 1
    ∧ (join_scan two_game_registry fresh_memory 2 [1] 0 UINT_MAX
        two_game_registry.visited).isNone = true := by
  refine ⟨by decide, by decide, by decide, by decide, by decide⟩

/-- Claim C32, evaluated on the code. In the registry of the boards at 10 and 11 the
board at 10 (index 0, not the last) is removed. The call returns 0; the matrix of the
removed board is released, but the `free` after the relocation gets `array[index]`,
which by then is the relocated board at 11: that board, still stored, is released and
the removed board at 10 is not. -/
theorem C32_relocated_board_is_freed :
    is_stored two_game_registry 10 = true ∧ (indexed_memory.board 10).index = 0
    ∧ (game_boards_array_remove (some two_game_registry) (some 10) indexed_memory
        remove_ok).map (fun r => (r.1, r.2.2.freed_matrices, r.2.2.freed_boards))
      = some (0, [10], [11])
    ∧ (game_boards_array_remove (some two_game_registry) (some 10) indexed_memory
        remove_ok).map
        (fun r => r.2.1.map (fun a => (a.array.take a.number_of_elements, is_stored a 11)))
      = some (some ([some 11], true)) := by
  refine ⟨by decide, by decide, by decide, by decide⟩

/-- Claim C34, evaluated on the code. Ten inserts and five removals on the registry of
`array_of_games_init(REALLOC_SIZE)` all return 0. The last removal finds
`array_size - number_of_elements == REALLOC_SIZE * 2` and lowers `array_size` from 15
to 5, which is the count; the next insert returns -1. -/
theorem C34_insert_fails_after_shrink :
    (run_registry_calls empty_registry fresh_memory ten_inserts).map
        (fun r => (r.1.number_of_elements, r.1.array_size)) = some (10, 15)
    ∧ (run_registry_calls empty_registry fresh_memory (ten_inserts ++ five_removals)).map
        (fun r => r.1) = some shrunk_registry
    ∧ shrunk_registry.number_of_elements = shrunk_registry.array_size
    ∧ (game_boards_array_add (some shrunk_registry) (some 30) fresh_memory add_ok).map
        (fun r => r.1) = some (-1) := by
  refine ⟨by decide, by decide, by decide, by decide⟩

/-! ## The board lock and `errno` -/

set_option maxRecDepth 100000 in
/-- Claim C35, evaluated on the code. On a board in play with `'x'` to move, the player in
slot 1 sends a move request whose first coordinate is the text `"x"`. Locking and
unlocking the board's mutex would both succeed; `action_request` locks it, fails to
decode the payload and returns `INVALID_OPERANDS` without unlocking: the lock is still
held when the call returns. A payload that decodes to a cell outside the board gets the
same reply code with the lock released. -/
theorem C35_lock_kept_after_failed_decode :
    (action_request (request_buffer [ACTION_REQUEST, 120, 0, 49, 0])
        (some (session_on 1 4 start_board)) 0 0 0).map (fun r => (r.ret, r.lock_held))
      = some (INVALID_OPERANDS, true)
    ∧ (action_request (move_request 7 1) (some (session_on 1 4 start_board)) 0 0 0).map
        (fun r => (r.ret, r.lock_held))
      = some (INVALID_OPERANDS, false) := by
  refine ⟨by decide, by decide⟩

/-- Claim C39, evaluated on the code. A first decode, of a payload whose first field
overflows, returns 2 and leaves `errno` at `ERANGE`. A second decode in the same thread,
of the well-formed payload `"1" NUL "2" NUL`, starts with that `errno` and returns 2 as
well, while the same payload decodes to (1, 2) with return value 0 when `errno` is 0 on
entry. -/
theorem C39_stale_errno_fails_good_payload :
    get_coordinates_from_buffer overflow_payload 0 0
      = some { ret := 2, x := ULONG_MAX, y := 0, errno := ERANGE }
    ∧ get_coordinates_from_buffer [49, 0, 50, 0] 0 ERANGE
      = some { ret := 2, x := 1, y := 0, errno := ERANGE }
    ∧ get_coordinates_from_buffer [49, 0, 50, 0] 0 0
      = some { ret := 0, x := 1, y := 2, errno := 0 } := by
  refine ⟨by decide, by decide, by decide⟩

/-! ## Who is told to begin -/

/-- What a successful `join_random_game_request` has done: the scan found a board `p`
and a slot `which`; the reply, the session and the memory are those written for that
slot. -/
theorem join_success_inv (buffer : List Nat) (s : session_record)
    (games : game_boards_array) (mem : board_memory) (draws : List Nat) (lock_rc unlock_rc : Int)
    (r : handler_result)
    (h : join_random_game_request buffer (some s) games mem draws lock_rc unlock_rc = some r)
    (hret : r.ret = JOIN_RANDOM_GAME_REPLY) :
    ∃ roll which p v',
      join_scan games mem games.number_of_elements draws 0 UINT_MAX games.visited
        = some (scan_outcome.found roll which p v')
      ∧ r.buffer = write_bytes ((buffer.set 0 JOIN_RANDOM_GAME_REPLY).set 1
          (join_mark which (mem.board p).whose_turn)) 2
          (decimal (mem.board p).board_size ++ [0])
      ∧ r.session = some { s with
          current_game := some p,
          bytes_written := 3 + (decimal (mem.board p).board_size).length }
      ∧ r.memory = write_joiner mem p which s.logged_in_user s.fd := by
  obtain ⟨roll, which, p, v', hscan, hbuf, hsess⟩ :=
    join_reply_inv buffer s games mem draws lock_rc unlock_rc r h hret
  refine ⟨roll, which, p, v', hscan, hbuf, hsess, ?_⟩
  have e1 : INVALID_REQUEST ≠ JOIN_RANDOM_GAME_REPLY := by decide
  have e2 : INTERNAL_SERVER_ERROR ≠ JOIN_RANDOM_GAME_REPLY := by decide
  have e3 : NO_GAMES_AVAILABLE ≠ JOIN_RANDOM_GAME_REPLY := by decide
  rcases join_cases buffer s games mem draws lock_rc unlock_rc r h with
    ⟨_, e⟩ | ⟨_, _, e⟩ | ⟨_, _, _, _, _, e⟩ | ⟨_, _, roll', which', p', v'', _, hscan', e⟩
  · rw [e] at hret
    exact absurd hret e1
  · rw [e] at hret
    exact absurd hret e2
  · rcases e with ⟨_, e⟩ | ⟨_, e⟩
    · rw [e] at hret
      exact absurd hret e2
    · rw [e] at hret
      exact absurd hret e3
  · rw [hscan] at hscan'
    simp only [Option.some.injEq, scan_outcome.found.injEq] at hscan'
    obtain ⟨_, hw, hp, _⟩ := hscan'
    rcases e with ⟨_, e⟩ | ⟨_, _, e, _⟩
    · rw [e] at hret
      exact absurd hret e2
    · rw [e, hw, hp]

/-- Claim C37. Let `create_new_game_request` succeed for a session and leave the board at
`g`, and let a later `join_random_game_request`, made while that board is as the creation
left it, return `JOIN_RANDOM_GAME_REPLY` with the joiner matched to `g`. Then exactly one
of the two mark bytes sent (the creator's and the joiner's) is an uppercase letter, and
that mark, lowercased, is the board's `whose_turn`, which the join has not changed. When
the two users are not null and different, the turn test of `action_request` lets the
player with the uppercase mark pass and refuses the other player. -/
theorem C37_one_player_begins (buffer1 buffer2 : List Nat) (s1 s2 : session_record)
    (games games2 : game_boards_array) (mem mem2 : board_memory) (env : create_env)
    (draws : List Nat) (lock_rc unlock_rc : Int) (r1 r2 : handler_result) (g : Nat)
    (hcreate : create_new_game_request buffer1 (some s1) games mem env = some r1)
    (hok : r1.ret = CREATE_NEW_GAME_SUCCESS)
    (hg : matched_board r1 = some g)
    (hsame : mem2.board g = r1.memory.board g)
    (hjoin : join_random_game_request buffer2 (some s2) games2 mem2 draws lock_rc unlock_rc
      = some r2)
    (hret : r2.ret = JOIN_RANDOM_GAME_REPLY)
    (hmatch : matched_board r2 = some g)
    (hlen : 4 ≤ buffer2.length) :
    ∃ m1 m2, r1.buffer.take 4 = [CREATE_NEW_GAME_SUCCESS, m1, ch_3, 0]
      ∧ r2.buffer.take 4 = [JOIN_RANDOM_GAME_REPLY, m2, ch_3, 0]
      ∧ (r2.memory.board g).whose_turn = (r1.memory.board g).whose_turn
      ∧ ((is_upper m1 ∧ ¬ is_upper m2 ∧ to_lower m1 = (r2.memory.board g).whose_turn)
        ∨ (¬ is_upper m1 ∧ is_upper m2 ∧ to_lower m2 = (r2.memory.board g).whose_turn))
      ∧ (s1.logged_in_user ≠ none → s2.logged_in_user ≠ none →
          s1.logged_in_user ≠ s2.logged_in_user →
          (is_upper m1 → ¬ turn_refused (r2.memory.board g) s1.logged_in_user
            ∧ turn_refused (r2.memory.board g) s2.logged_in_user)
          ∧ (is_upper m2 → ¬ turn_refused (r2.memory.board g) s2.logged_in_user
            ∧ turn_refused (r2.memory.board g) s1.logged_in_user)) := by
  obtain ⟨_, _, hbuf, g', _, hsess, hreply, haddr⟩ :=
    create_success_inv buffer1 s1 games mem env r1 hcreate hok
  have hgg : g' = g := by
    simp only [matched_board, hsess, Option.some.injEq] at hg
    exact hg
  rw [hgg] at haddr
  obtain ⟨_, _, _, _, _, hboard, _, _, _⟩ := add_returns_zero _ _ _ _ _ _ haddr
  have hb1 : r1.memory.board g
      = { created_board s1 env with index := games.number_of_elements } := by
    rw [hboard]
    simp only [Function.update_same]
  have hb : mem2.board g = { created_board s1 env with index := games.number_of_elements } := by
    rw [hsame, hb1]
  obtain ⟨roll, which, p, v', hscan, hbuf2, hsess2, hmem2⟩ :=
    join_success_inv buffer2 s2 games2 mem2 draws lock_rc unlock_rc r2 hjoin hret
  have hpg : p = g := by
    simp only [matched_board, hsess2, Option.some.injEq] at hmatch
    exact hmatch
  rw [hpg] at hscan hbuf2 hsess2 hmem2
  obtain ⟨_, _, hslot⟩ := join_scan_found _ _ _ _ _ _ _ _ _ _ _ hscan
  obtain ⟨_, hsize, _, hslots, hmark⟩ := created_board_spec s1 env
  have hsize2 : (mem2.board g).board_size = BOARD_SIZE := by
    rw [hb]
    exact hsize
  rw [hsize2] at hbuf2
  have hp1 : (mem2.board g).player_1 = (created_board s1 env).player_1 := by rw [hb]
  have hp2 : (mem2.board g).player_2 = (created_board s1 env).player_2 := by rw [hb]
  have ht : (mem2.board g).whose_turn = (created_board s1 env).whose_turn := by rw [hb]
  have ht1 : (r1.memory.board g).whose_turn = (created_board s1 env).whose_turn := by rw [hb1]
  have hafter : r2.memory.board g
      = occupy_slot (mem2.board g) which s2.logged_in_user s2.fd := by
    rw [hmem2]
    simp only [write_joiner, Function.update_same]
  have hturn2 : (r2.memory.board g).whose_turn = (created_board s1 env).whose_turn := by
    rw [hafter, ← ht]
    unfold occupy_slot
    split <;> rfl
  refine ⟨created_mark s1 env, join_mark which (mem2.board g).whose_turn, ?_, ?_, ?_, ?_, ?_⟩
  · rw [hreply]
    exact created_reply_take buffer1 s1 env hbuf
  · rw [hbuf2]
    exact join_reply_take buffer2 _ hlen
  · rw [hturn2, ht1]
  · rw [hturn2, ht]
    rcases hslot with ⟨hw, hnone⟩ | ⟨hw, hsome, _⟩
    · rw [hp1] at hnone
      rcases hmark with ⟨q, _, _⟩ | ⟨_, m, t⟩ | ⟨_, m, t⟩
      · exact absurd hnone q
      · right
        rw [m, t, hw]
        decide
      · left
        rw [m, t, hw]
        decide
    · rw [hp1] at hsome
      rcases hmark with ⟨_, m, t⟩ | ⟨q, _, _⟩ | ⟨q, _, _⟩
      · right
        rw [m, t, hw]
        decide
      · exact absurd q hsome
      · exact absurd q hsome
  · intro hu1 hu2 hdiff
    have hturn : (r2.memory.board g).whose_turn = (created_board s1 env).whose_turn := hturn2
    rcases hslot with ⟨hw, hnone⟩ | ⟨hw, hsome, hnone2⟩
    · have hq1 : (r2.memory.board g).player_1 = s2.logged_in_user := by
        rw [hafter, hw]
        rfl
      have hq2 : (r2.memory.board g).player_2 = s1.logged_in_user := by
        rw [hafter, hw]
        show (mem2.board g).player_2 = _
        rw [hp2]
        rw [hp1] at hnone
        rcases hslots with ⟨a, _⟩ | ⟨_, b⟩
        · rw [hnone] at a
          exact absurd a.symm hu1
        · exact b
      rw [hp1] at hnone
      rcases hmark with ⟨q, _, _⟩ | ⟨_, m, t⟩ | ⟨_, m, t⟩
      · exact absurd hnone q
      · rw [m, ht, t, hw]
        simp only [turn_refused, hq1, hq2, hturn, t]
        refine ⟨fun h => absurd h (by decide), fun _ => ⟨?_, ?_⟩⟩
        · rintro (⟨_, e⟩ | ⟨e, _⟩)
          · exact absurd e (by decide)
          · exact hdiff e
        · exact Or.inr ⟨trivial, trivial⟩
      · rw [m, ht, t, hw]
        simp only [turn_refused, hq1, hq2, hturn, t]
        refine ⟨fun _ => ⟨?_, ?_⟩, fun h => absurd h (by decide)⟩
        · rintro (⟨e, _⟩ | ⟨_, e⟩)
          · exact hdiff e.symm
          · exact absurd e (by decide)
        · exact Or.inl ⟨trivial, trivial⟩
    · have hw1 : which ≠ 0 := by omega
      have hq1 : (r2.memory.board g).player_1 = s1.logged_in_user := by
        rw [hafter]
        unfold occupy_slot
        rw [if_neg hw1]
        show (mem2.board g).player_1 = _
        rw [hp1]
        rw [hp1] at hsome
        rcases hslots with ⟨a, _⟩ | ⟨a, _⟩
        · exact a
        · exact absurd a hsome
      have hq2 : (r2.memory.board g).player_2 = s2.logged_in_user := by
        rw [hafter]
        unfold occupy_slot
        rw [if_neg hw1]
      rw [hp1] at hsome
      rcases hmark with ⟨_, m, t⟩ | ⟨q, _, _⟩ | ⟨q, _, _⟩
      · rw [m, ht, t, hw]
        simp only [turn_refused, hq1, hq2, hturn, t]
        refine ⟨fun h => absurd h (by decide), fun _ => ⟨?_, ?_⟩⟩
        · rintro (⟨e, _⟩ | ⟨_, e⟩)
          · exact hdiff e
          · exact absurd e (by decide)
        · exact Or.inl ⟨trivial, trivial⟩
      · exact absurd q hsome
      · exact absurd q hsome
set_option maxRecDepth 100000 in
/-- C37 applied: user 7 creates the board at address 20 and gets the lowercase mark
`'o'`; user 8 then joins it and gets the uppercase mark `'X'`, and `'x'` is to move. -/
theorem C37_one_player_begins_witness :
    ∃ r1 r2 m1 m2,
      create_new_game_request (request_buffer [CREATE_NEW_GAME_REQUEST])
        (some (lobby_session 7 4)) empty_registry fresh_memory (create_at 20) = some r1
      ∧ join_random_game_request (request_buffer [JOIN_RANDOM_GAME_REQUEST])
        (some (lobby_session 8 5)) created_registry created_memory [0] 0 0 = some r2
      ∧ r1.buffer.take 4 = [CREATE_NEW_GAME_SUCCESS, m1, ch_3, 0]
      ∧ r2.buffer.take 4 = [JOIN_RANDOM_GAME_REPLY, m2, ch_3, 0]
      ∧ ((is_upper m1 ∧ ¬ is_upper m2 ∧ to_lower m1 = (r2.memory.board 20).whose_turn)
        ∨ (¬ is_upper m1 ∧ is_upper m2 ∧ to_lower m2 = (r2.memory.board 20).whose_turn))
      ∧ (is_upper m2 → ¬ turn_refused (r2.memory.board 20) (some 8)
            ∧ turn_refused (r2.memory.board 20) (some 7)) :=
  match hc : create_new_game_request (request_buffer [CREATE_NEW_GAME_REQUEST])
      (some (lobby_session 7 4)) empty_registry fresh_memory (create_at 20),
    hj : join_random_game_request (request_buffer [JOIN_RANDOM_GAME_REQUEST])
      (some (lobby_session 8 5)) created_registry created_memory [0] 0 0 with
  | some r1, some r2 =>
    have hfacts : r1.ret = CREATE_NEW_GAME_SUCCESS ∧ matched_board r1 = some 20
        ∧ created_memory.board 20 = r1.memory.board 20 := by
      have h : (create_new_game_request (request_buffer [CREATE_NEW_GAME_REQUEST])
          (some (lobby_session 7 4)) empty_registry fresh_memory (create_at 20)).map
            (fun r => (r.ret, matched_board r, r.memory.board 20))
          = some (CREATE_NEW_GAME_SUCCESS, some 20, created_memory.board 20) := by decide
      rw [hc] at h
      simp only [Option.map_some', Option.some.injEq, Prod.mk.injEq] at h
      exact ⟨h.1, h.2.1, h.2.2.symm⟩
    have hfacts2 : r2.ret = JOIN_RANDOM_GAME_REPLY ∧ matched_board r2 = some 20 := by
      have h : (join_random_game_request (request_buffer [JOIN_RANDOM_GAME_REQUEST])
          (some (lobby_session 8 5)) created_registry created_memory [0] 0 0).map
            (fun r => (r.ret, matched_board r))
          = some (JOIN_RANDOM_GAME_REPLY, some 20) := by decide
      rw [hj] at h
      simp only [Option.map_some', Option.some.injEq, Prod.mk.injEq] at h
      exact h
    match C37_one_player_begins _ (request_buffer [JOIN_RANDOM_GAME_REQUEST])
        (lobby_session 7 4) (lobby_session 8 5) _ _ _ _ _ _ _ _ r1 r2 20 hc hfacts.1
        hfacts.2.1 hfacts.2.2 hj hfacts2.1 hfacts2.2 (by decide) with
    | ⟨m1, m2, h1, h2, _, h4, h5⟩ =>
      ⟨r1, r2, m1, m2, rfl, rfl, h1, h2, h4,
        (h5 (by decide) (by decide) (by decide)).2⟩
  | none, _ => by
    have h : (create_new_game_request (request_buffer [CREATE_NEW_GAME_REQUEST])
        (some (lobby_session 7 4)) empty_registry fresh_memory (create_at 20)).isSome
          = true := by decide
    rw [hc] at h
    exact absurd h (by decide)
  | some _, none => by
    have h : (join_random_game_request (request_buffer [JOIN_RANDOM_GAME_REQUEST])
        (some (lobby_session 8 5)) created_registry created_memory [0] 0 0).isSome
          = true := by decide
    rw [hj] at h
    exact absurd h (by decide)

/-! ## The matchmaking scan is bounded -/

/-- The examined positions of a scan: each is below `size`, had a clear marker when the
scan started, none occurs twice, and together with the `i` boards counted before they
are at most `size`. -/
theorem scan_examined_spec (a : game_boards_array) (mem : board_memory) (size : Nat) :
    ∀ (draws : List Nat) (i rp : Nat) (v : Option (List Nat)),
      (∀ k ∈ scan_examined a mem size draws i rp v,
        k < size ∧ ∃ vl, v = some vl ∧ vl[k]? = some 0)
      ∧ (scan_examined a mem size draws i rp v).Nodup
      ∧ (i ≤ size → (scan_examined a mem size draws i rp v).length + i ≤ size) := by
  intro draws
  induction draws with
  | nil =>
    intro i rp v
    simp [scan_examined]
  | cons d rest ih =>
    intro i rp v
    simp only [scan_examined]
    by_cases h1 : i = size
    · simp [h1]
    rw [if_neg h1]
    by_cases h2 : size = 0
    · simp [h2]
    rw [if_neg h2]
    by_cases h3 : d % size = rp
    · rw [if_pos h3]
      exact ih i rp v
    rw [if_neg h3]
    cases v with
    | none => simp
    | some vl =>
      simp only
      cases hflag : vl[d % size]? with
      | none => simp
      | some flag =>
        simp only
        by_cases h4 : flag ≠ 0
        · rw [if_pos h4]
          exact ih i rp (some vl)
        rw [if_neg h4]
        have hzero : flag = 0 := by
          by_contra e
          exact h4 e
        have hlt : d % size < size := Nat.mod_lt _ (Nat.pos_of_ne_zero h2)
        have hone : ∀ k ∈ [d % size], k < size ∧ ∃ vl', some vl = some vl' ∧ vl'[k]? = some 0 := by
          intro k hk
          rw [List.mem_singleton] at hk
          rw [hk]
          exact ⟨hlt, vl, rfl, by rw [hflag, hzero]⟩
        have hbound : i ≤ size → [d % size].length + i ≤ size := by
          intro hi
          simp only [List.length_singleton]
          omega
        cases hslot : a.array[d % size]? with
        | none => simp
        | some q =>
          cases q with
          | none => simp
          | some p =>
            simp only
            by_cases h5 : (mem.board p).player_1 = none
            · rw [if_pos h5]
              exact ⟨hone, List.nodup_singleton _, hbound⟩
            rw [if_neg h5]
            by_cases h6 : (mem.board p).player_2 = none
            · rw [if_pos h6]
              exact ⟨hone, List.nodup_singleton _, hbound⟩
            rw [if_neg h6]
            obtain ⟨ih1, ih2, ih3⟩ := ih (i + 1) (d % size) (some (vl.set (d % size) 1))
            have hrl : d % size < vl.length := (List.getElem?_eq_some_iff.1 hflag).1
            have hnotin : d % size ∉ scan_examined a mem size rest (i + 1) (d % size)
                (some (vl.set (d % size) 1)) := by
              intro hin
              obtain ⟨_, vl', hv, hk⟩ := ih1 _ hin
              simp only [Option.some.injEq] at hv
              rw [← hv] at hk
              simp [hrl] at hk
            refine ⟨?_, List.nodup_cons.2 ⟨hnotin, ih2⟩, ?_⟩
            · intro k hk
              rcases List.mem_cons.1 hk with e | hin
              · rw [e]
                exact ⟨hlt, vl, rfl, by rw [hflag, hzero]⟩
              · obtain ⟨hk1, vl', hv, hk2⟩ := ih1 k hin
                simp only [Option.some.injEq] at hv
                rw [← hv] at hk2
                have hne : d % size ≠ k := by
                  intro e
                  rw [← e] at hin
                  exact hnotin hin
                rw [List.getElem?_set_ne hne] at hk2
                exact ⟨hk1, vl, rfl, hk2⟩
            · intro hi
              have := ih3 (by omega)
              simp only [List.length_cons]
              omega
theorem set_markers_cons (v : List Nat) (k : Nat) (ks : List Nat) :
    set_markers v (k :: ks) = set_markers (v.set k 1) ks := rfl

/-- The trace `scan_examined` describes what `join_scan` does: the markers the scan
leaves are the ones it started with, set at the examined positions; a scan that ends with
`i == size` has examined `size - i` positions; a scan that ends at a `break` has examined
last the position it found. -/
theorem scan_examined_link (a : game_boards_array) (mem : board_memory) (size : Nat) :
    ∀ (draws : List Nat) (i rp : Nat) (v : Option (List Nat)) (o : scan_outcome),
      join_scan a mem size draws i rp v = some o →
      o.markers = v.map (fun vl => set_markers vl (scan_examined a mem size draws i rp v))
      ∧ (∀ w, o = scan_outcome.exhausted w →
          (scan_examined a mem size draws i rp v).length + i = size)
      ∧ (∀ roll which p w, o = scan_outcome.found roll which p w →
          (scan_examined a mem size draws i rp v).getLast? = some roll
          ∧ a.array[roll]? = some (some p)) := by
  intro draws
  induction draws with
  | nil =>
    intro i rp v o h
    simp only [join_scan] at h
    by_cases h1 : i = size
    · rw [if_pos h1] at h
      simp only [Option.some.injEq] at h
      rw [← h]
      refine ⟨?_, ?_, ?_⟩
      · cases v <;> rfl
      · intro w _
        simp [scan_examined, h1]
      · intro roll which p w e
        exact scan_outcome.noConfusion e
    · rw [if_neg h1] at h
      exact Option.noConfusion h
  | cons d rest ih =>
    intro i rp v o h
    simp only [join_scan] at h
    simp only [scan_examined]
    by_cases h1 : i = size
    · rw [if_pos h1] at h
      simp only [Option.some.injEq] at h
      rw [← h, if_pos h1]
      refine ⟨?_, ?_, ?_⟩
      · cases v <;> rfl
      · intro w _
        simp [h1]
      · intro roll which p w e
        exact scan_outcome.noConfusion e
    rw [if_neg h1] at h
    rw [if_neg h1]
    by_cases h2 : size = 0
    · rw [if_pos h2] at h
      exact Option.noConfusion h
    rw [if_neg h2] at h
    rw [if_neg h2]
    by_cases h3 : d % size = rp
    · rw [if_pos h3] at h
      rw [if_pos h3]
      exact ih i rp v o h
    rw [if_neg h3] at h
    rw [if_neg h3]
    cases v with
    | none => exact Option.noConfusion h
    | some vl =>
      simp only at h
      simp only
      cases hflag : vl[d % size]? with
      | none =>
        rw [hflag] at h
        exact Option.noConfusion h
      | some flag =>
        rw [hflag] at h
        simp only at h
        simp only
        by_cases h4 : flag ≠ 0
        · rw [if_pos h4] at h
          rw [if_pos h4]
          exact ih i rp (some vl) o h
        rw [if_neg h4] at h
        rw [if_neg h4]
        cases hslot : a.array[d % size]? with
        | none =>
          rw [hslot] at h
          exact Option.noConfusion h
        | some q =>
          rw [hslot] at h
          cases q with
          | none => exact Option.noConfusion h
          | some p =>
            simp only at h
            simp only
            by_cases h5 : (mem.board p).player_1 = none
            · rw [if_pos h5] at h
              rw [if_pos h5]
              simp only [Option.some.injEq] at h
              rw [← h]
              refine ⟨rfl, ?_, ?_⟩
              · intro w e
                exact scan_outcome.noConfusion e
              · intro roll which p' w e
                simp only [scan_outcome.found.injEq] at e
                rw [← e.1, ← e.2.2.1]
                exact ⟨rfl, hslot⟩
            rw [if_neg h5] at h
            rw [if_neg h5]
            by_cases h6 : (mem.board p).player_2 = none
            · rw [if_pos h6] at h
              rw [if_pos h6]
              simp only [Option.some.injEq] at h
              rw [← h]
              refine ⟨rfl, ?_, ?_⟩
              · intro w e
                exact scan_outcome.noConfusion e
              · intro roll which p' w e
                simp only [scan_outcome.found.injEq] at e
                rw [← e.1, ← e.2.2.1]
                exact ⟨rfl, hslot⟩
            rw [if_neg h6] at h
            rw [if_neg h6]
            obtain ⟨ih1, ih2, ih3⟩ := ih (i + 1) (d % size) (some (vl.set (d % size) 1)) o h
            refine ⟨?_, ?_, ?_⟩
            · rw [ih1]
              rfl
            · intro w e
              have := ih2 w e
              simp only [List.length_cons]
              omega
            · intro roll which p' w e
              obtain ⟨hl, hp⟩ := ih3 roll which p' w e
              refine ⟨?_, hp⟩
              cases hT : scan_examined a mem size rest (i + 1) (d % size)
                  (some (vl.set (d % size) 1)) with
              | nil =>
                rw [hT] at hl
                exact Option.noConfusion hl
              | cons t ts =>
                rw [hT] at hl
                rw [List.getLast?_cons_cons]
                exact hl
theorem set_markers_high (n : Nat) :
    ∀ (ks : List Nat) (v : List Nat), (∀ k ∈ ks, k < n) →
      ∀ j, n ≤ j → (set_markers v ks)[j]? = v[j]? := by
  intro ks
  induction ks with
  | nil =>
    intro v _ j _
    rfl
  | cons k ks ih =>
    intro v hk j hj
    rw [set_markers_cons, ih (v.set k 1) (fun x hx => hk x (List.mem_cons_of_mem _ hx)) j hj]
    have hlt : k < n := hk k (List.mem_cons_self _ _)
    exact List.getElem?_set_ne (by omega)

/-- Clearing the first `n` markers after a scan that started with clear markers and
marked positions below `n` leaves every marker clear. -/
theorem clear_markers_clear (v : Option (List Nat)) (ks : List Nat) (n : Nat)
    (c : Option (List Nat)) (hclear : markers_clear v) (hks : ∀ k ∈ ks, k < n)
    (h : clear_markers (v.map (fun vl => set_markers vl ks)) n = some c) :
    markers_clear c := by
  unfold clear_markers at h
  by_cases h0 : n = 0
  · rw [if_pos h0] at h
    have hnil : ks = [] := by
      cases ks with
      | nil => rfl
      | cons k _ =>
        have := hks k (List.mem_cons_self _ _)
        omega
    rw [hnil] at h
    simp only [Option.some.injEq] at h
    rw [← h]
    intro vl hv f hf
    cases v with
    | none => exact Option.noConfusion hv
    | some vl0 =>
      simp only [Option.map_some', Option.some.injEq] at hv
      rw [← hv] at hf
      exact hclear vl0 rfl f hf
  · rw [if_neg h0] at h
    cases v with
    | none => exact Option.noConfusion h
    | some vl0 =>
      simp only [Option.map_some'] at h
      by_cases hlen : n ≤ (set_markers vl0 ks).length
      · rw [if_pos hlen] at h
        simp only [Option.some.injEq] at h
        rw [← h]
        intro vl hv f hf
        simp only [Option.some.injEq] at hv
        rw [← hv] at hf
        rcases List.mem_append.1 hf with hz | hd
        · exact (List.mem_replicate.1 hz).2
        · obtain ⟨j, hj⟩ := List.mem_iff_getElem?.1 hd
          rw [List.getElem?_drop, set_markers_high n ks vl0 hks (n + j) (by omega)] at hj
          exact hclear vl0 rfl f (List.mem_iff_getElem?.2 ⟨n + j, hj⟩)
      · rw [if_neg hlen] at h
        exact Option.noConfusion h

/-- The markers a call of `join_random_game_request` leaves: the registry as it was when
no scan took place, else the markers of the scan outcome with the first
`number_of_elements` of them cleared. -/
theorem join_markers_inv (buffer : List Nat) (s : session_record)
    (games : game_boards_array) (mem : board_memory) (draws : List Nat) (lock_rc unlock_rc : Int)
    (r : handler_result)
    (h : join_random_game_request buffer (some s) games mem draws lock_rc unlock_rc = some r) :
    (join_examined s games mem draws lock_rc = [] ∧ r.games = games
      ∧ r.ret ≠ NO_GAMES_AVAILABLE ∧ r.ret ≠ JOIN_RANDOM_GAME_REPLY)
    ∨ (join_examined s games mem draws lock_rc
        = scan_examined games mem games.number_of_elements draws 0 UINT_MAX games.visited
      ∧ ∃ o, join_scan games mem games.number_of_elements draws 0 UINT_MAX games.visited
          = some o
        ∧ clear_markers o.markers games.number_of_elements = some r.games.visited
        ∧ (r.ret = NO_GAMES_AVAILABLE → ∃ w, o = scan_outcome.exhausted w)
        ∧ (r.ret = JOIN_RANDOM_GAME_REPLY →
            ∃ roll which p w, o = scan_outcome.found roll which p w
              ∧ matched_board r = some p)) := by
  have e1 : INVALID_REQUEST ≠ NO_GAMES_AVAILABLE := by decide
  have e2 : INVALID_REQUEST ≠ JOIN_RANDOM_GAME_REPLY := by decide
  have e3 : INTERNAL_SERVER_ERROR ≠ NO_GAMES_AVAILABLE := by decide
  have e4 : INTERNAL_SERVER_ERROR ≠ JOIN_RANDOM_GAME_REPLY := by decide
  have e5 : NO_GAMES_AVAILABLE ≠ JOIN_RANDOM_GAME_REPLY := by decide
  have e6 : JOIN_RANDOM_GAME_REPLY ≠ NO_GAMES_AVAILABLE := by decide
  simp only [join_random_game_request] at h
  unfold join_examined
  by_cases h1 : s.session_present = 0 ∨ s.current_game ≠ none
  · rw [if_pos h1] at h
    rw [if_pos h1]
    simp only [Option.some.injEq] at h
    rw [← h]
    exact Or.inl ⟨rfl, rfl, e1, e2⟩
  rw [if_neg h1] at h
  rw [if_neg h1]
  by_cases h2 : lock_rc ≠ 0
  · rw [if_pos h2] at h
    rw [if_pos h2]
    simp only [Option.some.injEq] at h
    rw [← h]
    exact Or.inl ⟨rfl, rfl, e3, e4⟩
  rw [if_neg h2] at h
  rw [if_neg h2]
  right
  refine ⟨rfl, ?_⟩
  cases hscan : join_scan games mem games.number_of_elements draws 0 UINT_MAX games.visited with
  | none =>
    rw [hscan] at h
    exact Option.noConfusion h
  | some o =>
    rw [hscan] at h
    refine ⟨o, rfl, ?_⟩
    cases o with
    | exhausted w =>
      simp only at h
      cases hclear : clear_markers w games.number_of_elements with
      | none =>
        rw [hclear] at h
        exact Option.noConfusion h
      | some cleared =>
        rw [hclear] at h
        by_cases h3 : unlock_rc ≠ 0
        · simp only [if_pos h3, Option.some.injEq] at h
          rw [← h]
          exact ⟨hclear, fun e => absurd e e3, fun e => absurd e e4⟩
        · simp only [if_neg h3, Option.some.injEq] at h
          rw [← h]
          exact ⟨hclear, fun _ => ⟨w, rfl⟩, fun e => absurd e e5⟩
    | found roll which p w =>
      simp only at h
      cases hclear : clear_markers w games.number_of_elements with
      | none =>
        rw [hclear] at h
        exact Option.noConfusion h
      | some cleared =>
        rw [hclear] at h
        by_cases h3 : unlock_rc ≠ 0
        · simp only [if_pos h3, Option.some.injEq] at h
          rw [← h]
          exact ⟨hclear, fun e => absurd e e3, fun e => absurd e e4⟩
        · have hlen : (decimal ((write_joiner mem p which s.logged_in_user s.fd).board
              p).board_size).length > 0 := List.length_pos.2 (decimal_ne_nil _)
          simp only [if_neg h3, if_pos hlen, Option.some.injEq] at h
          rw [← h]
          exact ⟨hclear, fun e => absurd e e6, fun _ => ⟨roll, which, p, w, rfl, rfl⟩⟩

/-- Claim C33. For every registry whose markers are clear, every memory and every
sequence of random draws, the positions one call of `join_random_game_request` examines
(marks and inspects the slots of) are positions below the count `n`, pairwise different
and at most `n` in number; when the call returns, with whatever reply code, every marker
is clear again. The examined positions are those of the code's scan: a call that returns
`NO_GAMES_AVAILABLE` has examined `n` positions, and a call that returns
`JOIN_RANDOM_GAME_REPLY` has examined last the position of the board it matched. -/
theorem C33_bounded_scan (buffer : List Nat) (s : session_record)
    (games : game_boards_array) (mem : board_memory) (draws : List Nat) (lock_rc unlock_rc : Int)
    (r : handler_result)
    (hclear : markers_clear games.visited)
    (h : join_random_game_request buffer (some s) games mem draws lock_rc unlock_rc = some r) :
    (join_examined s games mem draws lock_rc).length ≤ games.number_of_elements
    ∧ (join_examined s games mem draws lock_rc).Nodup
    ∧ (∀ k ∈ join_examined s games mem draws lock_rc, k < games.number_of_elements)
    ∧ markers_clear r.games.visited
    ∧ (r.ret = NO_GAMES_AVAILABLE →
        (join_examined s games mem draws lock_rc).length = games.number_of_elements)
    ∧ (r.ret = JOIN_RANDOM_GAME_REPLY →
        ∃ roll p, (join_examined s games mem draws lock_rc).getLast? = some roll
          ∧ games.array[roll]? = some (some p) ∧ matched_board r = some p) := by
  obtain ⟨hin, hnodup, hlen⟩ := scan_examined_spec games mem games.number_of_elements draws 0
    UINT_MAX games.visited
  rcases join_markers_inv buffer s games mem draws lock_rc unlock_rc r h with
    ⟨hT, hg, hn1, hn2⟩ | ⟨hT, o, hscan, hcl, hex, hfound⟩
  · rw [hT, hg]
    exact ⟨Nat.zero_le _, List.nodup_nil, fun k hk => absurd hk (List.not_mem_nil k), hclear,
      fun e => absurd e hn1, fun e => absurd e hn2⟩
  · rw [hT]
    obtain ⟨hm, hl1, hl2⟩ := scan_examined_link games mem games.number_of_elements draws 0
      UINT_MAX games.visited o hscan
    refine ⟨by have := hlen (Nat.zero_le _); omega, hnodup, fun k hk => (hin k hk).1, ?_, ?_, ?_⟩
    · rw [hm] at hcl
      exact clear_markers_clear games.visited _ _ _ hclear (fun k hk => (hin k hk).1) hcl
    · intro e
      obtain ⟨w, hw⟩ := hex e
      have := hl1 w hw
      omega
    · intro e
      obtain ⟨roll, which, p, w, hw, hmatch⟩ := hfound e
      obtain ⟨hlast, hp⟩ := hl2 roll which p w hw
      exact ⟨roll, p, hlast, hp, hmatch⟩
set_option maxRecDepth 100000 in
/-- C33 applied: on the registry of the boards at 10, 11, 12, all with both slots
occupied, the draws 0, 0, 1, 2 make the scan examine the positions 0, 1, 2, once each;
the call returns `NO_GAMES_AVAILABLE` and leaves every marker clear. -/
theorem C33_bounded_scan_witness :
    ∃ r, join_random_game_request (request_buffer [JOIN_RANDOM_GAME_REQUEST])
        (some (lobby_session 7 9)) three_game_registry full_memory [0, 0, 1, 2] 0 0 = some r
      ∧ join_examined (lobby_session 7 9) three_game_registry full_memory [0, 0, 1, 2] 0
        = [0, 1, 2]
      ∧ (join_examined (lobby_session 7 9) three_game_registry full_memory [0, 0, 1, 2]
          0).length ≤ three_game_registry.number_of_elements
      ∧ (join_examined (lobby_session 7 9) three_game_registry full_memory [0, 0, 1, 2]
          0).Nodup
      ∧ markers_clear r.games.visited :=
  match hj : join_random_game_request (request_buffer [JOIN_RANDOM_GAME_REQUEST])
      (some (lobby_session 7 9)) three_game_registry full_memory [0, 0, 1, 2] 0 0 with
  | some r =>
    have hclear : markers_clear three_game_registry.visited := by
      intro v hv f hf
      have hv3 : v = [0, 0, 0] := by
        have e : three_game_registry.visited = some [0, 0, 0] := rfl
        rw [e] at hv
        exact (Option.some.inj hv).symm
      rw [hv3] at hf
      simp only [List.mem_cons, List.mem_singleton, List.not_mem_nil, or_false, or_self] at hf
      exact hf
    match C33_bounded_scan _ (lobby_session 7 9) three_game_registry full_memory
        [0, 0, 1, 2] 0 0 r hclear hj with
    | ⟨h1, h2, _, h4, _, _⟩ => ⟨r, rfl, by decide, h1, h2, h4⟩
  | none => by
    have h : (join_random_game_request (request_buffer [JOIN_RANDOM_GAME_REQUEST])
        (some (lobby_session 7 9)) three_game_registry full_memory [0, 0, 1, 2] 0 0).isSome
          = true := by decide
    rw [hj] at h
    exact absurd h (by decide)

/-! ## What the request handlers do to a board -/

theorem tie_or_flip_effect (b : game_board) (c j0 : Nat) (r : Int) (b1 : game_board)
    (h : tie_or_flip b c j0 = some (r, b1)) :
    ∃ t, b1 = { b with whose_turn := t }
      ∧ (t = to_won_state c ∨ t = ch_D ∨ t = if c = ch_x then ch_o else ch_x) := by
  unfold tie_or_flip at h
  cases ht : tie_outer b.matrix b.board_size (b.board_size + 1) 0 j0 with
  | none => rw [ht] at h; exact absurd h (by simp)
  | some ij =>
    obtain ⟨i, j⟩ := ij
    rw [ht] at h
    simp only at h
    by_cases hc : i = b.board_size ∧ j = b.board_size
    · rw [if_pos hc] at h
      injection h with h
      injection h with _ h
      exact ⟨_, h.symm, Or.inr (Or.inl rfl)⟩
    · rw [if_neg hc] at h
      injection h with h
      injection h with _ h
      exact ⟨_, h.symm, Or.inr (Or.inr rfl)⟩

theorem diagonals_then_tie_effect (b : game_board) (x y c : Nat) (r : Int) (b1 : game_board)
    (h : diagonals_then_tie b x y c = some (r, b1)) :
    ∃ t, b1 = { b with whose_turn := t }
      ∧ (t = to_won_state c ∨ t = ch_D ∨ t = if c = ch_x then ch_o else ch_x) := by
  unfold diagonals_then_tie at h
  simp only at h
  by_cases hd : x = y ∨ y = size_sub b.board_size x
  · rw [if_pos hd] at h
    cases hs : scan_line b.matrix b.board_size (fun i => cell_index b.board_size i i) c
        (b.board_size + 1) 0 with
    | none => rw [hs] at h; exact absurd h (by simp)
    | some i =>
      rw [hs] at h
      simp only at h
      by_cases hi : i = b.board_size
      · rw [if_pos hi] at h
        injection h with h
        injection h with _ h
        exact ⟨_, h.symm, Or.inl rfl⟩
      · rw [if_neg hi] at h
        cases ha : anti_loop b.matrix b.board_size c (b.board_size + 1) 0
            (size_sub b.board_size 1) with
        | none => rw [ha] at h; exact absurd h (by simp)
        | some ij =>
          obtain ⟨i1, j1⟩ := ij
          rw [ha] at h
          simp only at h
          by_cases hj : j1 = 0
          · rw [if_pos hj] at h
            cases hm : b.matrix[cell_index b.board_size (size_sub i1 1) j1]? with
            | none => rw [hm] at h; exact absurd h (by simp)
            | some v =>
              rw [hm] at h
              simp only at h
              by_cases hv : v = c
              · rw [if_pos hv] at h
                injection h with h
                injection h with _ h
                exact ⟨_, h.symm, Or.inl rfl⟩
              · rw [if_neg hv] at h
                exact tie_or_flip_effect b c j1 r b1 h
          · rw [if_neg hj] at h
            exact tie_or_flip_effect b c j1 r b1 h
  · rw [if_neg hd] at h
    exact tie_or_flip_effect b c 0 r b1 h

theorem after_write_effect (b : game_board) (x y c : Nat) (r : Int) (b1 : game_board)
    (h : after_write b x y c = some (r, b1)) :
    ∃ t, b1 = { b with whose_turn := t }
      ∧ (t = to_won_state c ∨ t = ch_D ∨ t = if c = ch_x then ch_o else ch_x) := by
  unfold after_write at h
  simp only at h
  cases hs : scan_line b.matrix b.board_size (fun i => cell_index b.board_size x i) c
      (b.board_size + 1) 0 with
  | none => rw [hs] at h; exact absurd h (by simp)
  | some i =>
    rw [hs] at h
    simp only at h
    by_cases hi : i = b.board_size
    · rw [if_pos hi] at h
      injection h with h
      injection h with _ h
      exact ⟨_, h.symm, Or.inl rfl⟩
    · rw [if_neg hi] at h
      cases hs2 : scan_line b.matrix b.board_size (fun i => cell_index b.board_size i y) c
          (b.board_size + 1) 0 with
      | none => rw [hs2] at h; exact absurd h (by simp)
      | some i2 =>
        rw [hs2] at h
        simp only at h
        by_cases hi2 : i2 = b.board_size
        · rw [if_pos hi2] at h
          injection h with h
          injection h with _ h
          exact ⟨_, h.symm, Or.inl rfl⟩
        · rw [if_neg hi2] at h
          exact diagonals_then_tie_effect b x y c r b1 h

/-- What a call of `write_x_or_o` does to the board: nothing, or the mover's mark, which
is the turn state, goes into one cell that held neither `'x'` nor `'o'`, and the turn
state becomes the won state, the tie state or the other mark. -/
theorem write_effect (b b1 : game_board) (x y c : Nat) (rv : Int)
    (h : write_x_or_o (some b) x y c = some (rv, some b1)) :
    b1 = b
    ∨ (b.whose_turn = c ∧ (c = ch_x ∨ c = ch_o)
      ∧ ∃ idx v t, b.matrix[idx]? = some v ∧ v ≠ ch_x ∧ v ≠ ch_o
        ∧ b1 = { b with matrix := b.matrix.set idx c, whose_turn := t }
        ∧ (t = to_won_state c ∨ t = ch_D ∨ t = if c = ch_x then ch_o else ch_x)) := by
  unfold write_x_or_o at h
  simp only at h
  by_cases h0 : c = 0
  · rw [if_pos h0] at h
    injection h with h
    injection h with _ h
    injection h with h
    exact Or.inl h.symm
  · rw [if_neg h0] at h
    by_cases ht : b.whose_turn ≠ c
    · rw [if_pos ht] at h
      injection h with h
      injection h with _ h
      injection h with h
      exact Or.inl h.symm
    · rw [if_neg ht] at h
      by_cases hr : x > size_sub b.board_size 1 ∨ y > size_sub b.board_size 1
      · rw [if_pos hr] at h
        injection h with h
        injection h with _ h
        injection h with h
        exact Or.inl h.symm
      · rw [if_neg hr] at h
        cases hm : b.matrix[cell_index b.board_size x y]? with
        | none => rw [hm] at h; exact absurd h (by simp)
        | some v =>
          rw [hm] at h
          simp only at h
          by_cases hv : v ≠ ch_x ∧ v ≠ ch_o ∧ (c = ch_x ∨ c = ch_o)
          · rw [if_pos hv] at h
            cases ha : after_write
                { b with matrix := b.matrix.set (cell_index b.board_size x y) c } x y c with
            | none => rw [ha] at h; exact absurd h (by simp)
            | some rb =>
              obtain ⟨r2, b2⟩ := rb
              rw [ha] at h
              simp only at h
              injection h with h
              injection h with _ h
              injection h with h
              obtain ⟨t, hb2, htt⟩ := after_write_effect _ x y c r2 b2 ha
              refine Or.inr ⟨not_not.mp ht, hv.2.2, cell_index b.board_size x y, v, t, hm,
                hv.1, hv.2.1, ?_, htt⟩
              rw [← h, hb2]
          · rw [if_neg hv] at h
            injection h with h
            injection h with _ h
            injection h with h
            exact Or.inl h.symm

theorem finish_action_board (buffer : List Nat) (s : session_details) (g1 : game_board)
    (x y errno : Nat) (unlock_rc : Int) :
    ∃ t1, (finish_action buffer s g1 x y errno unlock_rc).session = some t1
      ∧ t1.current_game = some (record_last_move s.logged_in_user g1 x y) := by
  unfold finish_action
  simp only
  split
  · split
    · exact ⟨_, rfl, rfl⟩
    · exact ⟨_, rfl, rfl⟩
  · split
    · exact ⟨_, rfl, rfl⟩
    · exact ⟨_, rfl, rfl⟩

/-- The board `action_request` leaves: the one it found, or the one a call of
`write_x_or_o` left, made while both slots were occupied and the turn state was neither
0 nor `'D'`, with or without the mover's last coordinates recorded. -/
theorem action_effect (buffer : List Nat) (t : session_details) (g : game_board)
    (errno : Nat) (lock_rc unlock_rc : Int) (a : action_result)
    (hg : t.current_game = some g)
    (h : action_request buffer (some t) errno lock_rc unlock_rc = some a) :
    ∃ t1, a.session = some t1
      ∧ (t1.current_game = some g
        ∨ ∃ x y c rv b1, (g.player_1 ≠ none ∧ g.player_2 ≠ none)
          ∧ (g.whose_turn ≠ 0 ∧ g.whose_turn ≠ ch_D)
          ∧ write_x_or_o (some g) x y c = some (rv, some b1)
          ∧ (t1.current_game = some b1
            ∨ t1.current_game = some (record_last_move t.logged_in_user b1 x y))) := by
  have hreply : ∀ code e held, ∃ t1, (reply code buffer t e held).session = some t1
      ∧ t1.current_game = some g := fun code e held => ⟨_, rfl, hg⟩
  unfold action_request at h
  simp only [hg] at h
  by_cases h1 : t.session_present = 0
  · rw [if_pos h1] at h
    injection h with h
    obtain ⟨t1, e1, e2⟩ := hreply INVALID_REQUEST errno false
    exact ⟨t1, by rw [← h]; exact e1, Or.inl e2⟩
  rw [if_neg h1] at h
  by_cases h2 : lock_rc ≠ 0
  · rw [if_pos h2] at h
    injection h with h
    obtain ⟨t1, e1, e2⟩ := hreply INTERNAL_SERVER_ERROR errno false
    exact ⟨t1, by rw [← h]; exact e1, Or.inl e2⟩
  rw [if_neg h2] at h
  by_cases h3 : g.whose_turn = 0 ∨ g.whose_turn = ch_D
  · rw [if_pos h3] at h
    by_cases hu : unlock_rc ≠ 0
    · rw [if_pos hu] at h
      injection h with h
      obtain ⟨t1, e1, e2⟩ := hreply INTERNAL_SERVER_ERROR errno true
      exact ⟨t1, by rw [← h]; exact e1, Or.inl e2⟩
    · rw [if_neg hu] at h
      injection h with h
      obtain ⟨t1, e1, e2⟩ := hreply NO_FURTHER_ACTIONS_PERMITTED errno false
      exact ⟨t1, by rw [← h]; exact e1, Or.inl e2⟩
  rw [if_neg h3] at h
  by_cases h4 : g.player_1 = none ∨ g.player_2 = none
  · rw [if_pos h4] at h
    by_cases hu : unlock_rc ≠ 0
    · rw [if_pos hu] at h
      injection h with h
      obtain ⟨t1, e1, e2⟩ := hreply INTERNAL_SERVER_ERROR errno true
      exact ⟨t1, by rw [← h]; exact e1, Or.inl e2⟩
    · rw [if_neg hu] at h
      injection h with h
      obtain ⟨t1, e1, e2⟩ := hreply NO_PLAYER_PRESENT errno false
      exact ⟨t1, by rw [← h]; exact e1, Or.inl e2⟩
  rw [if_neg h4] at h
  by_cases h5 : (g.player_1 = t.logged_in_user ∧ g.whose_turn = ch_o)
      ∨ (g.player_2 = t.logged_in_user ∧ g.whose_turn = ch_x)
  · rw [if_pos h5] at h
    by_cases hu : unlock_rc ≠ 0
    · rw [if_pos hu] at h
      injection h with h
      obtain ⟨t1, e1, e2⟩ := hreply INTERNAL_SERVER_ERROR errno true
      exact ⟨t1, by rw [← h]; exact e1, Or.inl e2⟩
    · rw [if_neg hu] at h
      injection h with h
      obtain ⟨t1, e1, e2⟩ := hreply NOT_YOUR_TURN errno false
      exact ⟨t1, by rw [← h]; exact e1, Or.inl e2⟩
  rw [if_neg h5] at h
  have hboth : g.player_1 ≠ none ∧ g.player_2 ≠ none :=
    ⟨fun e => h4 (Or.inl e), fun e => h4 (Or.inr e)⟩
  have hturn : g.whose_turn ≠ 0 ∧ g.whose_turn ≠ ch_D :=
    ⟨fun e => h3 (Or.inl e), fun e => h3 (Or.inr e)⟩
  cases hc : get_coordinates_from_buffer (buffer.drop 1) 0 errno with
  | none => rw [hc] at h; exact absurd h (by simp)
  | some c =>
    rw [hc] at h
    simp only at h
    by_cases h6 : c.ret ≠ 0
    · rw [if_pos h6] at h
      injection h with h
      obtain ⟨t1, e1, e2⟩ := hreply INVALID_OPERANDS c.errno true
      exact ⟨t1, by rw [← h]; exact e1, Or.inl e2⟩
    rw [if_neg h6] at h
    cases hw : write_x_or_o (some g) c.x c.y
        (if g.player_1 = t.logged_in_user then ch_x else ch_o) with
    | none => rw [hw] at h; exact absurd h (by simp)
    | some rb =>
      obtain ⟨rv, ob⟩ := rb
      cases ob with
      | none => rw [hw] at h; exact absurd h (by simp)
      | some g1 =>
        rw [hw] at h
        simp only at h
        by_cases h7 : rv = -2
        · rw [if_pos h7] at h
          injection h with h
          exact ⟨_, by rw [← h]; rfl, Or.inr ⟨_, _, _, _, _, hboth, hturn, hw, Or.inl rfl⟩⟩
        rw [if_neg h7] at h
        by_cases h8 : rv = -5
        · rw [if_pos h8] at h
          injection h with h
          exact ⟨_, by rw [← h]; rfl, Or.inr ⟨_, _, _, _, _, hboth, hturn, hw, Or.inl rfl⟩⟩
        rw [if_neg h8] at h
        by_cases h9 : rv = 0 ∨ rv = -1 ∨ rv = -4
        · rw [if_pos h9] at h
          injection h with h
          obtain ⟨t1, e1, e2⟩ := finish_action_board buffer t g1 c.x c.y c.errno unlock_rc
          exact ⟨t1, by rw [← h]; exact e1,
            Or.inr ⟨_, _, _, _, _, hboth, hturn, hw, Or.inr e2⟩⟩
        · rw [if_neg h9] at h
          injection h with h
          exact ⟨_, by rw [← h]; rfl, Or.inr ⟨_, _, _, _, _, hboth, hturn, hw, Or.inl rfl⟩⟩

theorem steps_of_eq (b b1 : game_board) (h : b1 = b) :
    Relation.ReflTransGen board_step b b1 := by
  rw [h]

theorem update_other (mem : Nat → game_board) (p q : Nat) (b : game_board) (h : q ≠ p) :
    Function.update mem p b q = mem q := by
  simp [Function.update, h]

theorem update_self (mem : Nat → game_board) (p : Nat) (b : game_board) :
    Function.update mem p b p = b := by
  simp [Function.update]

/-- A call of `action_request` through the session pointer changes every board by
steps of `board_step`. -/
theorem action_steps (buffer : List Nat) (s : session_record)
    (games : game_boards_array) (mem : board_memory) (errno : Nat) (lock_rc unlock_rc : Int)
    (r : handler_result)
    (h : action_request_at buffer (some s) games mem errno lock_rc unlock_rc = some r)
    (q : Nat) : Relation.ReflTransGen board_step (mem.board q) (r.memory.board q) := by
  unfold action_request_at at h
  simp only at h
  cases ha : action_request buffer
      (some { logged_in_user := s.logged_in_user, bytes_written := s.bytes_written,
              fd := s.fd, session_present := s.session_present,
              current_game := s.current_game.map mem.board }) errno lock_rc unlock_rc with
  | none => rw [ha] at h; exact absurd h (by simp)
  | some a =>
    rw [ha] at h
    simp only at h
    cases hs : a.session with
    | none => rw [hs] at h; exact absurd h (by simp)
    | some t =>
      rw [hs] at h
      simp only at h
      injection h with h
      cases hp : s.current_game with
      | none =>
        rw [hp] at h
        rw [← h]
      | some p =>
        rw [hp] at h
        cases hb : t.current_game with
        | none =>
          rw [hb] at h
          rw [← h]
        | some b =>
          rw [hb] at h
          rw [← h]
          simp only
          by_cases hq : q = p
          · rw [hq, update_self]
            obtain ⟨t1, e1, e2⟩ := action_effect buffer _ (mem.board p) errno lock_rc
              unlock_rc a
              (by show Option.map mem.board s.current_game = some (mem.board p)
                  rw [hp]; rfl) ha
            rw [hs] at e1
            injection e1 with e1
            rw [← e1, hb] at e2
            rcases e2 with e2 | ⟨x, y, c, rv, b1, hboth, hturn, hw, e2 | e2⟩
            · injection e2 with e2
              exact steps_of_eq _ _ e2
            · injection e2 with e2
              rw [e2]
              exact Relation.ReflTransGen.single
                (board_step.move _ _ x y c rv hboth hturn hw)
            · injection e2 with e2
              rw [e2]
              exact Relation.ReflTransGen.tail
                (Relation.ReflTransGen.single (board_step.move _ _ x y c rv hboth hturn hw))
                (board_step.last_move _ _ _ _)
          · rw [update_other _ _ _ _ hq]

/-- The memory `join_random_game_request` leaves: unchanged, or the joiner is written
into the empty slot the scan found. -/
theorem join_memory_inv (buffer : List Nat) (s : session_record)
    (games : game_boards_array) (mem : board_memory) (draws : List Nat) (lock_rc unlock_rc : Int)
    (r : handler_result)
    (h : join_random_game_request buffer (some s) games mem draws lock_rc unlock_rc = some r) :
    r.memory = mem
    ∨ ∃ roll which p w,
        join_scan games mem games.number_of_elements draws 0 UINT_MAX games.visited
          = some (scan_outcome.found roll which p w)
        ∧ r.memory = write_joiner mem p which s.logged_in_user s.fd := by
  simp only [join_random_game_request] at h
  by_cases h1 : s.session_present = 0 ∨ s.current_game ≠ none
  · rw [if_pos h1] at h
    simp only [Option.some.injEq] at h
    rw [← h]
    exact Or.inl rfl
  rw [if_neg h1] at h
  by_cases h2 : lock_rc ≠ 0
  · rw [if_pos h2] at h
    simp only [Option.some.injEq] at h
    rw [← h]
    exact Or.inl rfl
  rw [if_neg h2] at h
  cases hscan : join_scan games mem games.number_of_elements draws 0 UINT_MAX games.visited with
  | none =>
    rw [hscan] at h
    exact Option.noConfusion h
  | some o =>
    rw [hscan] at h
    cases o with
    | exhausted w =>
      simp only at h
      cases hclear : clear_markers w games.number_of_elements with
      | none =>
        rw [hclear] at h
        exact Option.noConfusion h
      | some cleared =>
        rw [hclear] at h
        by_cases h3 : unlock_rc ≠ 0
        · simp only [if_pos h3, Option.some.injEq] at h
          rw [← h]
          exact Or.inl rfl
        · simp only [if_neg h3, Option.some.injEq] at h
          rw [← h]
          exact Or.inl rfl
    | found roll which p w =>
      simp only at h
      cases hclear : clear_markers w games.number_of_elements with
      | none =>
        rw [hclear] at h
        exact Option.noConfusion h
      | some cleared =>
        rw [hclear] at h
        by_cases h3 : unlock_rc ≠ 0
        · simp only [if_pos h3, Option.some.injEq] at h
          rw [← h]
          exact Or.inr ⟨roll, which, p, w, rfl, rfl⟩
        · have hlen : (decimal ((write_joiner mem p which s.logged_in_user s.fd).board
              p).board_size).length > 0 := List.length_pos.2 (decimal_ne_nil _)
          simp only [if_neg h3, if_pos hlen, Option.some.injEq] at h
          rw [← h]
          exact Or.inr ⟨roll, which, p, w, rfl, rfl⟩

theorem join_steps (buffer : List Nat) (s : session_record)
    (games : game_boards_array) (mem : board_memory) (draws : List Nat) (lock_rc unlock_rc : Int)
    (r : handler_result)
    (h : join_random_game_request buffer (some s) games mem draws lock_rc unlock_rc = some r)
    (q : Nat) : Relation.ReflTransGen board_step (mem.board q) (r.memory.board q) := by
  rcases join_memory_inv buffer s games mem draws lock_rc unlock_rc r h with
    e | ⟨roll, which, p, w, hscan, e⟩
  · rw [e]
  · rw [e]
    unfold write_joiner
    simp only
    by_cases hq : q = p
    · rw [hq, update_self]
      exact Relation.ReflTransGen.single (board_step.join _ which _ _
        (join_scan_found games mem games.number_of_elements draws 0 UINT_MAX games.visited
          roll which p w hscan).2.2)
    · rw [update_other _ _ _ _ hq]

/-- The only field `game_boards_array_remove` writes in a board is `index`. -/
theorem remove_memory_effect (a : game_boards_array) (g : Nat) (mem : board_memory)
    (env : remove_env) (rc : Int) (a1 : Option game_boards_array) (mem1 : board_memory)
    (h : game_boards_array_remove (some a) (some g) mem env = some (rc, a1, mem1)) (q : Nat) :
    mem1.board q = mem.board q ∨ ∃ k, mem1.board q = { mem.board q with index := k } := by
  have hresize : ∀ (a2 : game_boards_array) (m : board_memory),
      (resize_visited a2 m env).2.2 = m := by
    intro a2 m
    unfold resize_visited
    split
    · split <;> rfl
    · rfl
  have hshrink : ∀ (a2 : game_boards_array) (m : board_memory),
      (shrink_after_remove a2 m env).2.2 = m := by
    intro a2 m
    unfold shrink_after_remove
    split
    · split
      · rfl
      · exact hresize _ m
    · exact hresize _ m
  unfold game_boards_array_remove at h
  simp only at h
  by_cases h1 : env.lock_rc ≠ 0
  · rw [if_pos h1] at h
    injection h with h
    injection h with _ h
    injection h with _ h
    exact Or.inl (by rw [← h])
  rw [if_neg h1] at h
  by_cases h2 : a.number_of_elements = 0 ∨ a.number_of_elements - 1 < (mem.board g).index
  · rw [if_pos h2] at h
    injection h with h
    injection h with _ h
    injection h with _ h
    exact Or.inl (by rw [← h])
  rw [if_neg h2] at h
  cases hslot : a.array[(mem.board g).index]? with
  | none => rw [hslot] at h; exact absurd h (by simp)
  | some op =>
    cases op with
    | none => rw [hslot] at h; exact absurd h (by simp)
    | some p =>
      rw [hslot] at h
      simp only at h
      by_cases h3 : env.destroy_rc ≠ 0
      · rw [if_pos h3] at h
        injection h with h
        injection h with _ h
        injection h with _ h
        exact Or.inl (by rw [← h])
      rw [if_neg h3] at h
      cases hmove : move_last a.array
          { mem with freed_matrices := p :: mem.freed_matrices } (mem.board g).index
          a.number_of_elements with
      | none => rw [hmove] at h; exact absurd h (by simp)
      | some sm =>
        obtain ⟨slots1, mem2⟩ := sm
        rw [hmove] at h
        simp only at h
        by_cases h4 : a.number_of_elements - 1 < slots1.length
        · rw [if_pos h4] at h
          injection h with h
          have hm := congrArg (fun t => t.2.2) h
          simp only [hshrink] at hm
          have hmem2 : mem2.board q = mem.board q
              ∨ ∃ k, mem2.board q = { mem.board q with index := k } := by
            unfold move_last at hmove
            by_cases h5 : (mem.board g).index < a.number_of_elements - 1
            · rw [if_pos h5] at hmove
              cases hl : a.array[a.number_of_elements - 1]? with
              | none => rw [hl] at hmove; exact absurd hmove (by simp)
              | some ol =>
                cases ol with
                | none => rw [hl] at hmove; exact absurd hmove (by simp)
                | some ql =>
                  rw [hl] at hmove
                  simp only at hmove
                  injection hmove with hmove
                  injection hmove with _ hmove
                  rw [← hmove]
                  simp only
                  by_cases hq : q = ql
                  · rw [hq, update_self]
                    exact Or.inr ⟨_, rfl⟩
                  · rw [update_other _ _ _ _ hq]
                    exact Or.inl rfl
            · rw [if_neg h5] at hmove
              injection hmove with hmove
              injection hmove with _ hmove
              rw [← hmove]
              exact Or.inl rfl
          have hm3 : mem1.board q = mem2.board q := by
            rw [← hm]
            split <;> rfl
          rw [hm3]
          exact hmem2
        · rw [if_neg h4] at h
          exact absurd h (by simp)

/-- A call of `leave_game_request` changes every board by steps of `board_step`. -/
theorem leave_steps (buffer : List Nat) (s : session_record)
    (games : game_boards_array) (mem : board_memory) (env : leave_env) (r : handler_result)
    (h : leave_game_request buffer (some s) games mem env = some r)
    (q : Nat) : Relation.ReflTransGen board_step (mem.board q) (r.memory.board q) := by
  unfold leave_game_request at h
  simp only at h
  by_cases h1 : s.session_present = 0
  · rw [if_pos h1] at h
    injection h with h
    rw [← h]
    exact Relation.ReflTransGen.refl
  rw [if_neg h1] at h
  cases hp : s.current_game with
  | none =>
    rw [hp] at h
    injection h with h
    rw [← h]
    exact Relation.ReflTransGen.refl
  | some p =>
    rw [hp] at h
    simp only at h
    by_cases h2 : env.lock_rc ≠ 0
    · rw [if_pos h2] at h
      injection h with h
      rw [← h]
      exact Relation.ReflTransGen.refl
    rw [if_neg h2] at h
    have hfirst : Relation.ReflTransGen board_step (mem.board q)
        (Function.update mem.board p (vacate (mem.board p) s.logged_in_user) q) := by
      by_cases hq : q = p
      · rw [hq, update_self]
        exact Relation.ReflTransGen.single (board_step.leave _ _)
      · rw [update_other _ _ _ _ hq]
    by_cases h3 : env.unlock_rc ≠ 0
    · rw [if_pos h3] at h
      injection h with h
      rw [← h]
      exact hfirst
    rw [if_neg h3] at h
    by_cases h4 : (vacate (mem.board p) s.logged_in_user).player_1 = none
        ∧ (vacate (mem.board p) s.logged_in_user).player_2 = none
    · rw [if_pos h4] at h
      cases hrem : game_boards_array_remove (some games) (some p)
          { mem with
            board := Function.update mem.board p (vacate (mem.board p) s.logged_in_user) }
          env.remove with
      | none => rw [hrem] at h; exact absurd h (by simp)
      | some t =>
        obtain ⟨rc, og, mem2⟩ := t
        cases og with
        | none => rw [hrem] at h; exact absurd h (by simp)
        | some games1 =>
          rw [hrem] at h
          simp only at h
          have hmem : r.memory = mem2 := by
            by_cases h5 : rc ≠ 0
            · rw [if_pos h5] at h
              injection h with h
              rw [← h]
              rfl
            · rw [if_neg h5] at h
              injection h with h
              rw [← h]
              rfl
          rw [hmem]
          rcases remove_memory_effect games p _ env.remove rc _ mem2 hrem q with e | ⟨k, e⟩
          · rw [e]
            exact hfirst
          · rw [e]
            exact Relation.ReflTransGen.tail hfirst (board_step.reindex _ k)
    · rw [if_neg h4] at h
      injection h with h
      rw [← h]
      exact hfirst

/-- The only field `game_boards_array_add` writes in a board is `index`. -/
theorem add_memory_effect (a : game_boards_array) (g : Nat) (mem : board_memory)
    (env : add_env) (rc : Int) (a1 : Option game_boards_array) (mem1 : board_memory)
    (h : game_boards_array_add (some a) (some g) mem env = some (rc, a1, mem1)) (q : Nat) :
    mem1.board q = mem.board q ∨ ∃ k, mem1.board q = { mem.board q with index := k } := by
  have hupd : (Function.update mem.board g { mem.board g with index := a.number_of_elements }) q
        = mem.board q
      ∨ ∃ k, (Function.update mem.board g { mem.board g with index := a.number_of_elements }) q
        = { mem.board q with index := k } := by
    by_cases hq : q = g
    · rw [hq, update_self]
      exact Or.inr ⟨_, rfl⟩
    · rw [update_other _ _ _ _ hq]
      exact Or.inl rfl
  unfold game_boards_array_add at h
  simp only at h
  by_cases h1 : env.lock_rc ≠ 0
  · rw [if_pos h1] at h
    injection h with h
    injection h with _ h
    injection h with _ h
    exact Or.inl (by rw [← h])
  rw [if_neg h1] at h
  by_cases h2 : a.array_size = 0
  · rw [if_pos h2] at h
    injection h with h
    injection h with _ h
    injection h with _ h
    exact Or.inl (by rw [← h])
  rw [if_neg h2] at h
  by_cases h3 : a.number_of_elements = a.array_size
  · rw [if_pos h3] at h
    injection h with h
    injection h with _ h
    injection h with _ h
    exact Or.inl (by rw [← h])
  rw [if_neg h3] at h
  by_cases h4 : a.visited = none ∧ env.calloc_ok = false
  · rw [if_pos h4] at h
    injection h with h
    injection h with _ h
    injection h with _ h
    rw [← h]
    exact hupd
  rw [if_neg h4] at h
  by_cases h5 : a.number_of_elements < a.array.length
  · rw [if_pos h5] at h
    by_cases h6 : a.number_of_elements + 1 = a.array_size
    · rw [if_pos h6] at h
      cases hra : env.realloc_array with
      | none =>
        rw [hra] at h
        simp only at h
        injection h with h
        injection h with _ h
        injection h with _ h
        rw [← h]
        exact hupd
      | some ja =>
        cases hrv : env.realloc_visited with
        | none =>
          rw [hra, hrv] at h
          simp only at h
          injection h with h
          injection h with _ h
          injection h with _ h
          rw [← h]
          exact hupd
        | some jv =>
          rw [hra, hrv] at h
          simp only at h
          injection h with h
          injection h with _ h
          injection h with _ h
          rw [← h]
          exact hupd
    · rw [if_neg h6] at h
      injection h with h
      injection h with _ h
      injection h with _ h
      rw [← h]
      exact hupd
  · rw [if_neg h5] at h
    exact absurd h (by simp)

theorem first_turn_open (mark : Nat) (b : game_board) (h : b.whose_turn = 0) :
    turn_open (first_turn mark b) := by
  unfold first_turn
  split
  · exact Or.inr (Or.inr rfl)
  · split
    · exact Or.inr (Or.inl rfl)
    · exact Or.inl h

/-- What `create_new_game_request` does to the board memory: a board other than the one
`calloc` returns changes at most in a step of `board_step`, and the board `calloc`
returns is left with the turn state 0, `'x'` or `'o'`. -/
theorem create_memory_effect (buffer : List Nat) (s : session_record)
    (games : game_boards_array) (mem : board_memory) (env : create_env) (r : handler_result)
    (h : create_new_game_request buffer (some s) games mem env = some r) (q : Nat) :
    Relation.ReflTransGen board_step (mem.board q) (r.memory.board q)
    ∨ (env.calloc_game = some q ∧ turn_open (r.memory.board q)) := by
  simp only [create_new_game_request] at h
  by_cases h1 : s.session_present = 0 ∨ s.current_game ≠ none
  · rw [if_pos h1] at h
    injection h with h
    rw [← h]
    exact Or.inl Relation.ReflTransGen.refl
  rw [if_neg h1] at h
  cases hg : env.calloc_game with
  | none =>
    rw [hg] at h
    injection h with h
    rw [← h]
    exact Or.inl Relation.ReflTransGen.refl
  | some g =>
    rw [hg] at h
    simp only at h
    have hfresh : ∀ (b : game_board) (m : board_memory), turn_open b →
        m.board = Function.update mem.board g b →
        Relation.ReflTransGen board_step (mem.board q) (m.board q)
        ∨ (some g = some q ∧ turn_open (m.board q)) := by
      intro b m hb hm
      by_cases hq : q = g
      · right
        rw [hm, hq, update_self]
        exact ⟨rfl, hb⟩
      · left
        rw [hm, update_other _ _ _ _ hq]
    cases hmm : env.malloc_matrix with
    | none =>
      rw [hmm] at h
      injection h with h
      rw [← h]
      exact hfresh _ _ (Or.inl rfl) rfl
    | some junk =>
      rw [hmm] at h
      simp only at h
      by_cases h2 : env.mutex_init_rc ≠ 0
      · rw [if_pos h2] at h
        injection h with h
        rw [← h]
        exact hfresh _ _ (Or.inl rfl) rfl
      rw [if_neg h2] at h
      by_cases h3 : buffer.length < BUFFER_LENGTH
      · rw [if_pos h3] at h
        exact absurd h (by simp)
      rw [if_neg h3] at h
      have hopen : turn_open (created_board s env) := by
        unfold created_board
        exact first_turn_open _ _ (by rw [(seat_creator_fields _ _ _ _).2.2.2]; rfl)
      have hsize := created_board_size s env
      have hd : (decimal BOARD_SIZE).length > 0 := by decide
      simp only [created_board, creator_case] at hsize
      simp only [hsize] at h
      rw [if_pos hd] at h
      cases hadd : game_boards_array_add (some games) (some g)
          { mem with board := Function.update mem.board g (created_board s env) }
          env.add with
      | none =>
        simp only [created_board, creator_case] at hadd
        rw [hadd] at h
        exact Option.noConfusion h
      | some t =>
        obtain ⟨rc, a1, mem2⟩ := t
        have hadd0 := hadd
        simp only [created_board, creator_case] at hadd
        rw [hadd] at h
        cases a1 with
        | none => exact Option.noConfusion h
        | some games1 =>
          simp only at h
          have hr : r.memory.board = mem2.board := by
            by_cases h4 : rc = 0
            · rw [if_pos h4] at h
              simp only [Option.some.injEq] at h
              rw [← h]
            · rw [if_neg h4] at h
              simp only [Option.some.injEq] at h
              rw [← h]
              rfl
          rw [hr]
          have hfirst := hfresh (created_board s env)
            { mem with board := Function.update mem.board g (created_board s env) } hopen rfl
          rcases add_memory_effect games g _ env.add rc _ mem2 hadd0 q with e | ⟨k, e⟩
          · rw [e]
            exact hfirst
          · rw [e]
            rcases hfirst with hs | ⟨e2, ho⟩
            · exact Or.inl (Relation.ReflTransGen.tail hs (board_step.reindex _ k))
            · exact Or.inr ⟨e2, ho⟩

theorem login_memory (buffer : List Nat) (s : session_record)
    (games : game_boards_array) (mem : board_memory) (env : login_env) (r : handler_result)
    (h : login_request buffer (some s) games mem env = some r) : r.memory = mem := by
  unfold login_request at h
  simp only at h
  repeat' split at h
  all_goals first
    | (injection h with h; subst h; rfl)
    | exact Option.noConfusion h

/-- Every request handler changes every board by steps of `board_step`, except that
`create_new_game_request` sets up the block `calloc` returns, with the turn state 0,
`'x'` or `'o'`. -/
theorem handler_effect (opcode : Nat) (buffer : List Nat) (s : session_record)
    (games : game_boards_array) (mem : board_memory) (env : handler_env) (r : handler_result)
    (h : handler opcode buffer (some s) games mem env = some r) (q : Nat) :
    Relation.ReflTransGen board_step (mem.board q) (r.memory.board q)
    ∨ (opcode = CREATE_NEW_GAME_REQUEST ∧ env.create.calloc_game = some q
      ∧ turn_open (r.memory.board q)) := by
  unfold handler at h
  by_cases h1 : opcode = LOGIN_REQUEST
  · rw [if_pos h1] at h
    rw [login_memory buffer s games mem env.login r h]
    exact Or.inl Relation.ReflTransGen.refl
  rw [if_neg h1] at h
  by_cases h2 : opcode = LOGOUT_REQUEST
  · rw [if_pos h2] at h
    injection h with h
    rw [← h]
    unfold logout_request
    simp only
    split <;> exact Or.inl Relation.ReflTransGen.refl
  rw [if_neg h2] at h
  by_cases h3 : opcode = CREATE_USER_REQUEST
  · rw [if_pos h3] at h
    injection h with h
    rw [← h]
    unfold create_user_request
    simp only
    split <;> exact Or.inl Relation.ReflTransGen.refl
  rw [if_neg h3] at h
  by_cases h4 : opcode = JOIN_RANDOM_GAME_REQUEST
  · rw [if_pos h4] at h
    exact Or.inl (join_steps buffer s games mem _ _ _ r h q)
  rw [if_neg h4] at h
  by_cases h5 : opcode = CREATE_NEW_GAME_REQUEST
  · rw [if_pos h5] at h
    rcases create_memory_effect buffer s games mem env.create r h q with e | ⟨e1, e2⟩
    · exact Or.inl e
    · exact Or.inr ⟨h5, e1, e2⟩
  rw [if_neg h5] at h
  by_cases h6 : opcode = LEAVE_GAME_REQUEST
  · rw [if_pos h6] at h
    exact Or.inl (leave_steps buffer s games mem env.leave r h q)
  rw [if_neg h6] at h
  by_cases h7 : opcode = ACTION_REQUEST
  · rw [if_pos h7] at h
    exact Or.inl (action_steps buffer s games mem _ _ _ r h q)
  rw [if_neg h7] at h
  exact Option.noConfusion h

theorem occupy_slot_fields (b : game_board) (which : Nat) (user : Option Nat) (fd : Int) :
    (occupy_slot b which user fd).matrix = b.matrix
    ∧ (occupy_slot b which user fd).whose_turn = b.whose_turn := by
  unfold occupy_slot
  split <;> exact ⟨rfl, rfl⟩

theorem vacate_fields (b : game_board) (user : Option Nat) :
    (vacate b user).matrix = b.matrix ∧ (vacate b user).whose_turn = 0 := by
  unfold vacate
  simp only
  split <;> split <;> (try split) <;> exact ⟨rfl, rfl⟩

theorem write_keeps_players (b b1 : game_board) (x y c : Nat) (rv : Int)
    (h : write_x_or_o (some b) x y c = some (rv, some b1)) :
    b1.player_1 = b.player_1 ∧ b1.player_2 = b.player_2 := by
  rcases write_effect b b1 x y c rv h with e | ⟨_, _, idx, v, t, _, _, _, e, _⟩
  · rw [e]
    exact ⟨rfl, rfl⟩
  · rw [e]
    exact ⟨rfl, rfl⟩

/-- A step of `board_step` keeps the property that a board with an empty slot has the
turn state 0, `'x'` or `'o'`. -/
theorem open_step (b b1 : game_board) (hstep : board_step b b1)
    (h : open_while_waiting b) : open_while_waiting b1 := by
  cases hstep with
  | reindex k => exact h
  | join which user fd hslot =>
    intro _
    have hf := occupy_slot_fields b which user fd
    have ho : turn_open b := by
      rcases hslot with ⟨_, e⟩ | ⟨_, _, e⟩
      · exact h (Or.inl e)
      · exact h (Or.inr e)
    unfold turn_open
    rw [hf.2]
    exact ho
  | leave user =>
    intro _
    exact Or.inl (vacate_fields b user).2
  | move _ x y c rv hboth hturn hw =>
    intro hfree
    have hp := write_keeps_players b b1 x y c rv hw
    rw [hp.1, hp.2] at hfree
    rcases hfree with e | e
    · exact absurd e hboth.1
    · exact absurd e hboth.2
  | last_move user x y =>
    have hf := record_last_move_fields user b x y
    intro hfree
    rw [hf.2.2.1, hf.2.2.2.1] at hfree
    unfold turn_open
    rw [hf.2.1]
    exact h hfree

theorem open_steps (b b1 : game_board) (hsteps : Relation.ReflTransGen board_step b b1)
    (h : open_while_waiting b) : open_while_waiting b1 := by
  induction hsteps with
  | refl => exact h
  | tail _ hlast ih => exact open_step _ _ hlast ih

theorem count_set_cell (l : List Nat) (idx v c d : Nat) (h : l[idx]? = some v) :
    (l.set idx c).count d
      = l.count d - (if v = d then 1 else 0) + (if c = d then 1 else 0) := by
  obtain ⟨hlt, hv⟩ := List.getElem?_eq_some.1 h
  rw [List.count_set c d l idx hlt, hv]
  simp only [beq_iff_eq]

theorem count_pos_of_cell (l : List Nat) (idx v : Nat) (h : l[idx]? = some v) :
    0 < l.count v := by
  obtain ⟨hlt, hv⟩ := List.getElem?_eq_some.1 h
  exact List.count_pos_iff.2 (hv ▸ List.getElem_mem hlt)

theorem marks_kept_refl (b : game_board) : marks_kept b b := fun _ => ⟨id, id⟩

theorem marks_kept_of_matrix (b b1 : game_board) (h : b1.matrix = b.matrix) :
    marks_kept b b1 := by
  intro i
  rw [h]
  exact ⟨id, id⟩

theorem marks_kept_trans (a b c : game_board) (h1 : marks_kept a b) (h2 : marks_kept b c) :
    marks_kept a c := fun i =>
  ⟨fun e => (h2 i).1 ((h1 i).1 e), fun e => (h2 i).2 ((h1 i).2 e)⟩

/-- A call of `write_x_or_o` keeps the cells valid and the marks alternating, and leaves
every marked cell as it is. -/
theorem write_keeps_fair (b b1 : game_board) (x y c : Nat) (rv : Int)
    (hw : write_x_or_o (some b) x y c = some (rv, some b1))
    (hv : cells_valid b) (ha : alternating b) :
    cells_valid b1 ∧ alternating b1 ∧ marks_kept b b1 := by
  rcases write_effect b b1 x y c rv hw with e | ⟨hturn, hc, idx, v, t, hcell, hvx, hvo, e, ht⟩
  · rw [e]
    exact ⟨hv, ha, marks_kept_refl b⟩
  · obtain ⟨hlt, hget⟩ := List.getElem?_eq_some.1 hcell
    have hvs : v = ch_space := by
      rcases hv v (hget ▸ List.getElem_mem hlt) with e1 | e1 | e1
      · exact e1
      · exact absurd e1 hvx
      · exact absurd e1 hvo
    have hxo : ch_x ≠ ch_o := by decide
    have hox : ch_o ≠ ch_x := by decide
    have hsx : ch_space ≠ ch_x := by decide
    have hso : ch_space ≠ ch_o := by decide
    have hwx : to_won_state ch_x ≠ ch_x ∧ to_won_state ch_x ≠ ch_o := by decide
    have hwo : to_won_state ch_o ≠ ch_x ∧ to_won_state ch_o ≠ ch_o := by decide
    have hdx : ch_D ≠ ch_x ∧ ch_D ≠ ch_o := by decide
    have hcx := count_set_cell b.matrix idx v c ch_x hcell
    have hco := count_set_cell b.matrix idx v c ch_o hcell
    rw [hvs] at hcx hco
    rw [if_neg hsx] at hcx
    rw [if_neg hso] at hco
    obtain ⟨a1, a2, a3, a4⟩ := ha
    unfold marks at a1 a2 a3 a4
    refine ⟨?_, ?_, ?_⟩
    · intro d hd
      rw [e] at hd
      rcases List.mem_or_eq_of_mem_set hd with hd1 | hd1
      · exact hv d hd1
      · rw [hd1]
        rcases hc with e1 | e1
        · exact Or.inr (Or.inl e1)
        · exact Or.inr (Or.inr e1)
    · unfold alternating marks
      rw [e]
      simp only
      rw [hcx, hco]
      rcases hc with e1 | e1
      · rw [e1] at hturn ht
        rw [e1, if_pos rfl, if_neg hxo]
        have a5 := a3 hturn
        rw [if_pos rfl] at ht
        refine ⟨by omega, by omega, ?_, ?_⟩
        · intro h1
          rcases ht with h2 | h2 | h2
          · exact absurd (h2 ▸ h1) hwx.1
          · exact absurd (h2 ▸ h1) hdx.1
          · exact absurd (h2 ▸ h1) hox
        · intro _
          omega
      · rw [e1] at hturn ht
        rw [e1, if_pos rfl, if_neg hox]
        have a5 := a4 hturn
        rw [if_neg hox] at ht
        refine ⟨by omega, by omega, ?_, ?_⟩
        · intro _
          omega
        · intro h1
          rcases ht with h2 | h2 | h2
          · exact absurd (h2 ▸ h1) hwo.2
          · exact absurd (h2 ▸ h1) hdx.2
          · exact absurd (h2 ▸ h1) hxo
    · intro i
      rw [e]
      simp only
      by_cases hi : idx = i
      · rw [← hi, hcell, hvs]
        constructor
        · intro h1
          injection h1 with h1
          exact absurd h1 hsx
        · intro h1
          injection h1 with h1
          exact absurd h1 hso
      · rw [List.getElem?_set_ne hi]
        exact ⟨id, id⟩

/-- A step of `board_step` keeps the cells valid and the marks alternating, and leaves
every marked cell as it is. -/
theorem fair_step (b b1 : game_board) (hstep : board_step b b1)
    (hv : cells_valid b) (ha : alternating b) :
    cells_valid b1 ∧ alternating b1 ∧ marks_kept b b1 := by
  have hzx : (0 : Nat) ≠ ch_x := by decide
  have hzo : (0 : Nat) ≠ ch_o := by decide
  cases hstep with
  | reindex k => exact ⟨hv, ha, marks_kept_refl b⟩
  | join which user fd hslot =>
    have hf := occupy_slot_fields b which user fd
    refine ⟨?_, ?_, marks_kept_of_matrix _ _ hf.1⟩
    · unfold cells_valid
      rw [hf.1]
      exact hv
    · unfold alternating marks
      rw [hf.1, hf.2]
      exact ha
  | leave user =>
    have hf := vacate_fields b user
    refine ⟨?_, ?_, marks_kept_of_matrix _ _ hf.1⟩
    · unfold cells_valid
      rw [hf.1]
      exact hv
    · unfold alternating marks
      rw [hf.1, hf.2]
      exact ⟨ha.1, ha.2.1, fun e => absurd e hzx, fun e => absurd e hzo⟩
  | move _ x y c rv hboth hturn hw => exact write_keeps_fair b b1 x y c rv hw hv ha
  | last_move user x y =>
    have hf := record_last_move_fields user b x y
    refine ⟨?_, ?_, marks_kept_of_matrix _ _ hf.1⟩
    · unfold cells_valid
      rw [hf.1]
      exact hv
    · unfold alternating marks
      rw [hf.1, hf.2.1]
      exact ha

theorem fair_steps (b b1 : game_board) (hsteps : Relation.ReflTransGen board_step b b1)
    (hv : cells_valid b) (ha : alternating b) :
    cells_valid b1 ∧ alternating b1 ∧ marks_kept b b1 := by
  induction hsteps with
  | refl => exact ⟨hv, ha, marks_kept_refl b⟩
  | tail _ hlast ih =>
    obtain ⟨h1, h2, h3⟩ := fair_step _ _ hlast ih.1 ih.2.1
    exact ⟨h1, h2, marks_kept_trans _ _ _ ih.2.2 h3⟩

theorem run_requests_cons (l : lobby) (q : request) (rest : List request) (l2 : lobby)
    (h : run_requests l (q :: rest) = some l2) :
    ∃ l1, run_requests l1 rest = some l2
      ∧ (l1.memory = l.memory
        ∨ ∃ s opcode r, q.buffer[0]? = some opcode
          ∧ handler opcode q.buffer (some s) l.games l.memory q.env = some r
          ∧ l1.memory = r.memory) := by
  unfold run_requests at h
  cases hs : l.sessions[q.who]? with
  | none => rw [hs] at h; exact Option.noConfusion h
  | some s =>
    cases ho : q.buffer[0]? with
    | none => rw [hs, ho] at h; exact Option.noConfusion h
    | some opcode =>
      rw [hs, ho] at h
      simp only at h
      by_cases hp : handler_present opcode = true
      · rw [if_pos hp] at h
        cases hr : handler opcode q.buffer (some s) l.games l.memory q.env with
        | none => rw [hr] at h; exact Option.noConfusion h
        | some r =>
          rw [hr] at h
          simp only at h
          cases hs1 : r.session with
          | none => rw [hs1] at h; exact Option.noConfusion h
          | some s1 =>
            rw [hs1] at h
            exact ⟨_, h, Or.inr ⟨s, opcode, r, rfl, hr, rfl⟩⟩
      · rw [if_neg hp] at h
        exact ⟨_, h, Or.inl rfl⟩

/-- Over every sequence of requests, every board with an empty slot keeps a turn state
that is 0, `'x'` or `'o'`. -/
theorem run_requests_open (calls : List request) :
    ∀ (l l1 : lobby), run_requests l calls = some l1 →
      (∀ q, open_while_waiting (l.memory.board q)) →
      ∀ q, open_while_waiting (l1.memory.board q) := by
  induction calls with
  | nil =>
    intro l l1 h hopen
    unfold run_requests at h
    injection h with h
    rw [← h]
    exact hopen
  | cons c rest ih =>
    intro l l1 h hopen
    obtain ⟨l0, hrest, hmem⟩ := run_requests_cons l c rest l1 h
    refine ih l0 l1 hrest ?_
    intro q
    rcases hmem with e | ⟨s, opcode, r, _, hr, e⟩
    · rw [e]
      exact hopen q
    · rw [e]
      rcases handler_effect opcode c.buffer s l.games l.memory c.env r hr q with
        hsteps | ⟨_, _, ho⟩
      · exact open_steps _ _ hsteps (hopen q)
      · exact fun _ => ho

/-- Over every sequence of requests in which `calloc` does not return the address `p`
for a new board, the board at `p` keeps valid cells and alternating marks, and its
marked cells stay as they are. -/
theorem run_requests_fair (p : Nat) (calls : List request) :
    ∀ (l l1 : lobby), run_requests l calls = some l1 →
      (∀ c ∈ calls, ¬ allocates c p) →
      cells_valid (l.memory.board p) → alternating (l.memory.board p) →
      cells_valid (l1.memory.board p) ∧ alternating (l1.memory.board p)
      ∧ marks_kept (l.memory.board p) (l1.memory.board p) := by
  induction calls with
  | nil =>
    intro l l1 h _ hv ha
    unfold run_requests at h
    injection h with h
    rw [← h]
    exact ⟨hv, ha, marks_kept_refl _⟩
  | cons c rest ih =>
    intro l l1 h hno hv ha
    obtain ⟨l0, hrest, hmem⟩ := run_requests_cons l c rest l1 h
    have hstep : cells_valid (l0.memory.board p) ∧ alternating (l0.memory.board p)
        ∧ marks_kept (l.memory.board p) (l0.memory.board p) := by
      rcases hmem with e | ⟨s, opcode, r, hop, hr, e⟩
      · rw [e]
        exact ⟨hv, ha, marks_kept_refl _⟩
      · rw [e]
        rcases handler_effect opcode c.buffer s l.games l.memory c.env r hr p with
          hsteps | ⟨e1, e2, _⟩
        · exact fair_steps _ _ hsteps hv ha
        · exact absurd ⟨by rw [hop, e1], e2⟩ (hno c (List.mem_cons_self c rest))
    obtain ⟨h1, h2, h3⟩ := ih l0 l1 hrest
      (fun c1 hc1 => hno c1 (List.mem_cons_of_mem c hc1)) hstep.1 hstep.2.1
    exact ⟨h1, h2, marks_kept_trans _ _ _ hstep.2.2 h3⟩

theorem lobby_after_run (l : lobby) (calls : List request)
    (h : (run_requests l calls).isSome = true) :
    run_requests l calls = some (lobby_after l calls) := by
  unfold lobby_after
  cases hr : run_requests l calls with
  | none => rw [hr] at h; exact absurd h (by decide)
  | some l1 => rfl

/-- A board as a successful `create_new_game_request` leaves it: nine empty cells, the
turn state `'x'` or `'o'`. -/
theorem created_board_fair (buffer : List Nat) (s : session_record)
    (games : game_boards_array) (mem : board_memory) (env : create_env) (r : handler_result)
    (p : Nat)
    (h : create_new_game_request buffer (some s) games mem env = some r)
    (hret : r.ret = CREATE_NEW_GAME_SUCCESS) (hp : matched_board r = some p) :
    env.calloc_game = some p
    ∧ (r.memory.board p).matrix = List.replicate 9 ch_space
    ∧ in_progress (r.memory.board p)
    ∧ cells_valid (r.memory.board p) ∧ alternating (r.memory.board p) := by
  obtain ⟨_, _, _, g, hg, hsess, _, hadd⟩ := create_success_inv buffer s games mem env r h hret
  have hpg : g = p := by
    unfold matched_board at hp
    rw [hsess] at hp
    exact Option.some.inj hp
  rw [hpg] at hg hadd
  obtain ⟨_, _, _, _, _, hboard, _⟩ := add_returns_zero games p _ env.add _ r.memory hadd
  have hb : r.memory.board p
      = { created_board s env with index := games.number_of_elements } := by
    rw [hboard]
    show { Function.update mem.board p (created_board s env) p with
      index := games.number_of_elements } = _
    rw [update_self]
  obtain ⟨hm, _, _, _, hturn⟩ := created_board_spec s env
  have hmat : (r.memory.board p).matrix = List.replicate 9 ch_space := by
    rw [hb]
    exact hm
  have hwt : (r.memory.board p).whose_turn = (created_board s env).whose_turn := by
    rw [hb]
  have hcx : (List.replicate 9 ch_space).count ch_x = 0 := by decide
  have hco : (List.replicate 9 ch_space).count ch_o = 0 := by decide
  refine ⟨hg, hmat, ?_, ?_, ?_⟩
  · unfold in_progress
    rw [hwt]
    rcases hturn with ⟨_, _, e⟩ | ⟨_, _, e⟩ | ⟨_, _, e⟩
    · exact Or.inr e
    · exact Or.inl e
    · exact Or.inr e
  · intro c hc
    rw [hmat] at hc
    exact Or.inl (List.eq_of_mem_replicate hc)
  · unfold alternating marks
    rw [hmat, hcx, hco]
    exact ⟨by omega, by omega, fun _ => le_refl 0, fun _ => le_refl 0⟩

/-! ## Which boards the matchmaking returns -/

set_option maxRecDepth 100000 in
/-- C38 counterexample: user 1 creates the board at address 20, user 2 joins it and
leaves again, which sets the turn state to 0 and keeps the board stored because user 1
is still on it. The join request of user 3 is then answered `JOIN_RANDOM_GAME_REPLY`
with this board, whose turn state is 0 before and after the call. -/
theorem C38_counterexample_left_board_is_matched :
    (run_requests three_sessions [create_call 0 20, join_call 1 [0], leave_call 1]).map
        (fun l => (l.replies, is_stored l.games 20, (l.memory.board 20).whose_turn))
      = some ([CREATE_NEW_GAME_SUCCESS, JOIN_RANDOM_GAME_REPLY, LEAVE_GAME_REPLY], true, 0)
    ∧ (join_random_game_request (request_buffer [JOIN_RANDOM_GAME_REQUEST])
        (some (lobby_session 3 6))
        (lobby_after three_sessions [create_call 0 20, join_call 1 [0], leave_call 1]).games
        (lobby_after three_sessions [create_call 0 20, join_call 1 [0], leave_call 1]).memory
        [0] 0 0).map
        (fun r => (r.ret, matched_board r, (r.memory.board 20).whose_turn,
          (r.memory.board 20).player_1, (r.memory.board 20).player_2))
      = some (JOIN_RANDOM_GAME_REPLY, some 20, 0, some 3, some 1)
    ∧ ¬ in_progress ((lobby_after three_sessions
        [create_call 0 20, join_call 1 [0], leave_call 1]).memory.board 20) := by
  refine ⟨by decide, by decide, by decide⟩

/-- C38 amended: start from a state in which every board with an empty slot has the
turn state 0, `'x'` or `'o'` (at the start of the server no board exists), and run any
sequence of requests through the handler table. Whenever `join_random_game_request`
then returns `JOIN_RANDOM_GAME_REPLY`, the board it placed the joiner on has the turn
state `'x'`, `'o'` or the unset state 0, never a terminal state, and the call leaves the
turn state as it is. -/
theorem C38_matched_board_not_terminal (l l1 : lobby) (calls : List request)
    (buffer : List Nat) (s : session_record) (draws : List Nat) (lock_rc unlock_rc : Int)
    (r : handler_result) (p : Nat)
    (hopen : ∀ q, open_while_waiting (l.memory.board q))
    (hrun : run_requests l calls = some l1)
    (hjoin : join_random_game_request buffer (some s) l1.games l1.memory draws lock_rc
      unlock_rc = some r)
    (hret : r.ret = JOIN_RANDOM_GAME_REPLY) (hmatch : matched_board r = some p) :
    (in_progress (l1.memory.board p) ∨ (l1.memory.board p).whose_turn = 0)
    ∧ ¬ turn_terminal (l1.memory.board p)
    ∧ (r.memory.board p).whose_turn = (l1.memory.board p).whose_turn := by
  obtain ⟨roll, which, p1, w, hscan, _, hsess, hmem⟩ :=
    join_success_inv buffer s l1.games l1.memory draws lock_rc unlock_rc r hjoin hret
  have hp : p1 = p := by
    unfold matched_board at hmatch
    rw [hsess] at hmatch
    exact Option.some.inj hmatch
  rw [hp] at hscan hmem
  have hslot := (join_scan_found l1.games l1.memory l1.games.number_of_elements draws 0
    UINT_MAX l1.games.visited roll which p w hscan).2.2
  have hfree : (l1.memory.board p).player_1 = none ∨ (l1.memory.board p).player_2 = none := by
    rcases hslot with ⟨_, e⟩ | ⟨_, _, e⟩
    · exact Or.inl e
    · exact Or.inr e
  have ho : turn_open (l1.memory.board p) :=
    run_requests_open calls l l1 hrun hopen p hfree
  have e1 : (0 : Nat) ≠ ch_X ∧ (0 : Nat) ≠ ch_O ∧ (0 : Nat) ≠ ch_D := by decide
  have e2 : ch_x ≠ ch_X ∧ ch_x ≠ ch_O ∧ ch_x ≠ ch_D := by decide
  have e3 : ch_o ≠ ch_X ∧ ch_o ≠ ch_O ∧ ch_o ≠ ch_D := by decide
  refine ⟨?_, ?_, ?_⟩
  · rcases ho with e | e | e
    · exact Or.inr e
    · exact Or.inl (Or.inl e)
    · exact Or.inl (Or.inr e)
  · intro ht
    unfold turn_terminal at ht
    rcases ho with e | e | e
    · rw [e] at ht
      rcases ht with t | t | t
      · exact e1.1 t
      · exact e1.2.1 t
      · exact e1.2.2 t
    · rw [e] at ht
      rcases ht with t | t | t
      · exact e2.1 t
      · exact e2.2.1 t
      · exact e2.2.2 t
    · rw [e] at ht
      rcases ht with t | t | t
      · exact e3.1 t
      · exact e3.2.1 t
      · exact e3.2.2 t
  · rw [hmem]
    unfold write_joiner
    simp only [update_self]
    exact (occupy_slot_fields _ _ _ _).2

set_option maxRecDepth 100000 in
/-- C38 amended, applied: after user 1 has created the board at address 20, the join
request of user 2 is matched to it while `'x'` is to move. -/
theorem C38_matched_board_not_terminal_witness :
    ∃ r, join_random_game_request (request_buffer [JOIN_RANDOM_GAME_REQUEST])
        (some (lobby_session 2 5))
        (lobby_after three_sessions [create_call 0 20]).games
        (lobby_after three_sessions [create_call 0 20]).memory [0] 0 0 = some r
      ∧ matched_board r = some 20
      ∧ ((lobby_after three_sessions [create_call 0 20]).memory.board 20).whose_turn = ch_x
      ∧ ¬ turn_terminal ((lobby_after three_sessions [create_call 0 20]).memory.board 20)
      ∧ (r.memory.board 20).whose_turn
        = ((lobby_after three_sessions [create_call 0 20]).memory.board 20).whose_turn :=
  match hj : join_random_game_request (request_buffer [JOIN_RANDOM_GAME_REQUEST])
      (some (lobby_session 2 5))
      (lobby_after three_sessions [create_call 0 20]).games
      (lobby_after three_sessions [create_call 0 20]).memory [0] 0 0 with
  | some r =>
    have hfacts : r.ret = JOIN_RANDOM_GAME_REPLY ∧ matched_board r = some 20 := by
      have h : (join_random_game_request (request_buffer [JOIN_RANDOM_GAME_REQUEST])
          (some (lobby_session 2 5))
          (lobby_after three_sessions [create_call 0 20]).games
          (lobby_after three_sessions [create_call 0 20]).memory [0] 0 0).map
            (fun r => (r.ret, matched_board r))
          = some (JOIN_RANDOM_GAME_REPLY, some 20) := by decide
      rw [hj] at h
      simp only [Option.map_some', Option.some.injEq, Prod.mk.injEq] at h
      exact h
    match C38_matched_board_not_terminal three_sessions
        (lobby_after three_sessions [create_call 0 20]) [create_call 0 20]
        (request_buffer [JOIN_RANDOM_GAME_REQUEST]) (lobby_session 2 5) [0] 0 0 r 20
        (fun _ _ => Or.inr (Or.inl rfl))
        (lobby_after_run three_sessions [create_call 0 20] (by decide))
        hj hfacts.1 hfacts.2 with
    | ⟨_, h2, h3⟩ => ⟨r, rfl, hfacts.2, by decide, h2, h3⟩
  | none => by
    have h : (join_random_game_request (request_buffer [JOIN_RANDOM_GAME_REQUEST])
        (some (lobby_session 2 5))
        (lobby_after three_sessions [create_call 0 20]).games
        (lobby_after three_sessions [create_call 0 20]).memory [0] 0 0).isSome
          = true := by decide
    rw [hj] at h
    exact absurd h (by decide)

/-! ## Strict alternation of the marks -/

/-- As long as the block of a board is not handed out again: let
`create_new_game_request` succeed with the board at address `p`, and run, from a state
that holds this board, any two sequences of requests through the handler table, one
after the other, in which `calloc` does not hand out the block at `p` for another
board. The created board has nine empty cells; after the first sequence every
cell of the board is `' '`, `'x'` or `'o'`, the numbers of `'x'` and `'o'` cells differ
by at most one and the side the turn state names has not marked more cells than the
other; and every cell marked after the first sequence holds the same mark after the
second. -/
theorem alternation_until_reallocated (buffer : List Nat) (s : session_record)
    (games : game_boards_array) (mem : board_memory) (env : create_env) (r : handler_result)
    (p : Nat) (l l1 l2 : lobby) (calls1 calls2 : List request)
    (hcreate : create_new_game_request buffer (some s) games mem env = some r)
    (hret : r.ret = CREATE_NEW_GAME_SUCCESS) (hp : matched_board r = some p)
    (hl : l.memory.board p = r.memory.board p)
    (hrun1 : run_requests l calls1 = some l1) (hno1 : ∀ c ∈ calls1, ¬ allocates c p)
    (hrun2 : run_requests l1 calls2 = some l2) (hno2 : ∀ c ∈ calls2, ¬ allocates c p) :
    (r.memory.board p).matrix = List.replicate 9 ch_space
    ∧ cells_valid (l1.memory.board p) ∧ alternating (l1.memory.board p)
    ∧ marks_kept (l1.memory.board p) (l2.memory.board p) := by
  obtain ⟨_, hm, _, hv, ha⟩ := created_board_fair buffer s games mem env r p hcreate hret hp
  rw [← hl] at hv ha
  obtain ⟨hv1, ha1, _⟩ := run_requests_fair p calls1 l l1 hrun1 hno1 hv ha
  obtain ⟨_, _, hk⟩ := run_requests_fair p calls2 l1 l2 hrun2 hno2 hv1 ha1
  exact ⟨hm, hv1, ha1, hk⟩

set_option maxRecDepth 100000 in
/-- A game on a block that is not handed out again: user 1 creates the board at address
20, user 2 joins it and marks the cell (0, 0) with `'x'`; then user 1 marks the cell
(1, 1) with `'o'` and a second move of user 1 is refused. The `'x'` stays where it
is. -/
theorem alternation_until_reallocated_example :
    ((lobby_after (lobby_after three_sessions [create_call 0 20])
        [join_call 1 [0], move_call 1 0 0]).memory.board 20).matrix
      = [ch_x, ch_space, ch_space, ch_space, ch_space, ch_space, ch_space, ch_space, ch_space]
    ∧ ((lobby_after (lobby_after (lobby_after three_sessions [create_call 0 20])
        [join_call 1 [0], move_call 1 0 0]) [move_call 0 1 1, move_call 0 2 2]).memory.board
          20).matrix
      = [ch_x, ch_space, ch_space, ch_space, ch_o, ch_space, ch_space, ch_space, ch_space]
    ∧ alternating ((lobby_after (lobby_after three_sessions [create_call 0 20])
        [join_call 1 [0], move_call 1 0 0]).memory.board 20)
    ∧ marks_kept
        ((lobby_after (lobby_after three_sessions [create_call 0 20])
          [join_call 1 [0], move_call 1 0 0]).memory.board 20)
        ((lobby_after (lobby_after (lobby_after three_sessions [create_call 0 20])
          [join_call 1 [0], move_call 1 0 0])
          [move_call 0 1 1, move_call 0 2 2]).memory.board 20) :=
  match hc : create_new_game_request (request_buffer [CREATE_NEW_GAME_REQUEST])
      (some (lobby_session 1 4)) empty_registry fresh_memory (create_at 20) with
  | some r =>
    have hfacts : r.ret = CREATE_NEW_GAME_SUCCESS ∧ matched_board r = some 20
        ∧ (lobby_after three_sessions [create_call 0 20]).memory.board 20
          = r.memory.board 20 := by
      have h : (create_new_game_request (request_buffer [CREATE_NEW_GAME_REQUEST])
          (some (lobby_session 1 4)) empty_registry fresh_memory (create_at 20)).map
            (fun r => (r.ret, matched_board r, r.memory.board 20))
          = some (CREATE_NEW_GAME_SUCCESS, some 20,
              (lobby_after three_sessions [create_call 0 20]).memory.board 20) := by decide
      rw [hc] at h
      simp only [Option.map_some', Option.some.injEq, Prod.mk.injEq] at h
      exact ⟨h.1, h.2.1, h.2.2.symm⟩
    match alternation_until_reallocated (request_buffer [CREATE_NEW_GAME_REQUEST])
        (lobby_session 1 4) empty_registry fresh_memory (create_at 20) r 20
        (lobby_after three_sessions [create_call 0 20])
        (lobby_after (lobby_after three_sessions [create_call 0 20])
          [join_call 1 [0], move_call 1 0 0])
        (lobby_after (lobby_after (lobby_after three_sessions [create_call 0 20])
          [join_call 1 [0], move_call 1 0 0]) [move_call 0 1 1, move_call 0 2 2])
        [join_call 1 [0], move_call 1 0 0] [move_call 0 1 1, move_call 0 2 2]
        hc hfacts.1 hfacts.2.1 hfacts.2.2
        (lobby_after_run _ _ (by decide)) (by decide)
        (lobby_after_run _ _ (by decide)) (by decide) with
    | ⟨_, _, h3, h4⟩ => ⟨by decide, by decide, h3, h4⟩
  | none => by
    have h : (create_new_game_request (request_buffer [CREATE_NEW_GAME_REQUEST])
        (some (lobby_session 1 4)) empty_registry fresh_memory (create_at 20)).isSome
          = true := by decide
    rw [hc] at h
    exact absurd h (by decide)

set_option maxRecDepth 100000 in
/-- C36: the code diverges from the claim (same defect as C32). Users 1, 2 and 3 create
the boards at 20, 21 and 22; user 3 leaves its board and joins the board at 21, where
user 3 marks the cell (0, 0) with `'x'` and user 2 the cell (1, 1) with `'o'`. Then user
1 leaves the board at 20: `game_boards_array_remove` moves the board at 21 to position 0
and passes it to `free`, although it is stored and both players are on it. When user 1
creates a board again and `calloc` returns the freed block at 21, the board the two
players point to is set up anew: the marked cells are empty again and the joiner is no
longer in its slot. -/
theorem C36_marks_wiped_on_reused_block :
    (run_requests three_sessions
        [create_call 0 20, create_call 1 21, create_call 2 22, leave_call 2, join_call 2 [1],
         move_call 2 0 0, move_call 1 1 1]).map
        (fun l => (l.replies, l.sessions.map (fun s => s.current_game),
          (l.memory.board 21).matrix))
      = some ([CREATE_NEW_GAME_SUCCESS, CREATE_NEW_GAME_SUCCESS, CREATE_NEW_GAME_SUCCESS,
            LEAVE_GAME_REPLY, JOIN_RANDOM_GAME_REPLY, ACTION_REPLY, ACTION_REPLY],
          [some 20, some 21, some 21],
          [ch_x, ch_space, ch_space, ch_space, ch_o, ch_space, ch_space, ch_space, ch_space])
    ∧ (run_requests three_sessions
        [create_call 0 20, create_call 1 21, create_call 2 22, leave_call 2, join_call 2 [1],
         move_call 2 0 0, move_call 1 1 1, leave_call 0]).map
        (fun l => (l.replies.drop 7, is_stored l.games 21, l.memory.freed_boards,
          (l.memory.board 21).matrix))
      = some ([LEAVE_GAME_REPLY], true, [21],
          [ch_x, ch_space, ch_space, ch_space, ch_o, ch_space, ch_space, ch_space, ch_space])
    ∧ (run_requests three_sessions
        [create_call 0 20, create_call 1 21, create_call 2 22, leave_call 2, join_call 2 [1],
         move_call 2 0 0, move_call 1 1 1, leave_call 0, create_call 0 21]).map
        (fun l => (l.replies.drop 7, l.sessions.map (fun s => s.current_game),
          (l.memory.board 21).matrix, (l.memory.board 21).player_1))
      = some ([LEAVE_GAME_REPLY, CREATE_NEW_GAME_SUCCESS], [some 21, some 21, some 21],
          List.replicate 9 ch_space, none) := by
  refine ⟨by decide, by decide, by decide⟩

end TicTacToe
